import Mathlib

/-!
# The cache backend's Object proxy (`backend/cache/object.go`)

A shallow embedding of the cached object of the cache backend: the object
record, its TTL / notification driven refresh, the passive accessors and the
write path.  Mutable state reached through pointers in the Go code (the
`*Object` itself, and the state hanging off `*Fs`: notification set, persistent
store, pending-upload ledger, background uploader, the two backends) is passed
explicitly; every call on a collaborator is also recorded in a trace so that
the number and order of origin round-trips can be stated.
-/

namespace path

/-- Cuts a string at every slash; the pieces contain no slash. -/
def segments : List Char → List (List Char)
  | [] => [[]]
  | c :: cs =>
    match segments cs with
    | [] => [[]]
    | seg :: rest => if c = '/' then [] :: seg :: rest else (c :: seg) :: rest

/-- One step of the lexical processing of `path.Clean`: the stack holds the
elements kept so far, innermost first. -/
def cleanStep (rooted : Bool) (stack : List (List Char)) (seg : List Char) :
    List (List Char) :=
  if seg = [] ∨ seg = ['.'] then stack
  else if seg = ['.', '.'] then
    match stack with
    | [] => if rooted then [] else [seg]
    | top :: rest => if top = ['.', '.'] then seg :: stack else rest
  else seg :: stack

/-- Joins path elements with single slashes. -/
def joinSegments : List (List Char) → List Char
  | [] => []
  | [s] => s
  | s :: t => s ++ '/' :: joinSegments t

/-- Go `path.Clean`: collapses repeated slashes, drops `.` elements, resolves
inner `..` elements, drops `..` at the start of a rooted path; the empty result
is `.`. -/
def Clean (p : String) : String :=
  let cs := p.data
  if cs = [] then "."
  else
    let rooted := cs.head? = some '/'
    let kept := ((segments cs).foldl (cleanStep rooted) []).reverse
    let body := joinSegments kept
    let out := if rooted then '/' :: body else body
    if out = [] then "." else String.mk out

/-- Go `path.Join` of two elements: empty elements are ignored, the result is
cleaned, and joining nothing gives the empty string. -/
def Join (a b : String) : String :=
  if a.data = [] ∧ b.data = [] then ""
  else if a.data = [] then Clean b
  else if b.data = [] then Clean a
  else Clean (String.mk (a.data ++ '/' :: b.data))

/-- Go `path.Split`: cuts right after the last slash, so the directory part
keeps the final slash; without a slash the directory is empty. -/
def Split (p : String) : String × String :=
  let r := p.data.reverse
  (String.mk (r.dropWhile (fun c => c != '/')).reverse,
   String.mk (r.takeWhile (fun c => c != '/')).reverse)

/-- Go `path.Dir`: the cleaned directory part. -/
def Dir (p : String) : String := Clean (Split p).1

end path

namespace cache

/-- Cache type of an object served by the wrapped remote. -/
def objectInCache : String := "Object"

/-- Cache type of an object waiting in the temporary upload area. -/
def objectPendingUpload : String := "TempObject"

/-- Go `error` values met in this file: errors handed back by a backend or by
the store, `errors.Wrapf` around one of them, `errors.Errorf`, and the runtime
failure of calling a method on a nil `fs.Object`. -/
inductive Error where
  | backend (code : Nat)
  | wrapf (cause : Error) (msg : String)
  | errorf (msg : String)
  | nilObject
  deriving DecidableEq, Repr

/-- Go `errors.Wrapf`: nil stays nil, anything else is wrapped with the message. -/
def Wrapf (err : Option Error) (msg : String) : Option Error :=
  match err with
  | none => none
  | some e => some (Error.wrapf e msg)

/-- Go `int64` conversion: the value modulo 2^64, in the signed range. -/
def wrap64 (n : Int) : Int := (n + 2 ^ 63) % 2 ^ 64 - 2 ^ 63

/-- Go `Time.UnixNano`: nanoseconds since the epoch as an `int64`.  A
`time.Time` instant is represented by its number of nanoseconds since the Unix
epoch, an unbounded integer. -/
def UnixNano (t : Int) : Int := wrap64 t

/-- Go `time.Unix(sec, nsec)`, as an instant in nanoseconds since the epoch. -/
def Unix (sec nsec : Int) : Int := sec * 1000000000 + nsec

/-- The two backends an object can be resolved from: the wrapped remote
(`f.Fs`, also `f.UnWrap()`) and the temporary upload area (`f.tempFs`). -/
inductive FsRef where
  | wrapped
  | temp
  deriving DecidableEq, Repr

/-- An `fs.Object` handed out by a backend: the metadata it reports, its
digests by hash type, and the error (`none` for nil) each of its methods
`Hash`, `SetModTime`, `Update` and `Remove` returns. -/
structure LiveObject where
  modTime : Int
  size : Int
  storable : Bool
  hashes : List (Nat × String)
  hashErr : Option Error
  setModTimeErr : Option Error
  updateErr : Option Error
  removeErr : Option Error
  deriving DecidableEq, Repr

/-- The source description given to `Update` (`fs.ObjectInfo`). -/
structure ObjectInfo where
  modTime : Int
  size : Int
  deriving DecidableEq, Repr

/-- The cached object.  `CacheFs` is passed alongside as a `Fs`; the embedded
`fs.Object` is the field `fsObject`, `none` when nil; `CacheHashes` is `none`
for a nil map. -/
structure Object where
  fsObject : Option LiveObject
  ParentFs : FsRef
  Name : String
  Dir : String
  CacheModTime : Int
  CacheSize : Int
  CacheStorable : Bool
  CacheType : String
  CacheTs : Int
  CacheHashes : Option (List (Nat × String))
  deriving DecidableEq, Repr

/-- Go `fs.EntryType`: what kind of entry a change notification is about. -/
inductive EntryType where
  | object
  | directory
  deriving DecidableEq, Repr

/-- Calls made on collaborators, in the order they happen. -/
inductive Event where
  | isNotifiedRemote (remote : String)
  | newObject (fs : FsRef) (remote : String)
  | searchPendingUpload (path : String)
  | addObject (o : Object)
  | removeObject (path : String)
  | removePendingUpload (path : String)
  | expireDir (path : String)
  | notifyChangeUpstreamIfNeeded (remote : String) (entryType : EntryType)
  | pause
  | play
  | objectUpdate (src : ObjectInfo)
  | objectRemove
  | objectSetModTime (t : Int)
  | objectHash (ht : Nat)
  deriving DecidableEq, Repr

/-- The cache `Fs` as far as the object code reads it: options, and the helpers
of the package whose code is not part of the sources at hand, taken as
parameters (`cleanPath`, `cleanRootFromPath`, and what a consultation does to
the notification set). -/
structure Fs where
  root : String
  tempWritePath : String
  fileAge : Int
  wrappedName : String
  tempName : String
  cleanPath : String → String
  cleanRootFromPath : String → String
  afterConsult : List String → String → List String

/-- Mutable state shared through `*Fs`, plus the clock and the two backends.
`now` is what `time.Now()` returns: a method call sees one reading of the
clock, and the clock is moved between calls.  `wrapped` and `temp` are what the two
backends answer to `NewObject`.  The four `Err` fields are the outcome of the
next call of the corresponding store method (`none` for success).  The trace
lists the calls on collaborators, most recent first. -/
structure World where
  now : Int
  notified : List String
  pending : List (String × Bool)
  objects : List (String × Object)
  chunks : List (String × Nat)
  expiredDirs : List String
  pauses : Nat
  wrapped : String → Except Error LiveObject
  temp : String → Except Error LiveObject
  addObjectErr : Option Error
  removeObjectErr : Option Error
  removePendingUploadErr : Option Error
  expireDirErr : Option Error
  trace : List Event

/-- Result of a call: the returned value, the object afterwards, the state
afterwards. -/
structure Out (α : Type) where
  val : α
  obj : Object
  world : World

/-- Appends a call to the trace. -/
def World.log (w : World) (e : Event) : World := { w with trace := e :: w.trace }

/-- Number of backend lookups (`NewObject` on either backend) in a trace. -/
def lookups (tr : List Event) : Nat :=
  tr.countP (fun e => match e with | Event.newObject _ _ => true | _ => false)

/-- Number of writes of an object record to the persistent store in a trace. -/
def persists (tr : List Event) : Nat :=
  tr.countP (fun e => match e with | Event.addObject _ => true | _ => false)

/-- Number of calls of the handle's `Update` in a trace. -/
def updates (tr : List Event) : Nat :=
  tr.countP (fun e => match e with | Event.objectUpdate _ => true | _ => false)

/-- Number of calls of the store's `RemoveObject` in a trace. -/
def purges (tr : List Event) : Nat :=
  tr.countP (fun e => match e with | Event.removeObject _ => true | _ => false)

/-- Number of calls of the handle's `Remove` in a trace. -/
def removes (tr : List Event) : Nat :=
  tr.countP (fun e => match e with | Event.objectRemove => true | _ => false)

/-- Number of calls of the store's `removePendingUpload` in a trace. -/
def unqueues (tr : List Event) : Nat :=
  tr.countP (fun e => match e with | Event.removePendingUpload _ => true | _ => false)

/-- Number of calls of the store's `ExpireDir` in a trace. -/
def expires (tr : List Event) : Nat :=
  tr.countP (fun e => match e with | Event.expireDir _ => true | _ => false)

/-- Number of upstream change notifications in a trace. -/
def notifies (tr : List Event) : Nat :=
  tr.countP (fun e => match e with
    | Event.notifyChangeUpstreamIfNeeded _ _ => true | _ => false)

/-- Number of calls of the handle's `Hash` in a trace. -/
def hashCalls (tr : List Event) : Nat :=
  tr.countP (fun e => match e with | Event.objectHash _ => true | _ => false)

/-- Number of ledger searches in a trace. -/
def searches (tr : List Event) : Nat :=
  tr.countP (fun e => match e with | Event.searchPendingUpload _ => true | _ => false)

/-- Modelled from the spec: `Fs.isNotifiedRemote`, whose code is not among the
sources.  It is a membership check on the Notification Set; entries are
transient and may be cleared once consulted, which is left to `afterConsult`. -/
def isNotifiedRemote (f : Fs) (w : World) (remote : String) : Bool × World :=
  (decide (remote ∈ w.notified),
   { w with notified := f.afterConsult w.notified remote,
            trace := Event.isNotifiedRemote remote :: w.trace })

/-- Modelled from the spec: the store's `SearchPendingUpload`, whose code is not
among the sources.  The ledger is keyed by absolute path and holds the "upload
started" flag; a path without an entry gives an error. -/
def SearchPendingUpload (w : World) (p : String) : Except Error Bool × World :=
  (match w.pending.lookup p with
   | some started => Except.ok started
   | none => Except.error (Error.errorf "pending upload not found"),
   w.log (Event.searchPendingUpload p))

/-- Modelled from the spec: the store's `AddObject`, whose code is not among the
sources.  The record is stored under the object's absolute path, replacing an
older one; a failing write stores nothing. -/
def AddObject (w : World) (key : String) (o : Object) : Option Error × World :=
  match w.addObjectErr with
  | some e => (some e, w.log (Event.addObject o))
  | none =>
    (none, { w with objects := (key, o) :: w.objects.filter (fun kv => kv.1 != key),
                    trace := Event.addObject o :: w.trace })

/-- Modelled from the spec: the store's `RemoveObject`, whose code is not among
the sources.  It purges the object record and all chunks of the path; a failing
call removes nothing. -/
def RemoveObject (w : World) (key : String) : Option Error × World :=
  match w.removeObjectErr with
  | some e => (some e, w.log (Event.removeObject key))
  | none =>
    (none, { w with objects := w.objects.filter (fun kv => kv.1 != key),
                    chunks := w.chunks.filter (fun kv => kv.1 != key),
                    trace := Event.removeObject key :: w.trace })

/-- Modelled from the spec: the store's `removePendingUpload`, whose code is not
among the sources.  It drops the ledger entry of the path; a failing call
removes nothing. -/
def removePendingUpload (w : World) (key : String) : Option Error × World :=
  match w.removePendingUploadErr with
  | some e => (some e, w.log (Event.removePendingUpload key))
  | none =>
    (none, { w with pending := w.pending.filter (fun kv => kv.1 != key),
                    trace := Event.removePendingUpload key :: w.trace })

/-- Modelled from the spec: the directory record built by `NewDirectory`, whose
code is not among the sources.  Only the remote it stands for is kept. -/
structure Directory where
  remote : String
  deriving DecidableEq, Repr

/-- Modelled from the spec: `NewDirectory`, whose code is not among the sources:
the directory record of a remote. -/
def NewDirectory (_f : Fs) (remote : String) : Directory := { remote := remote }

/-- Modelled from the spec: `Directory.Remote`, whose code is not among the
sources: the remote the record stands for. -/
def Directory.Remote (d : Directory) : String := d.remote

/-- Modelled from the spec: the store's `ExpireDir`, whose code is not among the
sources.  It marks the listing of one directory stale whatever its TTL; a
failing call marks nothing. -/
def ExpireDir (w : World) (cd : Directory) : Option Error × World :=
  match w.expireDirErr with
  | some e => (some e, w.log (Event.expireDir cd.remote))
  | none =>
    (none, { w with expiredDirs := cd.remote :: w.expiredDirs,
                    trace := Event.expireDir cd.remote :: w.trace })

/-- Modelled from the spec: `Fs.notifyChangeUpstreamIfNeeded`, whose code is not
among the sources: the outward signal that a path changed.  Only the call is
recorded. -/
def notifyChangeUpstreamIfNeeded (w : World) (remote : String) (entryType : EntryType) :
    World :=
  w.log (Event.notifyChangeUpstreamIfNeeded remote entryType)

/-- Modelled from the spec: `backgroundRunner.pause`, whose code is not among
the sources; pausers are counted. -/
def pause (w : World) : World :=
  { w with pauses := w.pauses + 1, trace := Event.pause :: w.trace }

/-- Modelled from the spec: `backgroundRunner.play`, whose code is not among
the sources; it releases one pause. -/
def play (w : World) : World :=
  { w with pauses := w.pauses - 1, trace := Event.play :: w.trace }

/-- What a backend currently answers to a lookup of a remote. -/
def World.resolve (w : World) (r : FsRef) (remote : String) : Except Error LiveObject :=
  match r with
  | FsRef.wrapped => w.wrapped remote
  | FsRef.temp => w.temp remote

/-- Go `fs.Fs.NewObject` on one of the two backends. -/
def FsRef.NewObject (r : FsRef) (w : World) (remote : String) :
    Except Error LiveObject × World :=
  (w.resolve r remote, w.log (Event.newObject r remote))

/-- What `%v` prints for a backend. -/
def FsRef.name (r : FsRef) (f : Fs) : String :=
  match r with
  | FsRef.wrapped => f.wrappedName
  | FsRef.temp => f.tempName

/-- Go `Object.abs`: the absolute path to the object. -/
def Object.abs (o : Object) : String := path.Join o.Dir o.Name

/-- Go `Object.Remote`: the remote path, the absolute path without the root. -/
def Object.Remote (f : Fs) (o : Object) : String :=
  f.cleanRootFromPath (path.Join o.Dir o.Name)

/-- Go `NewObject`: builds the cached object for a remote, without contacting a
backend.  The ledger is searched only when a temporary upload path is set.  The
literal reads the clock twice: `w.now` is the reading stored in `CacheModTime`
and `ts` the later reading stored in `CacheTs`. -/
def NewObject (f : Fs) (remote : String) (ts : Int) (w : World) : Object × World :=
  let fullRemote := path.Join f.root remote
  let dn := path.Split fullRemote
  let r : (String × FsRef) × World :=
    if f.tempWritePath ≠ "" then
      match SearchPendingUpload w fullRemote with
      | (Except.ok _, w1) => ((objectPendingUpload, FsRef.temp), w1)
      | (Except.error _, w1) => ((objectInCache, FsRef.wrapped), w1)
    else ((objectInCache, FsRef.wrapped), w)
  ({ fsObject := none,
     ParentFs := r.1.2,
     Name := f.cleanPath dn.2,
     Dir := f.cleanPath dn.1,
     CacheModTime := UnixNano w.now,
     CacheSize := 0,
     CacheStorable := false,
     CacheType := r.1.1,
     CacheTs := ts,
     CacheHashes := none }, r.2)

/-- Go `Object.updateData`: takes over the handle and copies its metadata. -/
def Object.updateData (o : Object) (source : LiveObject) (w : World) : Object :=
  { o with fsObject := some source,
           CacheModTime := UnixNano source.modTime,
           CacheSize := source.size,
           CacheStorable := source.storable,
           CacheTs := w.now,
           CacheHashes := some [] }

/-- Go `Object.persist`: adds the object to the persistent cache; a failure is
only logged. -/
def Object.persist (o : Object) (w : World) : Object × World :=
  (o, (AddObject w o.abs o).2)

/-- Go `Object.isTempFile`: searches the ledger and sets the cache type from
the answer. -/
def Object.isTempFile (o : Object) (w : World) : Out Bool :=
  match SearchPendingUpload w o.abs with
  | (Except.error _, w1) => ⟨false, { o with CacheType := objectInCache }, w1⟩
  | (Except.ok _, w1) => ⟨true, { o with CacheType := objectPendingUpload }, w1⟩

/-- Go `Object.tempFileStartedUpload`: the started flag of the ledger entry,
false without an entry. -/
def Object.tempFileStartedUpload (o : Object) (w : World) : Out Bool :=
  match SearchPendingUpload w o.abs with
  | (Except.error _, w1) => ⟨false, o, w1⟩
  | (Except.ok started, w1) => ⟨started, o, w1⟩

/-- Go `Object.refreshFromSource`: requests the object from its backend unless
a handle is held and the refresh is not forced.  The per-object mutex is not
modelled: calls are sequential here. -/
def Object.refreshFromSource (f : Fs) (o : Object) (force : Bool) (w : World) :
    Out (Option Error) :=
  if o.fsObject.isSome && !force then ⟨none, o, w⟩
  else
    let t := o.isTempFile w
    let r : (Except Error LiveObject × World) × String :=
      if t.val then
        (t.obj.ParentFs.NewObject t.world (t.obj.Remote f),
          "in parent fs " ++ t.obj.ParentFs.name f)
      else
        (FsRef.wrapped.NewObject t.world (t.obj.Remote f),
          "in cache fs " ++ FsRef.wrapped.name f)
    match r.1.1 with
    | Except.error e => ⟨Wrapf (some e) r.2, t.obj, r.1.2⟩
    | Except.ok liveObject =>
      let p := (t.obj.updateData liveObject r.1.2).persist r.1.2
      ⟨none, p.1, p.2⟩

/-- Go `Object.refresh`: a refresh from the source is skipped only when the
cache timestamp has not expired and no notification is pending. -/
def Object.refresh (f : Fs) (o : Object) (w : World) : Out (Option Error) :=
  let n := isNotifiedRemote f w (o.Remote f)
  let isNotified := n.1
  let isExpired := decide (n.2.now > o.CacheTs + f.fileAge)
  if !isExpired && !isNotified then ⟨none, o, n.2⟩
  else o.refreshFromSource f true n.2

/-- Go `Object.ModTime`: the cached modification time, after a refresh whose
error is dropped. -/
def Object.ModTime (f : Fs) (o : Object) (w : World) : Out Int :=
  let r := o.refresh f w
  ⟨Unix 0 r.obj.CacheModTime, r.obj, r.world⟩

/-- Go `Object.Size`: the cached size, after a refresh whose error is dropped. -/
def Object.Size (f : Fs) (o : Object) (w : World) : Out Int :=
  let r := o.refresh f w
  ⟨r.obj.CacheSize, r.obj, r.world⟩

/-- Go `Object.Storable`: the cached flag, after a refresh whose error is
dropped. -/
def Object.Storable (f : Fs) (o : Object) (w : World) : Out Bool :=
  let r := o.refresh f w
  ⟨r.obj.CacheStorable, r.obj, r.world⟩

/-- The part of Go `Object.Update` after the check for started uploads: writes
through the handle, then drops the cached chunks and record, takes the new size
and time from `src`, and persists.  Calling `Update` on a nil handle is a
run-time failure in Go, reported here as `Error.nilObject`; it cannot happen
after a `refreshFromSource` that returned nil. -/
def Object.updateWrite (o : Object) (src : ObjectInfo) (w : World) :
    Out (Option Error) :=
  match o.fsObject with
  | none => ⟨some Error.nilObject, o, w⟩
  | some live =>
    let w1 := w.log (Event.objectUpdate src)
    match live.updateErr with
    | some err => ⟨some err, o, w1⟩
    | none =>
      let w2 := (RemoveObject w1 o.abs).2
      let o1 := { o with CacheModTime := UnixNano src.modTime,
                         CacheSize := src.size,
                         CacheHashes := some [],
                         CacheTs := w2.now }
      let p := o1.persist w2
      ⟨none, p.1, p.2⟩

/-- Go `Object.Update`: changes the object data.  With a temporary upload path
the background uploader is paused until the call returns, and an upload that
has already started makes the call fail. -/
def Object.Update (f : Fs) (o : Object) (src : ObjectInfo) (w : World) :
    Out (Option Error) :=
  let r := o.refreshFromSource f false w
  match r.val with
  | some err => ⟨some err, r.obj, r.world⟩
  | none =>
    if f.tempWritePath ≠ "" then
      let t := r.obj.isTempFile (pause r.world)
      let s : Out Bool :=
        if t.val then t.obj.tempFileStartedUpload t.world else ⟨false, t.obj, t.world⟩
      if t.val && s.val then
        ⟨some (Error.errorf (s.obj.Remote f ++ " is currently uploading, can\x27t update")),
          s.obj, play s.world⟩
      else
        let u := s.obj.updateWrite src s.world
        ⟨u.val, u.obj, play u.world⟩
    else r.obj.updateWrite src r.world

/-- Go `ObjectFromOriginal`: builds the cached object from an `fs.Object` handed
out by a backend.  The handle's `Remote()` is passed as `remote`.  The searched
path is cleaned by `cleanPath`; fields not set by the Go literal are zero. -/
def ObjectFromOriginal (f : Fs) (remote : String) (o : LiveObject) (w : World) :
    Object × World :=
  let fullRemote := f.cleanPath (path.Join f.root remote)
  let dn := path.Split fullRemote
  let r : (String × FsRef) × World :=
    if f.tempWritePath ≠ "" then
      match SearchPendingUpload w fullRemote with
      | (Except.ok _, w1) => ((objectPendingUpload, FsRef.temp), w1)
      | (Except.error _, w1) => ((objectInCache, FsRef.wrapped), w1)
    else ((objectInCache, FsRef.wrapped), w)
  (Object.updateData
    { fsObject := none,
      ParentFs := r.1.2,
      Name := f.cleanPath dn.2,
      Dir := f.cleanPath dn.1,
      CacheModTime := 0,
      CacheSize := 0,
      CacheStorable := false,
      CacheType := r.1.1,
      CacheTs := w.now,
      CacheHashes := none } o r.2, r.2)

/-- Go `Object.SetModTime`: sets the time on the handle, then in the record.  A
nil handle after a refresh that returned nil cannot happen; it is reported as
`Error.nilObject`. -/
def Object.SetModTime (f : Fs) (o : Object) (t : Int) (w : World) : Out (Option Error) :=
  let r := o.refreshFromSource f false w
  match r.val with
  | some err => ⟨some err, r.obj, r.world⟩
  | none =>
    match r.obj.fsObject with
    | none => ⟨some Error.nilObject, r.obj, r.world⟩
    | some live =>
      let w1 := r.world.log (Event.objectSetModTime t)
      match live.setModTimeErr with
      | some err => ⟨some err, r.obj, w1⟩
      | none =>
        let p := Object.persist { r.obj with CacheModTime := UnixNano t } w1
        ⟨none, p.1, p.2⟩

/-- The part of Go `Object.Remove` after the check for started uploads: removes
through the handle, then drops the cached record and chunks and the ledger
entry, expires the parent directory and signals its change; the errors of the
three store calls are discarded.  A nil handle is reported as
`Error.nilObject`. -/
def Object.removeWrite (f : Fs) (o : Object) (w : World) : Out (Option Error) :=
  match o.fsObject with
  | none => ⟨some Error.nilObject, o, w⟩
  | some live =>
    let w1 := w.log Event.objectRemove
    match live.removeErr with
    | some err => ⟨some err, o, w1⟩
    | none =>
      let w2 := (RemoveObject w1 o.abs).2
      let w3 := (removePendingUpload w2 o.abs).2
      let parentCd := NewDirectory f (f.cleanPath (path.Dir (o.Remote f)))
      let w4 := (ExpireDir w3 parentCd).2
      ⟨none, o, notifyChangeUpstreamIfNeeded w4 parentCd.Remote EntryType.directory⟩

/-- Go `Object.Remove`: deletes the object from both the cache and the source.
With a temporary upload path the background uploader is paused until the call
returns, and an upload that has already started makes the call fail. -/
def Object.Remove (f : Fs) (o : Object) (w : World) : Out (Option Error) :=
  let r := o.refreshFromSource f false w
  match r.val with
  | some err => ⟨some err, r.obj, r.world⟩
  | none =>
    if f.tempWritePath ≠ "" then
      let t := r.obj.isTempFile (pause r.world)
      let s : Out Bool :=
        if t.val then t.obj.tempFileStartedUpload t.world else ⟨false, t.obj, t.world⟩
      if t.val && s.val then
        ⟨some (Error.errorf (s.obj.Remote f ++ " is currently uploading, can\x27t delete")),
          s.obj, play s.world⟩
      else
        let u := s.obj.removeWrite f s.world
        ⟨u.val, u.obj, play u.world⟩
    else r.obj.removeWrite f r.world

/-- The `Hash` method of a handle: an error, or the digest the backend has for
the hash type (empty when it has none). -/
def LiveObject.Hash (live : LiveObject) (ht : Nat) : String × Option Error :=
  match live.hashErr with
  | some e => ("", some e)
  | none => ((live.hashes.lookup ht).getD "", none)

/-- Go map assignment `m[k] = v` on the digest map. -/
def setHash (m : List (Nat × String)) (ht : Nat) (h : String) : List (Nat × String) :=
  (ht, h) :: m.filter (fun kv => kv.1 != ht)

/-- Go `Object.Hash`: the digest from the record when it is there, else from
the handle, stored in the record and persisted.  A nil digest map is replaced
by an empty one after the refresh. -/
def Object.Hash (f : Fs) (o : Object) (ht : Nat) (w : World) :
    Out (String × Option Error) :=
  let r0 := o.refresh f w
  let o1 : Object := { r0.obj with CacheHashes := some (r0.obj.CacheHashes.getD []) }
  match (r0.obj.CacheHashes.getD []).lookup ht with
  | some cachedHash => ⟨(cachedHash, none), o1, r0.world⟩
  | none =>
    let r := o1.refreshFromSource f false r0.world
    match r.val with
    | some err => ⟨("", some err), r.obj, r.world⟩
    | none =>
      match r.obj.fsObject with
      | none => ⟨("", some Error.nilObject), r.obj, r.world⟩
      | some live =>
        let w1 := r.world.log (Event.objectHash ht)
        match (live.Hash ht).2 with
        | some err => ⟨("", some err), r.obj, w1⟩
        | none =>
          let p := Object.persist
            { r.obj with
              CacheHashes := some (setHash (r.obj.CacheHashes.getD []) ht (live.Hash ht).1) } w1
          ⟨((live.Hash ht).1, none), p.1, p.2⟩

/-- Go `fs.RangeOption`: a byte range request. -/
structure RangeOption where
  Start : Int
  End : Int
  deriving DecidableEq, Repr

/-- The open options `Open` tells apart: a `*fs.SeekOption`, a `*fs.RangeOption`,
or an option of any other type. -/
inductive OpenOption where
  | seek (Offset : Int)
  | range (x : RangeOption)
  | other
  deriving DecidableEq, Repr

/-- The reader over the chunk cache built by `NewObjectHandle`, as far as `Open`
uses it: the offsets it has been sought to, in order. -/
structure Handle where
  seeks : List Int
  deriving DecidableEq, Repr

/-- The result of `readers.NewLimitedReadCloser(cacheReader, limit)`: the reader
and the limit it was wrapped with. -/
structure LimitedReadCloser where
  reader : Handle
  limit : Int
  deriving DecidableEq, Repr

/-- The collaborators of `Open` whose code is not among the sources, taken as
parameters: `RangeOption.Decode(size)` giving offset and limit, and the error
(`none` for nil) of `Seek(offset, io.SeekStart)` on the reader. -/
structure OpenEnv where
  Decode : RangeOption → Int → Int × Int
  Seek : Handle → Int → Option Error

/-- Modelled from the spec: `NewObjectHandle`, whose code is not among the
sources: a fresh reader over the chunk cache, not yet sought anywhere. -/
def NewObjectHandle : Handle := { seeks := [] }

/-- The variables of the loop of `Open`: offset, limit, the reader, and the
object and state as the calls of `Size` left them. -/
structure OpenState where
  offset : Int
  limit : Int
  reader : Handle
  obj : Object
  world : World

/-- The type switch in the loop of Go `Object.Open`: a seek option sets the
offset, a range option sets offset and limit from `Decode(o.Size())`, any other
option sets nothing. -/
def Object.openOption (f : Fs) (env : OpenEnv) (st : OpenState) (opt : OpenOption) :
    OpenState :=
  match opt with
  | OpenOption.seek off => { st with offset := off }
  | OpenOption.range x =>
    { st with offset := (env.Decode x (st.obj.Size f st.world).val).1,
              limit := (env.Decode x (st.obj.Size f st.world).val).2,
              obj := (st.obj.Size f st.world).obj,
              world := (st.obj.Size f st.world).world }
  | OpenOption.other => st

/-- A successful `cacheReader.Seek(offset, io.SeekStart)`: the reader has been
sought to the current offset. -/
def OpenState.sought (st : OpenState) : OpenState :=
  { st with reader := { seeks := st.reader.seeks ++ [st.offset] } }

/-- The loop of Go `Object.Open`: for each option the switch, then a seek of the
reader to the offset; the first failing seek ends the loop with its error. -/
def Object.openLoop (f : Fs) (env : OpenEnv) : List OpenOption → OpenState →
    Option Error × OpenState
  | [], st => (none, st)
  | opt :: rest, st =>
    match env.Seek (Object.openOption f env st opt).reader
        (Object.openOption f env st opt).offset with
    | some err => (some err, Object.openOption f env st opt)
    | none => Object.openLoop f env rest (Object.openOption f env st opt).sought

/-- Go `Object.Open`: forces a refresh from the source, builds the reader, runs
the loop over the options from offset 0 and limit -1, and wraps the reader with
the final limit. -/
def Object.Open (f : Fs) (env : OpenEnv) (o : Object) (options : List OpenOption)
    (w : World) : Out (Option LimitedReadCloser × Option Error) :=
  match (o.refreshFromSource f true w).val with
  | some err =>
    ⟨(none, some err), (o.refreshFromSource f true w).obj, (o.refreshFromSource f true w).world⟩
  | none =>
    match (Object.openLoop f env options
        { offset := 0, limit := -1, reader := NewObjectHandle,
          obj := (o.refreshFromSource f true w).obj,
          world := (o.refreshFromSource f true w).world }) with
    | (some err, st) => ⟨(none, some err), st.obj, st.world⟩
    | (none, st) => ⟨(some { reader := st.reader, limit := st.limit }, none), st.obj, st.world⟩

/-- One option of `Open` in the words of the specification: a seek option sets
the offset to its `Offset` and leaves the limit, a range option sets offset and
limit to its `Decode(Size())`, any other option changes neither; then the
reader is sought to the current offset. -/
def specOpenStep (f : Fs) (env : OpenEnv) (st : OpenState) (opt : OpenOption) : OpenState :=
  match opt with
  | OpenOption.seek off =>
    { offset := off, limit := st.limit, reader := { seeks := st.reader.seeks ++ [off] },
      obj := st.obj, world := st.world }
  | OpenOption.range x =>
    { offset := (env.Decode x (st.obj.Size f st.world).val).1,
      limit := (env.Decode x (st.obj.Size f st.world).val).2,
      reader := { seeks := st.reader.seeks ++ [(env.Decode x (st.obj.Size f st.world).val).1] },
      obj := (st.obj.Size f st.world).obj,
      world := (st.obj.Size f st.world).world }
  | OpenOption.other =>
    { offset := st.offset, limit := st.limit,
      reader := { seeks := st.reader.seeks ++ [st.offset] },
      obj := st.obj, world := st.world }

/-- The options of `Open` folded left to right, in the words of the
specification. -/
def specOpenFold (f : Fs) (env : OpenEnv) (opts : List OpenOption) (st : OpenState) :
    OpenState :=
  opts.foldl (specOpenStep f env) st

/-- The state once the clock has moved to `t`: between two calls nothing else
changes. -/
def World.later (w : World) (t : Int) : World := { w with now := t }

/-- Two states that differ at most in the stored object records and in the
outcome of `AddObject`. -/
def World.agree (a b : World) : Prop :=
  a.now = b.now ∧ a.notified = b.notified ∧ a.pending = b.pending ∧
  a.chunks = b.chunks ∧ a.expiredDirs = b.expiredDirs ∧ a.pauses = b.pauses ∧
  a.wrapped = b.wrapped ∧ a.temp = b.temp ∧
  a.removeObjectErr = b.removeObjectErr ∧
  a.removePendingUploadErr = b.removePendingUploadErr ∧
  a.expireDirErr = b.expireDirErr ∧ a.trace = b.trace

/-- A `cleanPath` for examples: `path.Clean`, with `.` and `/` turned into the
empty string. -/
def exampleCleanPath (p : String) : String :=
  if path.Clean p = "." ∨ path.Clean p = "/" then "" else path.Clean p

/-- A cache with a 60 s TTL and a temporary upload path, for examples. -/
def exampleFs : Fs :=
  { root := "",
    tempWritePath := "/tmp/upload",
    fileAge := 60000000000,
    wrappedName := "remote:",
    tempName := "/tmp/upload",
    cleanPath := exampleCleanPath,
    cleanRootFromPath := fun p => p,
    afterConsult := fun ns r => ns.filter (fun n => n != r) }

/-- The same cache without a temporary upload path, for examples. -/
def exampleFsDirect : Fs := { exampleFs with tempWritePath := "" }

/-- An object as the wrapped remote reports it, for examples. -/
def exampleLive : LiveObject :=
  { modTime := 1234, size := 10, storable := true, hashes := [], hashErr := none,
    setModTimeErr := none, updateErr := none, removeErr := none }

/-- An object as the temporary upload area reports it, for examples. -/
def exampleStaged : LiveObject :=
  { modTime := 5678, size := 20, storable := true, hashes := [], hashErr := none,
    setModTimeErr := none, updateErr := none, removeErr := none }

/-- A state at a given clock reading with an empty cache, for examples: the
wrapped remote holds `a/b.txt`, the temporary upload area holds nothing. -/
def exampleWorld (now : Int) : World :=
  { now := now, notified := [], pending := [], objects := [], chunks := [],
    expiredDirs := [], pauses := 0,
    wrapped := fun r => if r = "a/b.txt" then Except.ok exampleLive
                        else Except.error (Error.backend 404),
    temp := fun _ => Except.error (Error.backend 404),
    addObjectErr := none, removeObjectErr := none, removePendingUploadErr := none,
    expireDirErr := none, trace := [] }

/-- The same state with an unreachable wrapped remote, for examples. -/
def exampleOffline (now : Int) : World :=
  { exampleWorld now with wrapped := fun _ => Except.error (Error.backend 503) }

/-- A cached record of `a/b.txt` timestamped at 0 without a handle, for
examples. -/
def exampleObject : Object :=
  { fsObject := none, ParentFs := FsRef.wrapped, Name := "b.txt", Dir := "a",
    CacheModTime := 5, CacheSize := 3, CacheStorable := true,
    CacheType := objectInCache, CacheTs := 0, CacheHashes := none }

/-- The example state with `a/b.txt` written to the temporary upload area and
queued in the ledger, its upload not started. -/
def exampleQueued (now : Int) : World :=
  { exampleWorld now with
    pending := [("a/b.txt", false)],
    temp := fun r => if r = "a/b.txt" then Except.ok exampleStaged
                     else Except.error (Error.backend 404) }

/-- The example state with the upload of `a/b.txt` started. -/
def exampleUploading (now : Int) : World :=
  { exampleQueued now with pending := [("a/b.txt", true)] }

/-- The example record holding a handle on the wrapped remote. -/
def exampleHeld : Object := { exampleObject with fsObject := some exampleLive }

/-- A source description handed to `Update`, for examples. -/
def exampleSrc : ObjectInfo := { modTime := 99, size := 42 }

/-- The example state with the upload of `a/b.txt` started and the temporary
upload area unreachable. -/
def exampleUploadingOffline (now : Int) : World :=
  { exampleUploading now with temp := fun _ => Except.error (Error.backend 503) }

/-- The example state with the upload of `a/b.txt` started, a cached record and
two cached chunks for the path. -/
def exampleUploadingCached (now : Int) : World :=
  { exampleUploading now with
    objects := [("a/b.txt", exampleHeld)],
    chunks := [("a/b.txt", 0), ("a/b.txt", 1)] }

/-- The example state with `a/b.txt` queued, a cached record and a cached chunk
for the path, and a store whose removals all fail. -/
def exampleStoreFailing (now : Int) : World :=
  { exampleQueued now with
    objects := [("a/b.txt", exampleHeld)],
    chunks := [("a/b.txt", 0)],
    removeObjectErr := some (Error.backend 5),
    removePendingUploadErr := some (Error.backend 5),
    expireDirErr := some (Error.backend 5) }

/-- The example state with `a/b.txt` queued, a cached record and a cached chunk
for the path, and a working store. -/
def exampleQueuedCached (now : Int) : World :=
  { exampleQueued now with
    objects := [("a/b.txt", exampleHeld)],
    chunks := [("a/b.txt", 0)] }

/-- The example state with `a/b.txt` queued, a cached record and a cached chunk
for the path, and a store whose writes and removals all fail. -/
def exampleStoreDown (now : Int) : World :=
  { exampleStoreFailing now with addObjectErr := some (Error.backend 5) }

/-- An object as the wrapped remote reports it, with a digest for hash type 1. -/
def exampleLiveHashed : LiveObject := { exampleLive with hashes := [(1, "def")] }

/-- The example state whose wrapped remote knows a digest of `a/b.txt`. -/
def exampleWorldHashed (now : Int) : World :=
  { exampleWorld now with
    wrapped := fun r => if r = "a/b.txt" then Except.ok exampleLiveHashed
                        else Except.error (Error.backend 404) }

/-- The example record holding a handle and a cached digest for hash type 1. -/
def exampleHashed : Object := { exampleHeld with CacheHashes := some [(1, "abc")] }

/-- The example record as read back from the store: no handle, and a cached
digest for hash type 2. -/
def exampleStored : Object := { exampleObject with CacheHashes := some [(2, "old")] }

/-- The example record holding a handle that knows a digest for hash type 1,
and a cached digest for hash type 2. -/
def exampleHeldHashed : Object :=
  { exampleObject with fsObject := some exampleLiveHashed, CacheHashes := some [(2, "old")] }

/-- An object of the wrapped remote whose modification time cannot be set. -/
def exampleLiveReadOnly : LiveObject :=
  { exampleLive with setModTimeErr := some (Error.backend 403) }

/-- The example state whose wrapped remote refuses to set modification times. -/
def exampleWorldReadOnly (now : Int) : World :=
  { exampleWorld now with
    wrapped := fun r => if r = "a/b.txt" then Except.ok exampleLiveReadOnly
                        else Except.error (Error.backend 404) }

/-- Options of `Open` for examples: identity-like range decoding (offset
`Start`, limit `End - Start + 1`) and a reader whose seeks all succeed. -/
def exampleOpenEnv : OpenEnv :=
  { Decode := fun x _ => (x.Start, x.End - x.Start + 1),
    Seek := fun _ _ => none }

/-- A reader that cannot be sought past offset 100, for examples. -/
def exampleShortEnv : OpenEnv :=
  { exampleOpenEnv with
    Seek := fun _ off => if off > 100 then some (Error.backend 29) else none }

/-- An object of the wrapped remote that can be neither updated nor removed. -/
def exampleLiveFailing : LiveObject :=
  { exampleLive with updateErr := some (Error.backend 500),
                     removeErr := some (Error.backend 500) }

/-- The example state whose wrapped remote refuses updates and removals. -/
def exampleWorldFailing (now : Int) : World :=
  { exampleWorld now with
    wrapped := fun r => if r = "a/b.txt" then Except.ok exampleLiveFailing
                        else Except.error (Error.backend 404),
    objects := [("a/b.txt", exampleObject)],
    chunks := [("a/b.txt", 0)] }

/-- The example record holding a handle that can be neither updated nor
removed. -/
def exampleHeldFailing : Object := { exampleObject with fsObject := some exampleLiveFailing }

/-- The zero `time.Time` (January 1, year 1, 00:00:00 UTC) as an instant in
nanoseconds since the Unix epoch. -/
def zeroTime : Int := -62135596800 * 1000000000

/-- Go `Object.String`: `<nil>` for a nil receiver, else the remote path. -/
def Object.String (f : Fs) (o : Option Object) : String :=
  match o with
  | none => "<nil>"
  | some x => x.Remote f

end cache

/-! # The mount adapter's directory node (`cmd/mount/dir.go`) -/

namespace mount

/-- Go `error` values seen by the mount layer, by code. -/
inductive Error where
  | code (n : Nat)
  deriving DecidableEq, Repr

/-- A `vfs.Node` of a listing, as far as `ReadDirAll` reads it. -/
structure Node where
  Name : String
  IsDir : Bool
  deriving DecidableEq, Repr

/-- Go `fuse.DirentType`. -/
inductive DirentType where
  | DT_Unknown
  | DT_File
  | DT_Dir
  | DT_Link
  deriving DecidableEq, Repr

/-- Go `fuse.Dirent`; the field `Type` is `Typ` here. -/
structure Dirent where
  Inode : Nat
  Typ : DirentType
  Name : String
  deriving DecidableEq, Repr

/-- The directory node: what the wrapped `*vfs.Dir` answers to `ReadDirAll` and
to `SetModTime(t)`, and the `NoModTime` option of its VFS. -/
structure Dir where
  listing : Except Error (List Node)
  SetModTime : Int → Option Error
  NoModTime : Bool

/-- Go `fuse.SetattrRequest`, as far as `Setattr` reads it: the answers of
`req.Valid.MtimeNow()` and `req.Valid.Mtime()`, and `req.Mtime`. -/
structure SetattrRequest where
  ValidMtimeNow : Bool
  ValidMtime : Bool
  Mtime : Int
  deriving DecidableEq, Repr

/-- The loop of Go `Dir.ReadDirAll`: one dirent per node, a file unless the node
is a directory, appended to `dirents`. -/
def readDirLoop : List Node → List Dirent → List Dirent
  | [], dirents => dirents
  | node :: rest, dirents =>
    readDirLoop rest
      (dirents ++
        [if node.IsDir then
            { Inode := 0, Typ := DirentType.DT_Dir, Name := node.Name }
          else { Inode := 0, Typ := DirentType.DT_File, Name := node.Name }])

/-- Go `Dir.ReadDirAll`: reads the contents of the directory.  `translateError`,
whose code is not among the sources, is a parameter; a nil slice is the empty
list. -/
def Dir.ReadDirAll (d : Dir) (translateError : Option Error → Option Error) :
    List Dirent × Option Error :=
  match d.listing with
  | Except.error err => ([], translateError (some err))
  | Except.ok items => (readDirLoop items [], none)

/-- Go `Dir.Setattr`: handles attribute changes, the modification time only.
Returns the error and the list of the `SetModTime` calls made, by their
argument; `now` is what `time.Now()` returns. -/
def Dir.Setattr (d : Dir) (translateError : Option Error → Option Error) (now : Int)
    (req : SetattrRequest) : Option Error × List Int :=
  if d.NoModTime then (none, [])
  else if req.ValidMtimeNow then (translateError (d.SetModTime now), [now])
  else if req.ValidMtime then (translateError (d.SetModTime req.Mtime), [req.Mtime])
  else (translateError none, [])

/-- A `translateError` for examples: nil stays nil, code `n` becomes `1000 + n`. -/
def exampleTranslate (e : Option Error) : Option Error :=
  match e with
  | none => none
  | some (Error.code n) => some (Error.code (1000 + n))

/-- A directory with a file and a subdirectory whose time cannot be set, for
examples. -/
def exampleDir : Dir :=
  { listing := Except.ok [{ Name := "b.txt", IsDir := false }, { Name := "sub", IsDir := true }],
    SetModTime := fun _ => some (Error.code 1),
    NoModTime := false }

end mount

namespace cache

/-! ## Shared lemmas -/

theorem lookups_cons (e : Event) (tr : List Event) :
    lookups (e :: tr) =
      lookups tr + (match e with | Event.newObject _ _ => 1 | _ => 0) := by
  cases e <;> simp [lookups]

theorem persists_cons (e : Event) (tr : List Event) :
    persists (e :: tr) =
      persists tr + (match e with | Event.addObject _ => 1 | _ => 0) := by
  cases e <;> simp [persists]

theorem updates_cons (e : Event) (tr : List Event) :
    updates (e :: tr) =
      updates tr + (match e with | Event.objectUpdate _ => 1 | _ => 0) := by
  cases e <;> simp [updates]

theorem purges_cons (e : Event) (tr : List Event) :
    purges (e :: tr) =
      purges tr + (match e with | Event.removeObject _ => 1 | _ => 0) := by
  cases e <;> simp [purges]

theorem searches_cons (e : Event) (tr : List Event) :
    searches (e :: tr) =
      searches tr + (match e with | Event.searchPendingUpload _ => 1 | _ => 0) := by
  cases e <;> simp [searches]

theorem isTempFile_val (o : Object) (w : World) :
    (o.isTempFile w).val = (w.pending.lookup o.abs).isSome := by
  unfold Object.isTempFile SearchPendingUpload
  cases w.pending.lookup o.abs <;> rfl

theorem isTempFile_world (o : Object) (w : World) :
    (o.isTempFile w).world = w.log (Event.searchPendingUpload o.abs) := by
  unfold Object.isTempFile SearchPendingUpload
  cases w.pending.lookup o.abs <;> rfl

theorem isTempFile_obj (o : Object) (w : World) :
    (o.isTempFile w).obj =
      { o with CacheType := if (w.pending.lookup o.abs).isSome then objectPendingUpload
                            else objectInCache } := by
  unfold Object.isTempFile SearchPendingUpload
  cases w.pending.lookup o.abs <;> rfl

theorem refreshFromSource_skip (f : Fs) (o : Object) (w : World)
    (h : o.fsObject.isSome = true) :
    o.refreshFromSource f false w = ⟨none, o, w⟩ := by
  simp [Object.refreshFromSource, h]

theorem refreshFromSource_error (f : Fs) (o : Object) (force : Bool) (w : World)
    (e : Error) (hf : force = true ∨ o.fsObject = none)
    (h : w.resolve (if (w.pending.lookup o.abs).isSome then o.ParentFs else FsRef.wrapped)
          (o.Remote f) = Except.error e) :
    o.refreshFromSource f force w =
      ⟨some (Error.wrapf e
          (if (w.pending.lookup o.abs).isSome then "in parent fs " ++ o.ParentFs.name f
           else "in cache fs " ++ f.wrappedName)),
        { o with CacheType := if (w.pending.lookup o.abs).isSome then objectPendingUpload
                              else objectInCache },
        (w.log (Event.searchPendingUpload o.abs)).log
          (Event.newObject
            (if (w.pending.lookup o.abs).isSome then o.ParentFs else FsRef.wrapped)
            (o.Remote f))⟩ := by
  have hg : (o.fsObject.isSome && !force) = false := by
    rcases hf with hf | hf <;> simp [hf]
  unfold Object.refreshFromSource
  rw [if_neg (by simp [hg])]
  cases hp : w.pending.lookup o.abs with
  | none =>
    simp only [hp, Option.isSome_none, Bool.false_eq_true, if_false] at h
    simp [Object.isTempFile, SearchPendingUpload, hp, FsRef.NewObject, World.resolve,
      World.log, Object.Remote, Wrapf, FsRef.name] at h ⊢
    simp [h, Wrapf]
  | some b =>
    simp only [hp, Option.isSome_some, if_true] at h
    simp [Object.isTempFile, SearchPendingUpload, hp, FsRef.NewObject,
      World.log, Object.Remote, Wrapf] at h ⊢
    cases hq : o.ParentFs <;> simp [hq, World.resolve] at h ⊢ <;> simp [h, Wrapf]

theorem refreshFromSource_ok (f : Fs) (o : Object) (force : Bool) (w : World)
    (live : LiveObject) (hf : force = true ∨ o.fsObject = none)
    (h : w.resolve (if (w.pending.lookup o.abs).isSome then o.ParentFs else FsRef.wrapped)
          (o.Remote f) = Except.ok live) :
    o.refreshFromSource f force w =
      ⟨none,
        { o with fsObject := some live,
                 CacheModTime := UnixNano live.modTime,
                 CacheSize := live.size,
                 CacheStorable := live.storable,
                 CacheTs := w.now,
                 CacheHashes := some [],
                 CacheType := if (w.pending.lookup o.abs).isSome then objectPendingUpload
                              else objectInCache },
        (AddObject
          ((w.log (Event.searchPendingUpload o.abs)).log
            (Event.newObject
              (if (w.pending.lookup o.abs).isSome then o.ParentFs else FsRef.wrapped)
              (o.Remote f)))
          o.abs
          { o with fsObject := some live,
                   CacheModTime := UnixNano live.modTime,
                   CacheSize := live.size,
                   CacheStorable := live.storable,
                   CacheTs := w.now,
                   CacheHashes := some [],
                   CacheType := if (w.pending.lookup o.abs).isSome then objectPendingUpload
                                else objectInCache }).2⟩ := by
  have hg : (o.fsObject.isSome && !force) = false := by
    rcases hf with hf | hf <;> simp [hf]
  unfold Object.refreshFromSource
  rw [if_neg (by simp [hg])]
  cases hp : w.pending.lookup o.abs with
  | none =>
    simp only [hp, Option.isSome_none, Bool.false_eq_true, if_false] at h
    simp [Object.isTempFile, SearchPendingUpload, hp, FsRef.NewObject, World.resolve,
      World.log, Object.Remote] at h ⊢
    simp [h, Object.persist, Object.updateData, Object.abs]
  | some b =>
    simp only [hp, Option.isSome_some, if_true] at h
    simp [Object.isTempFile, SearchPendingUpload, hp, FsRef.NewObject,
      World.log, Object.Remote] at h ⊢
    cases hq : o.ParentFs <;> simp [hq, World.resolve] at h ⊢ <;>
      simp [h, Object.persist, Object.updateData, Object.abs]

theorem AddObject_trace (w : World) (key : String) (o : Object) :
    (AddObject w key o).2.trace = Event.addObject o :: w.trace := by
  unfold AddObject
  cases w.addObjectErr <;> rfl

theorem AddObject_now (w : World) (key : String) (o : Object) :
    (AddObject w key o).2.now = w.now := by
  unfold AddObject
  cases w.addObjectErr <;> rfl

theorem refreshFromSource_lookups (f : Fs) (o : Object) (force : Bool) (w : World)
    (hf : force = true ∨ o.fsObject = none) :
    lookups (o.refreshFromSource f force w).world.trace = lookups w.trace + 1 := by
  cases h : w.resolve (if (w.pending.lookup o.abs).isSome then o.ParentFs else FsRef.wrapped)
      (o.Remote f) with
  | error e =>
    rw [refreshFromSource_error f o force w e hf h]
    simp [World.log, lookups_cons]
  | ok live =>
    rw [refreshFromSource_ok f o force w live hf h]
    simp [World.log, lookups_cons, AddObject_trace]

theorem refresh_hit (f : Fs) (o : Object) (w : World)
    (h1 : ¬ (w.now > o.CacheTs + f.fileAge)) (h2 : o.Remote f ∉ w.notified) :
    o.refresh f w = ⟨none, o, (isNotifiedRemote f w (o.Remote f)).2⟩ := by
  simp [Object.refresh, isNotifiedRemote, h1, h2]

theorem refresh_miss (f : Fs) (o : Object) (w : World)
    (h : w.now > o.CacheTs + f.fileAge ∨ o.Remote f ∈ w.notified) :
    o.refresh f w =
      o.refreshFromSource f true (isNotifiedRemote f w (o.Remote f)).2 := by
  unfold Object.refresh
  rcases h with h | h
  · simp [isNotifiedRemote, h]
  · simp [isNotifiedRemote, h]

theorem refreshFromSource_failed (f : Fs) (o : Object) (force : Bool) (w : World)
    (e : Error) (h : (o.refreshFromSource f force w).val = some e) :
    (o.refreshFromSource f force w).obj =
      { o with CacheType := if (w.pending.lookup o.abs).isSome then objectPendingUpload
                            else objectInCache } ∧
    (o.refreshFromSource f force w).world =
      (w.log (Event.searchPendingUpload o.abs)).log
        (Event.newObject
          (if (w.pending.lookup o.abs).isSome then o.ParentFs else FsRef.wrapped)
          (o.Remote f)) ∧
    ∃ cause, w.resolve
        (if (w.pending.lookup o.abs).isSome then o.ParentFs else FsRef.wrapped)
        (o.Remote f) = Except.error cause := by
  by_cases hg : force = true ∨ o.fsObject = none
  · cases hr : w.resolve
        (if (w.pending.lookup o.abs).isSome then o.ParentFs else FsRef.wrapped)
        (o.Remote f) with
    | error cause =>
      rw [refreshFromSource_error f o force w cause hg hr]
      exact ⟨rfl, rfl, cause, rfl⟩
    | ok live =>
      rw [refreshFromSource_ok f o force w live hg hr] at h
      simp at h
  · have h1 : force = false := by
      cases force
      · rfl
      · exact absurd (Or.inl rfl) hg
    have h2 : o.fsObject.isSome = true := by
      cases hq : o.fsObject
      · exact absurd (Or.inr hq) hg
      · rfl
    rw [h1, refreshFromSource_skip f o w h2] at h
    simp at h

theorem refreshFromSource_remote (f : Fs) (o : Object) (force : Bool) (w : World) :
    (o.refreshFromSource f force w).obj.Name = o.Name ∧
    (o.refreshFromSource f force w).obj.Dir = o.Dir ∧
    (o.refreshFromSource f force w).obj.ParentFs = o.ParentFs := by
  by_cases hg : force = true ∨ o.fsObject = none
  · cases hr : w.resolve
        (if (w.pending.lookup o.abs).isSome then o.ParentFs else FsRef.wrapped)
        (o.Remote f) with
    | error cause =>
      rw [refreshFromSource_error f o force w cause hg hr]
      exact ⟨rfl, rfl, rfl⟩
    | ok live =>
      rw [refreshFromSource_ok f o force w live hg hr]
      exact ⟨rfl, rfl, rfl⟩
  · have h1 : force = false := by
      cases force
      · rfl
      · exact absurd (Or.inl rfl) hg
    have h2 : o.fsObject.isSome = true := by
      cases hq : o.fsObject
      · exact absurd (Or.inr hq) hg
      · rfl
    rw [h1, refreshFromSource_skip f o w h2]
    exact ⟨rfl, rfl, rfl⟩

theorem Remote_congr (f : Fs) (a b : Object) (h1 : a.Name = b.Name) (h2 : a.Dir = b.Dir) :
    a.Remote f = b.Remote f := by
  unfold Object.Remote
  rw [h1, h2]

theorem refresh_remote (f : Fs) (o : Object) (w : World) :
    (o.refresh f w).obj.Remote f = o.Remote f := by
  by_cases h : w.now > o.CacheTs + f.fileAge ∨ o.Remote f ∈ w.notified
  · rw [refresh_miss f o w h]
    obtain ⟨h1, h2, -⟩ :=
      refreshFromSource_remote f o true (isNotifiedRemote f w (o.Remote f)).2
    exact Remote_congr f _ o h1 h2
  · rw [refresh_hit f o w (fun a => h (Or.inl a)) (fun a => h (Or.inr a))]

theorem refresh_failed (f : Fs) (o : Object) (w : World) (e : Error)
    (h : (o.refresh f w).val = some e) :
    (o.refresh f w).obj =
      { o with CacheType := if (w.pending.lookup o.abs).isSome then objectPendingUpload
                            else objectInCache } := by
  by_cases hc : w.now > o.CacheTs + f.fileAge ∨ o.Remote f ∈ w.notified
  · rw [refresh_miss f o w hc] at h ⊢
    have := (refreshFromSource_failed f o true _ e h).1
    simpa [isNotifiedRemote] using this
  · rw [refresh_hit f o w (fun a => hc (Or.inl a)) (fun a => hc (Or.inr a))] at h
    simp at h

theorem AddObject_frame (w : World) (key : String) (o : Object) :
    (AddObject w key o).2.pending = w.pending ∧
    (AddObject w key o).2.chunks = w.chunks ∧
    (AddObject w key o).2.pauses = w.pauses := by
  unfold AddObject
  cases w.addObjectErr <;> exact ⟨rfl, rfl, rfl⟩

theorem refreshFromSource_frame (f : Fs) (o : Object) (force : Bool) (w : World) :
    (o.refreshFromSource f force w).world.pending = w.pending ∧
    (o.refreshFromSource f force w).world.chunks = w.chunks ∧
    updates (o.refreshFromSource f force w).world.trace = updates w.trace ∧
    purges (o.refreshFromSource f force w).world.trace = purges w.trace := by
  by_cases hg : force = true ∨ o.fsObject = none
  · cases hr : w.resolve
        (if (w.pending.lookup o.abs).isSome then o.ParentFs else FsRef.wrapped)
        (o.Remote f) with
    | error cause =>
      rw [refreshFromSource_error f o force w cause hg hr]
      simp [World.log, updates_cons, purges_cons]
    | ok live =>
      rw [refreshFromSource_ok f o force w live hg hr]
      simp [World.log, updates_cons, purges_cons, AddObject_trace, AddObject_frame]
  · have h1 : force = false := by
      cases force
      · rfl
      · exact absurd (Or.inl rfl) hg
    have h2 : o.fsObject.isSome = true := by
      cases hq : o.fsObject
      · exact absurd (Or.inr hq) hg
      · rfl
    rw [h1, refreshFromSource_skip f o w h2]
    exact ⟨rfl, rfl, rfl, rfl⟩

theorem Update_after_failed_refresh (f : Fs) (o : Object) (src : ObjectInfo) (w : World)
    (e : Error) (h : (o.refreshFromSource f false w).val = some e) :
    o.Update f src w =
      ⟨some e, (o.refreshFromSource f false w).obj, (o.refreshFromSource f false w).world⟩ := by
  unfold Object.Update
  simp only [h]

theorem isTempFile_entry (o : Object) (w : World) (b : Bool)
    (hs : w.pending.lookup o.abs = some b) :
    o.isTempFile w =
      ⟨true, { o with CacheType := objectPendingUpload },
        w.log (Event.searchPendingUpload o.abs)⟩ := by
  simp [Object.isTempFile, SearchPendingUpload, hs]

theorem tempFileStartedUpload_entry (o : Object) (w : World) (b : Bool)
    (hs : w.pending.lookup o.abs = some b) :
    o.tempFileStartedUpload w = ⟨b, o, w.log (Event.searchPendingUpload o.abs)⟩ := by
  simp [Object.tempFileStartedUpload, SearchPendingUpload, hs]

theorem Update_started_upload (f : Fs) (o : Object) (src : ObjectInfo) (w : World)
    (hwb : f.tempWritePath ≠ "")
    (h : (o.refreshFromSource f false w).val = none)
    (hs : (o.refreshFromSource f false w).world.pending.lookup
        (o.refreshFromSource f false w).obj.abs = some true) :
    o.Update f src w =
      ⟨some (Error.errorf ((o.refreshFromSource f false w).obj.Remote f ++
          " is currently uploading, can\x27t update")),
        { (o.refreshFromSource f false w).obj with CacheType := objectPendingUpload },
        play (((pause (o.refreshFromSource f false w).world).log
          (Event.searchPendingUpload (o.refreshFromSource f false w).obj.abs)).log
          (Event.searchPendingUpload (o.refreshFromSource f false w).obj.abs))⟩ := by
  unfold Object.Update
  simp only [h, ne_eq, hwb, not_false_eq_true, if_true]
  have h1 := isTempFile_entry (o.refreshFromSource f false w).obj
    (pause (o.refreshFromSource f false w).world) true hs
  rw [h1]
  have h2 := tempFileStartedUpload_entry
    { (o.refreshFromSource f false w).obj with CacheType := objectPendingUpload }
    ((pause (o.refreshFromSource f false w).world).log
      (Event.searchPendingUpload (o.refreshFromSource f false w).obj.abs)) true hs
  simp only [if_true, h2]
  rfl

/-! ## Refresh and the passive accessors -/

/-- C1: `refresh` contacts the source, through `refreshFromSource(true)`, exactly
when the record is older than the TTL (`now > CacheTs + fileAge`) or its remote
is in the notification set.  When neither holds, also at `now = CacheTs + TTL`
exactly, it returns nil, looks nothing up, writes nothing and leaves the object
as it was. -/
theorem refresh_contacts_source_iff (f : Fs) (o : Object) (w : World) :
    (lookups (o.refresh f w).world.trace = lookups w.trace + 1 ↔
        (w.now > o.CacheTs + f.fileAge ∨ o.Remote f ∈ w.notified)) ∧
    ((w.now > o.CacheTs + f.fileAge ∨ o.Remote f ∈ w.notified) →
        o.refresh f w =
          o.refreshFromSource f true (isNotifiedRemote f w (o.Remote f)).2) ∧
    (¬ (w.now > o.CacheTs + f.fileAge) → o.Remote f ∉ w.notified →
        (o.refresh f w).val = none ∧ (o.refresh f w).obj = o ∧
        lookups (o.refresh f w).world.trace = lookups w.trace ∧
        persists (o.refresh f w).world.trace = persists w.trace ∧
        (o.refresh f w).world.objects = w.objects) ∧
    (w.now = o.CacheTs + f.fileAge → o.Remote f ∉ w.notified →
        (o.refresh f w).val = none ∧ (o.refresh f w).obj = o ∧
        lookups (o.refresh f w).world.trace = lookups w.trace) := by
  have hit := refresh_hit f o w
  have miss := refresh_miss f o w
  refine ⟨?_, miss, ?_, ?_⟩
  · by_cases h : w.now > o.CacheTs + f.fileAge ∨ o.Remote f ∈ w.notified
    · rw [miss h, refreshFromSource_lookups f o true _ (Or.inl rfl)]
      simp [isNotifiedRemote, lookups_cons, h]
    · have h1 : ¬ (w.now > o.CacheTs + f.fileAge) := fun a => h (Or.inl a)
      have h2 : o.Remote f ∉ w.notified := fun a => h (Or.inr a)
      rw [hit h1 h2]
      simp [isNotifiedRemote, lookups_cons, h]
  · intro h1 h2
    rw [hit h1 h2]
    simp [isNotifiedRemote, lookups_cons, persists_cons]
  · intro h1 h2
    have h3 : ¬ (w.now > o.CacheTs + f.fileAge) := by omega
    rw [hit h3 h2]
    simp [isNotifiedRemote, lookups_cons]

/-- C2: a record timestamped at 0 with a 60 s TTL, no notification and a backend
that answers: `ModTime` at 30 s returns the cached time without any lookup and
leaves the record alone; `ModTime` at 61 s then performs exactly one lookup,
after which the record is timestamped 61 s and carries the time just fetched. -/
theorem modTime_ttl_scenario (f : Fs) (o : Object) (w : World) (live : LiveObject)
    (hts : o.CacheTs = 0) (httl : f.fileAge = 60000000000)
    (hnow : w.now = 30000000000) (hn : o.Remote f ∉ w.notified)
    (hsrc : w.resolve
        (if (w.pending.lookup o.abs).isSome then o.ParentFs else FsRef.wrapped)
        (o.Remote f) = Except.ok live) :
    (o.ModTime f w).val = Unix 0 o.CacheModTime ∧
    lookups (o.ModTime f w).world.trace = lookups w.trace ∧
    (o.ModTime f w).obj = o ∧
    lookups ((o.ModTime f w).obj.ModTime f
        { (o.ModTime f w).world with now := 61000000000 }).world.trace =
      lookups (o.ModTime f w).world.trace + 1 ∧
    ((o.ModTime f w).obj.ModTime f
        { (o.ModTime f w).world with now := 61000000000 }).obj.CacheTs = 61000000000 ∧
    ((o.ModTime f w).obj.ModTime f
        { (o.ModTime f w).world with now := 61000000000 }).val =
      Unix 0 (UnixNano live.modTime) := by
  have h1 : ¬ (w.now > o.CacheTs + f.fileAge) := by omega
  have hit := refresh_hit f o w h1 hn
  have e1 : o.ModTime f w = ⟨Unix 0 o.CacheModTime, o, (isNotifiedRemote f w (o.Remote f)).2⟩ := by
    simp [Object.ModTime, hit]
  rw [e1]
  refine ⟨rfl, by simp [isNotifiedRemote, lookups_cons], rfl, ?_⟩
  have hexp : (61000000000 : Int) > o.CacheTs + f.fileAge := by omega
  have e2 : o.refresh f { (isNotifiedRemote f w (o.Remote f)).2 with now := 61000000000 } =
      o.refreshFromSource f true
        (isNotifiedRemote f
          { (isNotifiedRemote f w (o.Remote f)).2 with now := 61000000000 } (o.Remote f)).2 := by
    unfold Object.refresh
    simp [isNotifiedRemote, hexp]
  have e3 := refreshFromSource_ok f o true
    (isNotifiedRemote f
      { (isNotifiedRemote f w (o.Remote f)).2 with now := 61000000000 } (o.Remote f)).2
    live (Or.inl rfl) (by simpa [isNotifiedRemote, World.resolve] using hsrc)
  simp only [Object.ModTime, e2, e3]
  refine ⟨?_, ?_, trivial⟩
  · simp [isNotifiedRemote, lookups_cons, AddObject_trace, World.log]
  · simp [isNotifiedRemote]

/-- Witness for C2 on the example cache: `a/b.txt` cached at 0, read at 30 s and
at 61 s. -/
theorem modTime_ttl_scenario_witness :
    (exampleObject.ModTime exampleFs (exampleWorld 30000000000)).val = Unix 0 5 ∧
    lookups (exampleObject.ModTime exampleFs (exampleWorld 30000000000)).world.trace = 0 ∧
    lookups ((exampleObject.ModTime exampleFs (exampleWorld 30000000000)).obj.ModTime
        exampleFs
        { (exampleObject.ModTime exampleFs (exampleWorld 30000000000)).world with
          now := 61000000000 }).world.trace = 1 := by
  have h := modTime_ttl_scenario exampleFs exampleObject (exampleWorld 30000000000)
    exampleLive rfl rfl rfl (by decide) rfl
  exact ⟨h.1, h.2.1, by rw [h.2.2.2.1, h.2.1]; rfl⟩

theorem NewObject_fields (f : Fs) (remote : String) (ts : Int) (w : World) :
    (NewObject f remote ts w).1.CacheTs = ts ∧
    (NewObject f remote ts w).1.CacheModTime = UnixNano w.now ∧
    (NewObject f remote ts w).1.fsObject = none ∧
    (NewObject f remote ts w).2.now = w.now ∧
    (NewObject f remote ts w).2.notified = w.notified ∧
    lookups (NewObject f remote ts w).2.trace = lookups w.trace := by
  unfold NewObject
  by_cases h : f.tempWritePath = ""
  · simp [h]
  · simp only [ne_eq, h, not_false_eq_true, if_true]
    unfold SearchPendingUpload
    cases w.pending.lookup (path.Join f.root remote) <;>
      simp [World.log, lookups_cons]

/-- C3, as the claim states it, fails: on the example cache (60 s TTL, nothing
notified, wrapped remote reporting modification time 1234 for `a/b.txt`) the
object built by `NewObject` with the clock reading 0 and then 1 ns answers a
`ModTime` called at 2 ns without any lookup, with the construction time 0 and
not the origin time 1234, and stays timestamped at 1 ns. -/
theorem newObject_first_modTime_counterexample :
    lookups ((NewObject exampleFs "a/b.txt" 1 (exampleWorld 0)).1.ModTime exampleFs
        ((NewObject exampleFs "a/b.txt" 1 (exampleWorld 0)).2.later 2)).world.trace = 0 ∧
    ((NewObject exampleFs "a/b.txt" 1 (exampleWorld 0)).1.ModTime exampleFs
        ((NewObject exampleFs "a/b.txt" 1 (exampleWorld 0)).2.later 2)).val = 0 ∧
    (exampleWorld 0).wrapped "a/b.txt" = Except.ok exampleLive ∧
    ((NewObject exampleFs "a/b.txt" 1 (exampleWorld 0)).1.ModTime exampleFs
        ((NewObject exampleFs "a/b.txt" 1 (exampleWorld 0)).2.later 2)).val ≠
      Unix 0 (UnixNano exampleLive.modTime) ∧
    ((NewObject exampleFs "a/b.txt" 1 (exampleWorld 0)).1.ModTime exampleFs
        ((NewObject exampleFs "a/b.txt" 1 (exampleWorld 0)).2.later 2)).obj.CacheTs = 1 :=
  ⟨by decide, by decide, rfl, by decide, by decide⟩

/-- C3, amended: an object is built by `NewObject`, which reads the clock as
`w.now` for `CacheModTime` and as `ts` for `CacheTs`; its path is not notified.
A first `ModTime` whose clock reading `now3` is not later than `ts` plus the
TTL (with a 60 s TTL: any call within 60 s of construction, the call at t=0 in
particular) is a cache hit: no lookup is made, the value returned is the
construction time `time.Unix(0, w.now.UnixNano())`, and the record stays as
built, timestamped `ts`. -/
theorem newObject_first_modTime_is_cache_hit (f : Fs) (remote : String) (ts now3 : Int)
    (w : World) (httl : now3 ≤ ts + f.fileAge)
    (hn : (NewObject f remote ts w).1.Remote f ∉ w.notified) :
    lookups ((NewObject f remote ts w).1.ModTime f
        ((NewObject f remote ts w).2.later now3)).world.trace = lookups w.trace ∧
    ((NewObject f remote ts w).1.ModTime f ((NewObject f remote ts w).2.later now3)).val =
      Unix 0 (UnixNano w.now) ∧
    ((NewObject f remote ts w).1.ModTime f ((NewObject f remote ts w).2.later now3)).obj =
      (NewObject f remote ts w).1 ∧
    ((NewObject f remote ts w).1.ModTime f
        ((NewObject f remote ts w).2.later now3)).obj.CacheTs = ts := by
  obtain ⟨h1, h2, -, -, h5, h6⟩ := NewObject_fields f remote ts w
  have hexp : ¬ (((NewObject f remote ts w).2.later now3).now >
      (NewObject f remote ts w).1.CacheTs + f.fileAge) := by
    rw [h1]
    show ¬ (now3 > ts + f.fileAge)
    omega
  have hn2 : (NewObject f remote ts w).1.Remote f ∉
      ((NewObject f remote ts w).2.later now3).notified := by
    show (NewObject f remote ts w).1.Remote f ∉ (NewObject f remote ts w).2.notified
    rw [h5]; exact hn
  have hit := refresh_hit f (NewObject f remote ts w).1
    ((NewObject f remote ts w).2.later now3) hexp hn2
  simp only [Object.ModTime, hit]
  refine ⟨?_, by rw [h2], trivial, h1⟩
  simp only [isNotifiedRemote, lookups_cons, World.later]
  exact h6

/-- Witness for the amended C3 on the example cache: built with the clock
reading 0 and then 1 ns, read at 2 ns. -/
theorem newObject_first_modTime_is_cache_hit_witness :
    (2 : Int) ≤ 1 + exampleFs.fileAge ∧
    lookups ((NewObject exampleFs "a/b.txt" 1 (exampleWorld 0)).1.ModTime exampleFs
        ((NewObject exampleFs "a/b.txt" 1 (exampleWorld 0)).2.later 2)).world.trace =
      lookups (exampleWorld 0).trace ∧
    ((NewObject exampleFs "a/b.txt" 1 (exampleWorld 0)).1.ModTime exampleFs
        ((NewObject exampleFs "a/b.txt" 1 (exampleWorld 0)).2.later 2)).val =
      Unix 0 (UnixNano (exampleWorld 0).now) :=
  ⟨by decide,
    (newObject_first_modTime_is_cache_hit exampleFs "a/b.txt" 1 2 (exampleWorld 0)
      (by decide) (by decide)).1,
    (newObject_first_modTime_is_cache_hit exampleFs "a/b.txt" 1 2 (exampleWorld 0)
      (by decide) (by decide)).2.1⟩

theorem refresh_world_notified (f : Fs) (o : Object) (w : World) :
    (o.refresh f w).world.notified = f.afterConsult w.notified (o.Remote f) ∧
    (o.refresh f w).world.pending = w.pending ∧
    (o.refresh f w).world.wrapped = w.wrapped ∧
    (o.refresh f w).world.temp = w.temp := by
  by_cases h : w.now > o.CacheTs + f.fileAge ∨ o.Remote f ∈ w.notified
  · rw [refresh_miss f o w h]
    cases hr : (isNotifiedRemote f w (o.Remote f)).2.resolve
        (if ((isNotifiedRemote f w (o.Remote f)).2.pending.lookup o.abs).isSome
          then o.ParentFs else FsRef.wrapped) (o.Remote f) with
    | error cause =>
      rw [refreshFromSource_error f o true _ cause (Or.inl rfl) hr]
      exact ⟨rfl, rfl, rfl, rfl⟩
    | ok live =>
      rw [refreshFromSource_ok f o true _ live (Or.inl rfl) hr]
      cases ha : w.addObjectErr <;>
        simp [AddObject, World.log, isNotifiedRemote, ha]
  · rw [refresh_hit f o w (fun a => h (Or.inl a)) (fun a => h (Or.inr a))]
    exact ⟨rfl, rfl, rfl, rfl⟩

/-- A second `refresh` made at clock reading `now2` on the object and state a
first `refresh` left is a cache hit as soon as the record the first call left
is within its TTL and its path is not in the notification set. -/
theorem refresh_second_hit (f : Fs) (o : Object) (w : World) (now2 : Int)
    (hn : o.Remote f ∉ f.afterConsult w.notified (o.Remote f))
    (ht : ¬ (now2 > (o.refresh f w).obj.CacheTs + f.fileAge)) :
    (o.refresh f w).obj.refresh f ((o.refresh f w).world.later now2) =
      ⟨none, (o.refresh f w).obj,
        (isNotifiedRemote f ((o.refresh f w).world.later now2) (o.Remote f)).2⟩ := by
  have hr := refresh_remote f o w
  have hit := refresh_hit f (o.refresh f w).obj ((o.refresh f w).world.later now2) ht
    (by rw [hr]
        show o.Remote f ∉ (o.refresh f w).world.notified
        rw [(refresh_world_notified f o w).1]; exact hn)
  rw [hit, hr]

theorem refresh_miss_ok (f : Fs) (o : Object) (w : World) (live : LiveObject)
    (h : w.now > o.CacheTs + f.fileAge ∨ o.Remote f ∈ w.notified)
    (hsrc : w.resolve (if (w.pending.lookup o.abs).isSome then o.ParentFs else FsRef.wrapped)
        (o.Remote f) = Except.ok live) :
    (o.refresh f w).val = none ∧
    (o.refresh f w).obj =
      { o with fsObject := some live,
               CacheModTime := UnixNano live.modTime,
               CacheSize := live.size,
               CacheStorable := live.storable,
               CacheTs := w.now,
               CacheHashes := some [],
               CacheType := if (w.pending.lookup o.abs).isSome then objectPendingUpload
                            else objectInCache } ∧
    lookups (o.refresh f w).world.trace = lookups w.trace + 1 := by
  rw [refresh_miss f o w h]
  have e3 := refreshFromSource_ok f o true (isNotifiedRemote f w (o.Remote f)).2
    live (Or.inl rfl) (by simpa [isNotifiedRemote, World.resolve] using hsrc)
  rw [e3]
  refine ⟨rfl, ?_, ?_⟩
  · simp [isNotifiedRemote]
  · simp [isNotifiedRemote, lookups_cons, AddObject_trace, World.log]

theorem refresh_miss_error (f : Fs) (o : Object) (w : World) (e : Error)
    (h : w.now > o.CacheTs + f.fileAge ∨ o.Remote f ∈ w.notified)
    (hsrc : w.resolve (if (w.pending.lookup o.abs).isSome then o.ParentFs else FsRef.wrapped)
        (o.Remote f) = Except.error e) :
    (o.refresh f w).val =
      some (Error.wrapf e
        (if (w.pending.lookup o.abs).isSome then "in parent fs " ++ o.ParentFs.name f
         else "in cache fs " ++ f.wrappedName)) ∧
    (o.refresh f w).obj =
      { o with CacheType := if (w.pending.lookup o.abs).isSome then objectPendingUpload
                            else objectInCache } ∧
    lookups (o.refresh f w).world.trace = lookups w.trace + 1 := by
  rw [refresh_miss f o w h]
  have e3 := refreshFromSource_error f o true (isNotifiedRemote f w (o.Remote f)).2
    e (Or.inl rfl) (by simpa [isNotifiedRemote, World.resolve] using hsrc)
  rw [e3]
  refine ⟨?_, ?_, ?_⟩
  · simp [isNotifiedRemote]
  · simp [isNotifiedRemote]
  · simp [isNotifiedRemote, lookups_cons, World.log]

/-- C4, as the claim states it, fails: the example record, expired at 61 s, is
refreshed twice in a row at 61 s while the wrapped remote is unreachable and
nothing is notified; each call looks the object up, two lookups in total. -/
theorem refresh_twice_counterexample :
    lookups ((exampleObject.refresh exampleFs (exampleOffline 61000000000)).obj.refresh
        exampleFs
        (exampleObject.refresh exampleFs (exampleOffline 61000000000)).world).world.trace
      = 2 ∧
    (exampleObject.refresh exampleFs (exampleOffline 61000000000)).world.notified = [] ∧
    ¬ (lookups ((exampleObject.refresh exampleFs (exampleOffline 61000000000)).obj.refresh
        exampleFs
        (exampleObject.refresh exampleFs (exampleOffline 61000000000)).world).world.trace
      ≤ lookups (exampleOffline 61000000000).trace + 1) :=
  ⟨by decide, by decide, by decide⟩

/-- C4, amended: `refresh` is called at clock reading `w.now` and again at
`now2`, no notification being raised in between, so that the path is not in
the notification set once the first call has consulted it.  If the first call
is a cache hit and the record has still not expired at `now2`, neither call
looks anything up.  If the first call refreshes from the source and the lookup
succeeds, it stamps the record with its own time, and a second call within one
TTL of the first is a cache hit: one lookup in total.  If the lookup of the
first call fails on a record that was only notified and has not expired at
`now2`, the second call is a cache hit as well: one lookup in total.  In all
three cases the second call returns nil and leaves the object as the first
left it.  If the lookup of the first call fails on an expired record, the
timestamp is not renewed and a second call at `now2`, not earlier than the
first, looks the object up again: two lookups. -/
theorem refresh_twice_at_most_one_lookup (f : Fs) (o : Object) (w : World) (now2 : Int)
    (hn : o.Remote f ∉ f.afterConsult w.notified (o.Remote f)) :
    (¬ (w.now > o.CacheTs + f.fileAge) → o.Remote f ∉ w.notified →
      ¬ (now2 > o.CacheTs + f.fileAge) →
      (o.refresh f w).val = none ∧
      ((o.refresh f w).obj.refresh f ((o.refresh f w).world.later now2)).val = none ∧
      ((o.refresh f w).obj.refresh f ((o.refresh f w).world.later now2)).obj = o ∧
      lookups ((o.refresh f w).obj.refresh f
          ((o.refresh f w).world.later now2)).world.trace = lookups w.trace) ∧
    (∀ live, (w.now > o.CacheTs + f.fileAge ∨ o.Remote f ∈ w.notified) →
      w.resolve (if (w.pending.lookup o.abs).isSome then o.ParentFs else FsRef.wrapped)
        (o.Remote f) = Except.ok live →
      ¬ (now2 > w.now + f.fileAge) →
      (o.refresh f w).val = none ∧
      (o.refresh f w).obj.CacheTs = w.now ∧
      ((o.refresh f w).obj.refresh f ((o.refresh f w).world.later now2)).val = none ∧
      ((o.refresh f w).obj.refresh f ((o.refresh f w).world.later now2)).obj =
        (o.refresh f w).obj ∧
      lookups ((o.refresh f w).obj.refresh f
          ((o.refresh f w).world.later now2)).world.trace = lookups w.trace + 1) ∧
    (∀ e, o.Remote f ∈ w.notified →
      w.resolve (if (w.pending.lookup o.abs).isSome then o.ParentFs else FsRef.wrapped)
        (o.Remote f) = Except.error e →
      ¬ (now2 > o.CacheTs + f.fileAge) →
      (o.refresh f w).val ≠ none ∧
      ((o.refresh f w).obj.refresh f ((o.refresh f w).world.later now2)).val = none ∧
      ((o.refresh f w).obj.refresh f ((o.refresh f w).world.later now2)).obj =
        (o.refresh f w).obj ∧
      lookups ((o.refresh f w).obj.refresh f
          ((o.refresh f w).world.later now2)).world.trace = lookups w.trace + 1) ∧
    (∀ e, w.now > o.CacheTs + f.fileAge → w.now ≤ now2 →
      w.resolve (if (w.pending.lookup o.abs).isSome then o.ParentFs else FsRef.wrapped)
        (o.Remote f) = Except.error e →
      (o.refresh f w).obj.CacheTs = o.CacheTs ∧
      lookups ((o.refresh f w).obj.refresh f
          ((o.refresh f w).world.later now2)).world.trace = lookups w.trace + 2) := by
  refine ⟨?_, ?_, ?_, ?_⟩
  · intro h1 h2 h3
    have hit := refresh_hit f o w h1 h2
    have hs := refresh_second_hit f o w now2 hn (by rw [hit]; exact h3)
    rw [hs]
    rw [hit]
    refine ⟨rfl, rfl, rfl, ?_⟩
    simp [isNotifiedRemote, lookups_cons, World.later]
  · intro live h1 hsrc h3
    obtain ⟨k1, k2, k3⟩ := refresh_miss_ok f o w live h1 hsrc
    have hts : (o.refresh f w).obj.CacheTs = w.now := by rw [k2]
    have hs := refresh_second_hit f o w now2 hn (by rw [hts]; exact h3)
    rw [hs]
    refine ⟨k1, hts, rfl, rfl, ?_⟩
    simp only [isNotifiedRemote, lookups_cons, World.later]
    exact k3
  · intro e h1 hsrc h3
    obtain ⟨k1, k2, k3⟩ := refresh_miss_error f o w e (Or.inr h1) hsrc
    have hts : (o.refresh f w).obj.CacheTs = o.CacheTs := by rw [k2]
    have hs := refresh_second_hit f o w now2 hn (by rw [hts]; exact h3)
    rw [hs]
    refine ⟨by rw [k1]; simp, rfl, rfl, ?_⟩
    simp only [isNotifiedRemote, lookups_cons, World.later]
    exact k3
  · intro e h1 h2 hsrc
    obtain ⟨-, k2, k3⟩ := refresh_miss_error f o w e (Or.inl h1) hsrc
    have hts : (o.refresh f w).obj.CacheTs = o.CacheTs := by rw [k2]
    obtain ⟨n1, n2, n3, n4⟩ := refresh_world_notified f o w
    have habs : (o.refresh f w).obj.abs = o.abs := by rw [k2]; rfl
    have hpar : (o.refresh f w).obj.ParentFs = o.ParentFs := by rw [k2]
    have hrem := refresh_remote f o w
    have hsrc2 : ((o.refresh f w).world.later now2).resolve
        (if (((o.refresh f w).world.later now2).pending.lookup (o.refresh f w).obj.abs).isSome
          then (o.refresh f w).obj.ParentFs else FsRef.wrapped)
        ((o.refresh f w).obj.Remote f) = Except.error e := by
      rw [habs, hpar, hrem]
      show World.resolve ((o.refresh f w).world.later now2)
        (if ((o.refresh f w).world.pending.lookup o.abs).isSome then o.ParentFs
          else FsRef.wrapped) (o.Remote f) = Except.error e
      rw [n2]
      rw [← hsrc]
      unfold World.resolve
      cases (if (w.pending.lookup o.abs).isSome then o.ParentFs else FsRef.wrapped) with
      | wrapped => show (o.refresh f w).world.wrapped (o.Remote f) = _; rw [n3]
      | temp => show (o.refresh f w).world.temp (o.Remote f) = _; rw [n4]
    have hexp2 : ((o.refresh f w).world.later now2).now >
        (o.refresh f w).obj.CacheTs + f.fileAge := by
      rw [hts]
      show now2 > o.CacheTs + f.fileAge
      omega
    obtain ⟨-, -, j3⟩ := refresh_miss_error f (o.refresh f w).obj
      ((o.refresh f w).world.later now2) e (Or.inl hexp2) hsrc2
    refine ⟨hts, ?_⟩
    rw [j3]
    show lookups (o.refresh f w).world.trace + 1 = lookups w.trace + 2
    rw [k3]

/-- Witness for the amended C4: the example record, expired at 61 s, refreshed
from the reachable remote and refreshed again one second later. -/
theorem refresh_twice_at_most_one_lookup_witness :
    lookups ((exampleObject.refresh exampleFs (exampleWorld 61000000000)).obj.refresh
        exampleFs
        ((exampleObject.refresh exampleFs (exampleWorld 61000000000)).world.later
          62000000000)).world.trace = 0 + 1 :=
  ((refresh_twice_at_most_one_lookup exampleFs exampleObject (exampleWorld 61000000000)
    62000000000 (by decide)).2.1 exampleLive (Or.inl (by decide)) rfl (by decide)).2.2.2.2

/-- C5: `ModTime`, `Size` and `Storable` always return a value; when the refresh
they trigger returns an error, the value is the one cached before the call:
`time.Unix(0, CacheModTime)`, `CacheSize` and `CacheStorable`. -/
theorem accessors_serve_cached_value_when_refresh_fails (f : Fs) (o : Object) (w : World)
    (e : Error) (h : (o.refresh f w).val = some e) :
    (o.ModTime f w).val = Unix 0 o.CacheModTime ∧
    (o.Size f w).val = o.CacheSize ∧
    (o.Storable f w).val = o.CacheStorable := by
  have hobj := refresh_failed f o w e h
  simp [Object.ModTime, Object.Size, Object.Storable, hobj]

/-- Witness for C5: the expired example record read while the wrapped remote is
unreachable. -/
theorem accessors_serve_cached_value_when_refresh_fails_witness :
    (exampleObject.refresh exampleFs (exampleOffline 61000000000)).val =
      some (Error.wrapf (Error.backend 503) "in cache fs remote:") ∧
    (exampleObject.ModTime exampleFs (exampleOffline 61000000000)).val = Unix 0 5 ∧
    (exampleObject.Size exampleFs (exampleOffline 61000000000)).val = 3 ∧
    (exampleObject.Storable exampleFs (exampleOffline 61000000000)).val = true :=
  ⟨by decide,
    accessors_serve_cached_value_when_refresh_fails exampleFs exampleObject
      (exampleOffline 61000000000)
      (Error.wrapf (Error.backend 503) "in cache fs remote:") (by decide)⟩

/-! ## Refresh from the source -/

/-- C6, as the claim states it, fails for `CacheType`: the example record has
cache type `Object`; its path is queued in the ledger and the lookup fails; the
forced refresh returns the error and the cache type has become `TempObject`. -/
theorem refreshFromSource_failure_counterexample :
    (exampleObject.refreshFromSource exampleFs true
        { exampleOffline 0 with pending := [("a/b.txt", false)] }).val =
      some (Error.wrapf (Error.backend 503) "in parent fs remote:") ∧
    exampleObject.CacheType = "Object" ∧
    (exampleObject.refreshFromSource exampleFs true
        { exampleOffline 0 with pending := [("a/b.txt", false)] }).obj.CacheType =
      "TempObject" ∧
    (exampleObject.refreshFromSource exampleFs true
        { exampleOffline 0 with pending := [("a/b.txt", false)] }).obj.CacheType ≠
      exampleObject.CacheType :=
  ⟨by decide, by decide, by decide, by decide⟩

/-- C6, amended: when the lookup made by `refreshFromSource` fails, the wrapped
error is returned, `CacheModTime`, `CacheSize`, `CacheStorable`, `CacheTs`,
`CacheHashes` and the handle are unchanged and nothing is written to the
persistent store; `CacheType` is set from the ledger (`TempObject` with an
entry for the absolute path, `Object` without). -/
theorem refreshFromSource_failure_keeps_cached_fields (f : Fs) (o : Object) (force : Bool)
    (w : World) (e : Error) (hf : force = true ∨ o.fsObject = none)
    (h : w.resolve (if (w.pending.lookup o.abs).isSome then o.ParentFs else FsRef.wrapped)
          (o.Remote f) = Except.error e) :
    (o.refreshFromSource f force w).val =
      some (Error.wrapf e
        (if (w.pending.lookup o.abs).isSome then "in parent fs " ++ o.ParentFs.name f
         else "in cache fs " ++ f.wrappedName)) ∧
    (o.refreshFromSource f force w).obj.CacheModTime = o.CacheModTime ∧
    (o.refreshFromSource f force w).obj.CacheSize = o.CacheSize ∧
    (o.refreshFromSource f force w).obj.CacheStorable = o.CacheStorable ∧
    (o.refreshFromSource f force w).obj.CacheTs = o.CacheTs ∧
    (o.refreshFromSource f force w).obj.CacheHashes = o.CacheHashes ∧
    (o.refreshFromSource f force w).obj.fsObject = o.fsObject ∧
    (o.refreshFromSource f force w).obj.CacheType =
      (if (w.pending.lookup o.abs).isSome then objectPendingUpload else objectInCache) ∧
    (o.refreshFromSource f force w).world.objects = w.objects ∧
    persists (o.refreshFromSource f force w).world.trace = persists w.trace := by
  rw [refreshFromSource_error f o force w e hf h]
  simp [World.log, persists_cons]

/-- Witness for the amended C6: the example record refreshed while the wrapped
remote is unreachable. -/
theorem refreshFromSource_failure_keeps_cached_fields_witness :
    (exampleObject.refreshFromSource exampleFs true (exampleOffline 0)).val =
      some (Error.wrapf (Error.backend 503) "in cache fs remote:") ∧
    (exampleObject.refreshFromSource exampleFs true (exampleOffline 0)).obj.CacheModTime = 5 :=
  ⟨(refreshFromSource_failure_keeps_cached_fields exampleFs exampleObject true
      (exampleOffline 0) (Error.backend 503) (Or.inl rfl) rfl).1,
   (refreshFromSource_failure_keeps_cached_fields exampleFs exampleObject true
      (exampleOffline 0) (Error.backend 503) (Or.inl rfl) rfl).2.1⟩

/-- C7: when the lookup made by `refreshFromSource` succeeds, nil is returned;
afterwards `CacheModTime` is the live object's `ModTime` in Unix nanoseconds,
`CacheSize` its size, `CacheStorable` its flag, `CacheTs` the current time,
`CacheHashes` an empty map and the handle the live object; `AddObject` is
called exactly once, last, with this updated object, and when that write
succeeds the store holds the updated object under its absolute path. -/
theorem refreshFromSource_success_overwrites_and_persists (f : Fs) (o : Object)
    (force : Bool) (w : World) (live : LiveObject)
    (hf : force = true ∨ o.fsObject = none)
    (h : w.resolve (if (w.pending.lookup o.abs).isSome then o.ParentFs else FsRef.wrapped)
          (o.Remote f) = Except.ok live) :
    (o.refreshFromSource f force w).val = none ∧
    (o.refreshFromSource f force w).obj.CacheModTime = UnixNano live.modTime ∧
    (o.refreshFromSource f force w).obj.CacheSize = live.size ∧
    (o.refreshFromSource f force w).obj.CacheStorable = live.storable ∧
    (o.refreshFromSource f force w).obj.CacheTs = w.now ∧
    (o.refreshFromSource f force w).obj.CacheHashes = some [] ∧
    (o.refreshFromSource f force w).obj.fsObject = some live ∧
    (o.refreshFromSource f force w).world.trace =
      Event.addObject (o.refreshFromSource f force w).obj ::
        Event.newObject
          (if (w.pending.lookup o.abs).isSome then o.ParentFs else FsRef.wrapped)
          (o.Remote f) ::
        Event.searchPendingUpload o.abs :: w.trace ∧
    persists (o.refreshFromSource f force w).world.trace = persists w.trace + 1 ∧
    (w.addObjectErr = none →
      (o.refreshFromSource f force w).world.objects.lookup o.abs =
        some (o.refreshFromSource f force w).obj) := by
  rw [refreshFromSource_ok f o force w live hf h]
  refine ⟨rfl, rfl, rfl, rfl, rfl, rfl, rfl, ?_, ?_, ?_⟩
  · simp [AddObject_trace, World.log]
  · simp [AddObject_trace, World.log, persists_cons]
  · intro hadd
    simp [AddObject, World.log, hadd, List.lookup]

/-- Witness for C7: the example record refreshed from the reachable remote at
time 7. -/
theorem refreshFromSource_success_overwrites_and_persists_witness :
    (exampleObject.refreshFromSource exampleFs true (exampleWorld 7)).val = none ∧
    (exampleObject.refreshFromSource exampleFs true (exampleWorld 7)).obj.CacheModTime = 1234 ∧
    (exampleObject.refreshFromSource exampleFs true (exampleWorld 7)).obj.CacheSize = 10 :=
  ⟨(refreshFromSource_success_overwrites_and_persists exampleFs exampleObject true
      (exampleWorld 7) exampleLive (Or.inl rfl) rfl).1,
   (refreshFromSource_success_overwrites_and_persists exampleFs exampleObject true
      (exampleWorld 7) exampleLive (Or.inl rfl) rfl).2.1.trans (by decide),
   (refreshFromSource_success_overwrites_and_persists exampleFs exampleObject true
      (exampleWorld 7) exampleLive (Or.inl rfl) rfl).2.2.1.trans (by decide)⟩

/-- C8: an unforced `refreshFromSource` on an object that holds a handle returns
nil at once and leaves the object and the whole state untouched: no backend
lookup, no ledger search, no write.  When forced, or without a handle, it
performs exactly one backend lookup. -/
theorem refreshFromSource_unforced_with_handle_is_noop (f : Fs) (o : Object) (force : Bool)
    (w : World) :
    (o.fsObject.isSome = true →
      o.refreshFromSource f false w = ⟨none, o, w⟩ ∧
      lookups (o.refreshFromSource f false w).world.trace = lookups w.trace ∧
      searches (o.refreshFromSource f false w).world.trace = searches w.trace ∧
      persists (o.refreshFromSource f false w).world.trace = persists w.trace) ∧
    (force = true ∨ o.fsObject = none →
      lookups (o.refreshFromSource f force w).world.trace = lookups w.trace + 1) := by
  constructor
  · intro h
    rw [refreshFromSource_skip f o w h]
    exact ⟨rfl, rfl, rfl, rfl⟩
  · exact refreshFromSource_lookups f o force w

/-- C9, evaluated where the code departs from the claim: an object built by
`NewObject` before its path was queued keeps the wrapped remote as `ParentFs`;
once the path has a ledger entry, a forced refresh marks the object
`TempObject` but looks it up on the wrapped remote, never on the temporary
upload area, and caches the wrapped remote's size 10 instead of the staged
size 20. -/
theorem refreshFromSource_queued_after_construction_uses_wrapped :
    (NewObject exampleFs "a/b.txt" 0 (exampleWorld 0)).1.ParentFs = FsRef.wrapped ∧
    (exampleQueued 1).pending.lookup (NewObject exampleFs "a/b.txt" 0 (exampleWorld 0)).1.abs =
      some false ∧
    Event.newObject FsRef.wrapped "a/b.txt" ∈
      ((NewObject exampleFs "a/b.txt" 0 (exampleWorld 0)).1.refreshFromSource exampleFs true
        (exampleQueued 1)).world.trace ∧
    Event.newObject FsRef.temp "a/b.txt" ∉
      ((NewObject exampleFs "a/b.txt" 0 (exampleWorld 0)).1.refreshFromSource exampleFs true
        (exampleQueued 1)).world.trace ∧
    ((NewObject exampleFs "a/b.txt" 0 (exampleWorld 0)).1.refreshFromSource exampleFs true
        (exampleQueued 1)).obj.CacheType = "TempObject" ∧
    ((NewObject exampleFs "a/b.txt" 0 (exampleWorld 0)).1.refreshFromSource exampleFs true
        (exampleQueued 1)).obj.CacheSize = 10 ∧
    (exampleQueued 1).temp "a/b.txt" = Except.ok exampleStaged ∧
    exampleStaged.size = 20 :=
  ⟨by decide, by decide, by decide, by decide, by decide, by decide, rfl, rfl⟩

/-! ## Update -/

/-- C10, as the claim states it, fails in two ways.  Without a temporary upload
path the ledger is not consulted: the entry of `a/b.txt` is started, yet
`Update` returns nil and the handle's `Update` is invoked.  With a temporary
upload path and no handle held, `Update` first refreshes from the source: the
call is rejected as busy, but `CacheSize` and `CacheTs` have already taken the
freshly fetched values. -/
theorem update_started_upload_counterexample :
    (exampleUploading 5).pending.lookup exampleHeld.abs = some true ∧
    (exampleHeld.Update exampleFsDirect exampleSrc (exampleUploading 5)).val = none ∧
    updates (exampleHeld.Update exampleFsDirect exampleSrc (exampleUploading 5)).world.trace
      = 1 ∧
    (exampleUploading 5).pending.lookup
      (NewObject exampleFs "a/b.txt" 0 (exampleUploading 0)).1.abs = some true ∧
    ((NewObject exampleFs "a/b.txt" 0 (exampleUploading 0)).1.Update exampleFs exampleSrc
        (exampleUploading 5)).val =
      some (Error.errorf "a/b.txt is currently uploading, can\x27t update") ∧
    (NewObject exampleFs "a/b.txt" 0 (exampleUploading 0)).1.CacheSize = 0 ∧
    ((NewObject exampleFs "a/b.txt" 0 (exampleUploading 0)).1.Update exampleFs exampleSrc
        (exampleUploading 5)).obj.CacheSize = 20 ∧
    (NewObject exampleFs "a/b.txt" 0 (exampleUploading 0)).1.CacheTs = 0 ∧
    ((NewObject exampleFs "a/b.txt" 0 (exampleUploading 0)).1.Update exampleFs exampleSrc
        (exampleUploading 5)).obj.CacheTs = 5 :=
  ⟨by decide, by decide, by decide, by decide, by decide, by decide, by decide, by decide,
    by decide⟩

/-! ## Shared lemmas for Remove, Hash and SetModTime -/

theorem removes_cons (e : Event) (tr : List Event) :
    removes (e :: tr) =
      removes tr + (match e with | Event.objectRemove => 1 | _ => 0) := by
  cases e <;> simp [removes]

theorem expires_cons (e : Event) (tr : List Event) :
    expires (e :: tr) =
      expires tr + (match e with | Event.expireDir _ => 1 | _ => 0) := by
  cases e <;> simp [expires]

theorem notifies_cons (e : Event) (tr : List Event) :
    notifies (e :: tr) =
      notifies tr + (match e with | Event.notifyChangeUpstreamIfNeeded _ _ => 1 | _ => 0) := by
  cases e <;> simp [notifies]

theorem hashCalls_cons (e : Event) (tr : List Event) :
    hashCalls (e :: tr) =
      hashCalls tr + (match e with | Event.objectHash _ => 1 | _ => 0) := by
  cases e <;> simp [hashCalls]

theorem lookup_filter_ne {β : Type} (l : List (String × β)) (k : String) :
    (l.filter (fun kv => kv.1 != k)).lookup k = none := by
  induction l with
  | nil => rfl
  | cons hd tl ih =>
    by_cases h : hd.1 = k
    · simp [List.filter, h, ih]
    · have h2 : (hd.1 != k) = true := by simp [h]
      have h3 : (k == hd.1) = false := by
        simp only [beq_eq_false_iff_ne, ne_eq]
        exact fun a => h a.symm
      cases hd with
      | mk a b =>
        simp only [List.filter, h2]
        simp only [List.lookup, h3]
        exact ih

theorem AddObject_objects (w : World) (key : String) (o : Object) :
    (w.addObjectErr = none → (AddObject w key o).2.objects.lookup key = some o) ∧
    (∀ e, w.addObjectErr = some e → (AddObject w key o).2.objects = w.objects) := by
  constructor
  · intro h
    simp [AddObject, h, List.lookup]
  · intro e h
    simp [AddObject, h, World.log]

theorem AddObject_keeps_record (w : World) (key : String) (o : Object)
    (h : (w.objects.lookup key).isSome = true) :
    ((AddObject w key o).2.objects.lookup key).isSome = true := by
  cases he : w.addObjectErr with
  | none => rw [(AddObject_objects w key o).1 he]; rfl
  | some e => rw [(AddObject_objects w key o).2 e he]; exact h

theorem AddObject_rest (w : World) (key : String) (o : Object) :
    (AddObject w key o).2.expiredDirs = w.expiredDirs ∧
    (AddObject w key o).2.notified = w.notified ∧
    (AddObject w key o).2.addObjectErr = w.addObjectErr ∧
    (AddObject w key o).2.removeObjectErr = w.removeObjectErr ∧
    (AddObject w key o).2.removePendingUploadErr = w.removePendingUploadErr ∧
    (AddObject w key o).2.expireDirErr = w.expireDirErr := by
  cases h : w.addObjectErr <;> simp [AddObject, h, World.log]

theorem refreshFromSource_cases (f : Fs) (o : Object) (force : Bool) (w : World) :
    (o.refreshFromSource f force w = ⟨none, o, w⟩) ∨
    (∃ e, (o.refreshFromSource f force w).val = some e ∧
      (o.refreshFromSource f force w).world =
        (w.log (Event.searchPendingUpload o.abs)).log
          (Event.newObject
            (if (w.pending.lookup o.abs).isSome then o.ParentFs else FsRef.wrapped)
            (o.Remote f))) ∨
    (∃ live, (o.refreshFromSource f force w).val = none ∧
      (o.refreshFromSource f force w).obj.fsObject = some live ∧
      (o.refreshFromSource f force w).world =
        (AddObject
          ((w.log (Event.searchPendingUpload o.abs)).log
            (Event.newObject
              (if (w.pending.lookup o.abs).isSome then o.ParentFs else FsRef.wrapped)
              (o.Remote f)))
          o.abs (o.refreshFromSource f force w).obj).2) := by
  by_cases hg : force = true ∨ o.fsObject = none
  · cases hr : w.resolve
        (if (w.pending.lookup o.abs).isSome then o.ParentFs else FsRef.wrapped)
        (o.Remote f) with
    | error cause =>
      right; left
      rw [refreshFromSource_error f o force w cause hg hr]
      exact ⟨_, rfl, rfl⟩
    | ok live =>
      right; right
      rw [refreshFromSource_ok f o force w live hg hr]
      exact ⟨live, rfl, rfl, rfl⟩
  · left
    have h1 : force = false := by
      cases force
      · rfl
      · exact absurd (Or.inl rfl) hg
    have h2 : o.fsObject.isSome = true := by
      cases hq : o.fsObject
      · exact absurd (Or.inr hq) hg
      · rfl
    rw [h1, refreshFromSource_skip f o w h2]

theorem refreshFromSource_frame_more (f : Fs) (o : Object) (force : Bool) (w : World) :
    (o.refreshFromSource f force w).world.expiredDirs = w.expiredDirs ∧
    (o.refreshFromSource f force w).world.pauses = w.pauses ∧
    removes (o.refreshFromSource f force w).world.trace = removes w.trace ∧
    expires (o.refreshFromSource f force w).world.trace = expires w.trace ∧
    notifies (o.refreshFromSource f force w).world.trace = notifies w.trace ∧
    hashCalls (o.refreshFromSource f force w).world.trace = hashCalls w.trace ∧
    List.count Event.pause (o.refreshFromSource f force w).world.trace =
      List.count Event.pause w.trace ∧
    List.count Event.play (o.refreshFromSource f force w).world.trace =
      List.count Event.play w.trace ∧
    ((w.objects.lookup o.abs).isSome = true →
      ((o.refreshFromSource f force w).world.objects.lookup o.abs).isSome = true) := by
  rcases refreshFromSource_cases f o force w with h | ⟨e, -, h⟩ | ⟨live, -, -, h⟩
  · rw [h]
    exact ⟨rfl, rfl, rfl, rfl, rfl, rfl, rfl, rfl, fun a => a⟩
  · rw [h]
    simp [World.log, removes_cons, expires_cons, notifies_cons, hashCalls_cons]
  · rw [h]
    refine ⟨?_, ?_, ?_, ?_, ?_, ?_, ?_, ?_, ?_⟩
    · simp [AddObject_rest, World.log]
    · simp [AddObject_frame, World.log]
    · simp [AddObject_trace, World.log, removes_cons]
    · simp [AddObject_trace, World.log, expires_cons]
    · simp [AddObject_trace, World.log, notifies_cons]
    · simp [AddObject_trace, World.log, hashCalls_cons]
    · simp [AddObject_trace, World.log]
    · simp [AddObject_trace, World.log]
    · intro hx
      exact AddObject_keeps_record _ _ _ (by simpa [World.log] using hx)

theorem Remove_after_failed_refresh (f : Fs) (o : Object) (w : World)
    (e : Error) (h : (o.refreshFromSource f false w).val = some e) :
    o.Remove f w =
      ⟨some e, (o.refreshFromSource f false w).obj, (o.refreshFromSource f false w).world⟩ := by
  unfold Object.Remove
  simp only [h]

theorem Remove_started_upload (f : Fs) (o : Object) (w : World)
    (hwb : f.tempWritePath ≠ "")
    (h : (o.refreshFromSource f false w).val = none)
    (hs : (o.refreshFromSource f false w).world.pending.lookup
        (o.refreshFromSource f false w).obj.abs = some true) :
    o.Remove f w =
      ⟨some (Error.errorf ((o.refreshFromSource f false w).obj.Remote f ++
          " is currently uploading, can\x27t delete")),
        { (o.refreshFromSource f false w).obj with CacheType := objectPendingUpload },
        play (((pause (o.refreshFromSource f false w).world).log
          (Event.searchPendingUpload (o.refreshFromSource f false w).obj.abs)).log
          (Event.searchPendingUpload (o.refreshFromSource f false w).obj.abs))⟩ := by
  unfold Object.Remove
  simp only [h, ne_eq, hwb, not_false_eq_true, if_true]
  have h1 := isTempFile_entry (o.refreshFromSource f false w).obj
    (pause (o.refreshFromSource f false w).world) true hs
  rw [h1]
  have h2 := tempFileStartedUpload_entry
    { (o.refreshFromSource f false w).obj with CacheType := objectPendingUpload }
    ((pause (o.refreshFromSource f false w).world).log
      (Event.searchPendingUpload (o.refreshFromSource f false w).obj.abs)) true hs
  simp only [if_true, h2]
  rfl

theorem unqueues_cons (e : Event) (tr : List Event) :
    unqueues (e :: tr) =
      unqueues tr + (match e with | Event.removePendingUpload _ => 1 | _ => 0) := by
  cases e <;> simp [unqueues]

theorem not_mem_filter_ne (l : List (String × Nat)) (k : String) (i : Nat) :
    (k, i) ∉ l.filter (fun kv => kv.1 != k) := by
  simp [List.mem_filter]

theorem removeWrite_nil (f : Fs) (o : Object) (w : World)
    (h : (o.removeWrite f w).val = none) :
    (o.removeWrite f w).obj = o ∧
    (o.removeWrite f w).world.trace =
      Event.notifyChangeUpstreamIfNeeded (f.cleanPath (path.Dir (o.Remote f)))
          EntryType.directory ::
        Event.expireDir (f.cleanPath (path.Dir (o.Remote f))) ::
        Event.removePendingUpload o.abs :: Event.removeObject o.abs ::
        Event.objectRemove :: w.trace ∧
    (w.removeObjectErr = none →
      (o.removeWrite f w).world.objects.lookup o.abs = none ∧
      ∀ i, (o.abs, i) ∉ (o.removeWrite f w).world.chunks) ∧
    (w.removePendingUploadErr = none →
      (o.removeWrite f w).world.pending.lookup o.abs = none) ∧
    (w.expireDirErr = none →
      f.cleanPath (path.Dir (o.Remote f)) ∈ (o.removeWrite f w).world.expiredDirs) := by
  unfold Object.removeWrite at h ⊢
  cases ho : o.fsObject with
  | none => simp [ho] at h
  | some live =>
    simp only [ho] at h ⊢
    cases hr : live.removeErr with
    | some e => simp [hr] at h
    | none =>
      simp only [hr]
      refine ⟨trivial, ?_, ?_, ?_, ?_⟩
      · cases h1 : w.removeObjectErr <;> cases h2 : w.removePendingUploadErr <;>
          cases h3 : w.expireDirErr <;>
          simp [notifyChangeUpstreamIfNeeded, ExpireDir, removePendingUpload, RemoveObject,
            World.log, NewDirectory, Directory.Remote, h1, h2, h3]
      · intro h1
        cases h2 : w.removePendingUploadErr <;> cases h3 : w.expireDirErr <;>
          simp [notifyChangeUpstreamIfNeeded, ExpireDir, removePendingUpload, RemoveObject,
            World.log, NewDirectory, Directory.Remote, h1, h2, h3, lookup_filter_ne]
      · intro h2
        cases h1 : w.removeObjectErr <;> cases h3 : w.expireDirErr <;>
          simp [notifyChangeUpstreamIfNeeded, ExpireDir, removePendingUpload, RemoveObject,
            World.log, NewDirectory, Directory.Remote, h1, h2, h3, lookup_filter_ne]
      · intro h3
        cases h1 : w.removeObjectErr <;> cases h2 : w.removePendingUploadErr <;>
          simp [notifyChangeUpstreamIfNeeded, ExpireDir, removePendingUpload, RemoveObject,
            World.log, NewDirectory, Directory.Remote, h1, h2, h3]

theorem isTempFile_no_entry (o : Object) (w : World)
    (hs : w.pending.lookup o.abs = none) :
    o.isTempFile w =
      ⟨false, { o with CacheType := objectInCache },
        w.log (Event.searchPendingUpload o.abs)⟩ := by
  simp [Object.isTempFile, SearchPendingUpload, hs]

theorem refreshFromSource_errs (f : Fs) (o : Object) (force : Bool) (w : World) :
    (o.refreshFromSource f force w).world.addObjectErr = w.addObjectErr ∧
    (o.refreshFromSource f force w).world.removeObjectErr = w.removeObjectErr ∧
    (o.refreshFromSource f force w).world.removePendingUploadErr = w.removePendingUploadErr ∧
    (o.refreshFromSource f force w).world.expireDirErr = w.expireDirErr ∧
    (o.refreshFromSource f force w).world.now = w.now ∧
    unqueues (o.refreshFromSource f force w).world.trace = unqueues w.trace := by
  rcases refreshFromSource_cases f o force w with h | ⟨e, -, h⟩ | ⟨live, -, -, h⟩
  · rw [h]
    exact ⟨rfl, rfl, rfl, rfl, rfl, rfl⟩
  · rw [h]
    simp [World.log, unqueues_cons]
  · rw [h]
    simp [AddObject_rest, AddObject_trace, AddObject_now, World.log, unqueues_cons]

/-- The state in which the write part of a call that got past the preliminary
refresh and the check for started uploads runs: the refreshed object with its
cache type set from the ledger, after `pause` and the ledger searches. -/
theorem Remove_nil_shape (f : Fs) (o : Object) (w : World)
    (h : (o.Remove f w).val = none) :
    ∃ (o0 : Object) (w0 : World), o0.Name = o.Name ∧ o0.Dir = o.Dir ∧
      (o0.removeWrite f w0).val = none ∧
      ((o.Remove f w).world = (o0.removeWrite f w0).world ∨
        (o.Remove f w).world = play (o0.removeWrite f w0).world) ∧
      (o.Remove f w).obj = (o0.removeWrite f w0).obj ∧
      w0.removeObjectErr = w.removeObjectErr ∧
      w0.removePendingUploadErr = w.removePendingUploadErr ∧
      w0.expireDirErr = w.expireDirErr ∧
      purges w0.trace = purges w.trace ∧
      unqueues w0.trace = unqueues w.trace ∧
      expires w0.trace = expires w.trace ∧
      notifies w0.trace = notifies w.trace ∧
      removes w0.trace = removes w.trace := by
  obtain ⟨-, -, -, fr⟩ := refreshFromSource_frame f o false w
  obtain ⟨-, -, frm, fex, fno, -, -, -, -⟩ := refreshFromSource_frame_more f o false w
  obtain ⟨-, e1, e2, e3, -, fu⟩ := refreshFromSource_errs f o false w
  obtain ⟨rn, rd, -⟩ := refreshFromSource_remote f o false w
  unfold Object.Remove at h ⊢
  cases hv : (o.refreshFromSource f false w).val with
  | some e => simp [hv] at h
  | none =>
    simp only [hv] at h ⊢
    by_cases hwb : f.tempWritePath = ""
    · simp only [ne_eq, hwb, not_true_eq_false, if_false] at h ⊢
      exact ⟨_, _, rn, rd, h, Or.inl rfl, rfl, e1, e2, e3, fr, fu, fex, fno, frm⟩
    · simp only [ne_eq, hwb, not_false_eq_true, if_true] at h ⊢
      cases hp : (pause (o.refreshFromSource f false w).world).pending.lookup
          (o.refreshFromSource f false w).obj.abs with
      | none =>
        rw [isTempFile_no_entry _ _ hp] at h ⊢
        simp only [Bool.false_eq_true, if_false, Bool.false_and] at h ⊢
        refine ⟨_, _, ?_, ?_, h, Or.inr rfl, rfl, ?_⟩
        · exact rn
        · exact rd
        · simp [pause, World.log, e1, e2, e3, purges_cons, unqueues_cons, expires_cons,
            notifies_cons, removes_cons, fr, fu, fex, fno, frm]
      | some b =>
        rw [isTempFile_entry _ _ b hp] at h ⊢
        have h2 := tempFileStartedUpload_entry
          { (o.refreshFromSource f false w).obj with CacheType := objectPendingUpload }
          ((pause (o.refreshFromSource f false w).world).log
            (Event.searchPendingUpload (o.refreshFromSource f false w).obj.abs)) b hp
        simp only [if_true, h2, Bool.true_and] at h ⊢
        cases b with
        | true => simp at h
        | false =>
          simp only [Bool.false_eq_true, if_false] at h ⊢
          refine ⟨_, _, ?_, ?_, h, Or.inr rfl, rfl, ?_⟩
          · exact rn
          · exact rd
          · simp [pause, World.log, e1, e2, e3, purges_cons, unqueues_cons, expires_cons,
              notifies_cons, removes_cons, fr, fu, fex, fno, frm]

/-! ## Remove -/

/-- C11, as the claim states it, fails in two ways.  Without a temporary upload
path the ledger is not consulted: the entry of `a/b.txt` is started, yet
`Remove` returns nil, the handle's `Remove` is invoked, the ledger entry is
gone, the parent directory is expired and a notification is raised.  With a
temporary upload path and no handle held, `Remove` first refreshes from the
source, and when that lookup fails the error returned is the lookup error, not
the busy error. -/
theorem remove_started_upload_counterexample :
    (exampleUploadingCached 5).pending.lookup exampleHeld.abs = some true ∧
    (exampleHeld.Remove exampleFsDirect (exampleUploadingCached 5)).val = none ∧
    removes (exampleHeld.Remove exampleFsDirect (exampleUploadingCached 5)).world.trace = 1 ∧
    (exampleHeld.Remove exampleFsDirect (exampleUploadingCached 5)).world.pending.lookup
      exampleHeld.abs = none ∧
    (exampleHeld.Remove exampleFsDirect (exampleUploadingCached 5)).world.expiredDirs = ["a"] ∧
    notifies (exampleHeld.Remove exampleFsDirect (exampleUploadingCached 5)).world.trace = 1 ∧
    (exampleUploadingOffline 5).pending.lookup
      (NewObject exampleFs "a/b.txt" 0 (exampleUploading 0)).1.abs = some true ∧
    ((NewObject exampleFs "a/b.txt" 0 (exampleUploading 0)).1.Remove exampleFs
        (exampleUploadingOffline 5)).val =
      some (Error.wrapf (Error.backend 503) "in parent fs /tmp/upload") ∧
    ((NewObject exampleFs "a/b.txt" 0 (exampleUploading 0)).1.Remove exampleFs
        (exampleUploadingOffline 5)).val ≠
      some (Error.errorf "a/b.txt is currently uploading, can\x27t delete") :=
  ⟨by decide, by decide, by decide, by decide, by decide, by decide, by decide, by decide,
    by decide⟩

/-- C12, as the claim states it, fails: the example record holds a handle, its
path is queued with the upload not started, and the three store removals fail.
`Remove` still returns nil, while the record, its chunk and the ledger entry
are all still there and no directory is marked expired. -/
theorem remove_success_store_failure_counterexample :
    (exampleHeld.Remove exampleFs (exampleStoreFailing 5)).val = none ∧
    ((exampleHeld.Remove exampleFs (exampleStoreFailing 5)).world.objects.lookup
      exampleHeld.abs).isSome = true ∧
    (exampleHeld.abs, 0) ∈ (exampleHeld.Remove exampleFs (exampleStoreFailing 5)).world.chunks ∧
    (exampleHeld.Remove exampleFs (exampleStoreFailing 5)).world.pending.lookup
      exampleHeld.abs = some false ∧
    (exampleHeld.Remove exampleFs (exampleStoreFailing 5)).world.expiredDirs = [] :=
  ⟨by decide, by decide, by decide, by decide, by decide⟩

/-! ## Update, continued -/

theorem RemoveObject_frame (w : World) (key : String) :
    (RemoveObject w key).2.now = w.now ∧
    (RemoveObject w key).2.addObjectErr = w.addObjectErr ∧
    (RemoveObject w key).2.trace = Event.removeObject key :: w.trace ∧
    (RemoveObject w key).2.pauses = w.pauses ∧
    (w.removeObjectErr = none →
      ∀ i, (key, i) ∉ (RemoveObject w key).2.chunks) := by
  cases h : w.removeObjectErr <;> simp [RemoveObject, h, World.log]

theorem updateWrite_nil (o : Object) (src : ObjectInfo) (w : World)
    (h : (o.updateWrite src w).val = none) :
    (o.updateWrite src w).obj =
      { o with CacheModTime := UnixNano src.modTime, CacheSize := src.size,
               CacheHashes := some [], CacheTs := w.now } ∧
    (o.updateWrite src w).world.trace =
      Event.addObject (o.updateWrite src w).obj :: Event.removeObject o.abs ::
        Event.objectUpdate src :: w.trace ∧
    (w.removeObjectErr = none → ∀ i, (o.abs, i) ∉ (o.updateWrite src w).world.chunks) ∧
    (w.addObjectErr = none →
      (o.updateWrite src w).world.objects.lookup o.abs = some (o.updateWrite src w).obj) := by
  unfold Object.updateWrite at h ⊢
  cases ho : o.fsObject with
  | none => simp [ho] at h
  | some live =>
    simp only [ho] at h ⊢
    cases hr : live.updateErr with
    | some e => simp [hr] at h
    | none =>
      simp only [hr, Object.persist]
      obtain ⟨r1, r2, r3, -, r5⟩ := RemoveObject_frame (w.log (Event.objectUpdate src)) o.abs
      refine ⟨?_, ?_, ?_, ?_⟩
      · rw [r1]; rfl
      · rw [AddObject_trace, r3]; rfl
      · intro hx i
        rw [(AddObject_frame _ _ _).2.1]
        exact r5 (by simpa [World.log] using hx) i
      · intro hx
        exact (AddObject_objects _ _ _).1 (by rw [r2]; simpa [World.log] using hx)

theorem Update_nil_shape (f : Fs) (o : Object) (src : ObjectInfo) (w : World)
    (h : (o.Update f src w).val = none) :
    ∃ (o0 : Object) (w0 : World), o0.Name = o.Name ∧ o0.Dir = o.Dir ∧
      (o0.updateWrite src w0).val = none ∧
      ((o.Update f src w).world = (o0.updateWrite src w0).world ∨
        (o.Update f src w).world = play (o0.updateWrite src w0).world) ∧
      (o.Update f src w).obj = (o0.updateWrite src w0).obj ∧
      w0.removeObjectErr = w.removeObjectErr ∧
      w0.addObjectErr = w.addObjectErr ∧
      w0.now = w.now ∧
      purges w0.trace = purges w.trace ∧
      updates w0.trace = updates w.trace := by
  obtain ⟨-, -, fu, fr⟩ := refreshFromSource_frame f o false w
  obtain ⟨e0, e1, -, -, en, -⟩ := refreshFromSource_errs f o false w
  obtain ⟨rn, rd, -⟩ := refreshFromSource_remote f o false w
  unfold Object.Update at h ⊢
  cases hv : (o.refreshFromSource f false w).val with
  | some e => simp [hv] at h
  | none =>
    simp only [hv] at h ⊢
    by_cases hwb : f.tempWritePath = ""
    · simp only [ne_eq, hwb, not_true_eq_false, if_false] at h ⊢
      exact ⟨_, _, rn, rd, h, Or.inl rfl, rfl, e1, e0, en, fr, fu⟩
    · simp only [ne_eq, hwb, not_false_eq_true, if_true] at h ⊢
      cases hp : (pause (o.refreshFromSource f false w).world).pending.lookup
          (o.refreshFromSource f false w).obj.abs with
      | none =>
        rw [isTempFile_no_entry _ _ hp] at h ⊢
        simp only [Bool.false_eq_true, if_false, Bool.false_and] at h ⊢
        refine ⟨_, _, ?_, ?_, h, Or.inr rfl, rfl, ?_⟩
        · exact rn
        · exact rd
        · simp [pause, World.log, e0, e1, en, purges_cons, updates_cons, fr, fu]
      | some b =>
        rw [isTempFile_entry _ _ b hp] at h ⊢
        have h2 := tempFileStartedUpload_entry
          { (o.refreshFromSource f false w).obj with CacheType := objectPendingUpload }
          ((pause (o.refreshFromSource f false w).world).log
            (Event.searchPendingUpload (o.refreshFromSource f false w).obj.abs)) b hp
        simp only [if_true, h2, Bool.true_and] at h ⊢
        cases b with
        | true => simp at h
        | false =>
          simp only [Bool.false_eq_true, if_false] at h ⊢
          refine ⟨_, _, ?_, ?_, h, Or.inr rfl, rfl, ?_⟩
          · exact rn
          · exact rd
          · simp [pause, World.log, e0, e1, en, purges_cons, updates_cons, fr, fu]

/-- C13, as the claim states it, fails: the example record holds a handle, its
path is queued with the upload not started, a chunk and a record of size 3 are
cached, and the store fails every write and removal.  `Update` with a source of
size 42 returns nil, while the old chunk is still cached and the stored record
is still the old one. -/
theorem update_success_store_failure_counterexample :
    (exampleHeld.Update exampleFs exampleSrc (exampleStoreDown 5)).val = none ∧
    (exampleHeld.abs, 0) ∈
      (exampleHeld.Update exampleFs exampleSrc (exampleStoreDown 5)).world.chunks ∧
    (exampleHeld.Update exampleFs exampleSrc (exampleStoreDown 5)).world.objects.lookup
      exampleHeld.abs = some exampleHeld ∧
    exampleHeld.CacheSize = 3 ∧
    (exampleHeld.Update exampleFs exampleSrc (exampleStoreDown 5)).obj.CacheSize = 42 :=
  ⟨by decide, by decide, by decide, by decide, by decide⟩

/-! ## Pausing the background uploader -/

theorem updateWrite_trace (o : Object) (src : ObjectInfo) (w : World) :
    (o.updateWrite src w).world.pauses = w.pauses ∧
    ∃ mid, (o.updateWrite src w).world.trace = mid ++ w.trace ∧
      Event.pause ∉ mid ∧ Event.play ∉ mid := by
  unfold Object.updateWrite
  cases ho : o.fsObject with
  | none => exact ⟨rfl, [], rfl, by simp, by simp⟩
  | some live =>
    cases hr : live.updateErr with
    | some e =>
      simp only [hr]
      exact ⟨rfl, [Event.objectUpdate src], rfl, by simp, by simp⟩
    | none =>
      simp only [hr, Object.persist]
      obtain ⟨-, -, r3, r4, -⟩ := RemoveObject_frame (w.log (Event.objectUpdate src)) o.abs
      refine ⟨?_, ?_⟩
      · rw [(AddObject_frame _ _ _).2.2, r4]; rfl
      · rw [AddObject_trace, r3]
        exact ⟨[Event.addObject _, Event.removeObject o.abs, Event.objectUpdate src], rfl,
          by simp, by simp⟩

theorem removeWrite_trace (f : Fs) (o : Object) (w : World) :
    (o.removeWrite f w).world.pauses = w.pauses ∧
    ∃ mid, (o.removeWrite f w).world.trace = mid ++ w.trace ∧
      Event.pause ∉ mid ∧ Event.play ∉ mid := by
  unfold Object.removeWrite
  cases ho : o.fsObject with
  | none => exact ⟨rfl, [], rfl, by simp, by simp⟩
  | some live =>
    cases hr : live.removeErr with
    | some e =>
      simp only [hr]
      exact ⟨rfl, [Event.objectRemove], rfl, by simp, by simp⟩
    | none =>
      simp only [hr]
      refine ⟨?_, [Event.notifyChangeUpstreamIfNeeded (f.cleanPath (path.Dir (o.Remote f)))
          EntryType.directory,
        Event.expireDir (f.cleanPath (path.Dir (o.Remote f))),
        Event.removePendingUpload o.abs, Event.removeObject o.abs, Event.objectRemove],
        ?_, by simp, by simp⟩
      · cases h1 : w.removeObjectErr <;> cases h2 : w.removePendingUploadErr <;>
          cases h3 : w.expireDirErr <;>
          simp [notifyChangeUpstreamIfNeeded, ExpireDir, removePendingUpload, RemoveObject,
            World.log, NewDirectory, Directory.Remote, h1, h2, h3]
      · cases h1 : w.removeObjectErr <;> cases h2 : w.removePendingUploadErr <;>
          cases h3 : w.expireDirErr <;>
          simp [notifyChangeUpstreamIfNeeded, ExpireDir, removePendingUpload, RemoveObject,
            World.log, NewDirectory, Directory.Remote, h1, h2, h3]

theorem Update_paused (f : Fs) (o : Object) (src : ObjectInfo) (w : World) (o1 : Object) (w1 : World)
    (hwb : f.tempWritePath ≠ "") (hr : o.refreshFromSource f false w = ⟨none, o1, w1⟩) :
    (o.Update f src w).world.pauses = w1.pauses ∧
    ∃ mid, (o.Update f src w).world.trace = Event.play :: (mid ++ Event.pause :: w1.trace) ∧
      Event.pause ∉ mid ∧ Event.play ∉ mid := by
  unfold Object.Update
  rw [hr]
  simp only [ne_eq, hwb, not_false_eq_true, if_true]
  cases hp : (pause w1).pending.lookup o1.abs with
  | none =>
    rw [isTempFile_no_entry _ _ hp]
    simp only [Bool.false_eq_true, if_false, Bool.false_and]
    obtain ⟨hpz, mid, hm, h1, h2⟩ := updateWrite_trace { o1 with CacheType := objectInCache } src 
      ((pause w1).log (Event.searchPendingUpload o1.abs))
    refine ⟨?_, mid ++ [Event.searchPendingUpload o1.abs], ?_, by simp [h1], by simp [h2]⟩
    · simp only [play]; rw [hpz]; simp [pause, World.log]
    · simp only [play]; rw [hm]; simp [pause, World.log]
  | some b =>
    rw [isTempFile_entry _ _ b hp]
    have h2 := tempFileStartedUpload_entry { o1 with CacheType := objectPendingUpload }
      ((pause w1).log (Event.searchPendingUpload o1.abs)) b hp
    simp only [if_true, h2, Bool.true_and]
    cases b with
    | true =>
      simp only [if_true]
      refine ⟨?_, [Event.searchPendingUpload o1.abs, Event.searchPendingUpload o1.abs], ?_,
        by simp, by simp⟩
      · simp [play, pause, World.log]
      · simp [play, pause, World.log, Object.abs]
    | false =>
      simp only [Bool.false_eq_true, if_false]
      obtain ⟨hpz, mid, hm, h1, h2⟩ := updateWrite_trace { o1 with CacheType := objectPendingUpload } src 
        (((pause w1).log (Event.searchPendingUpload o1.abs)).log
          (Event.searchPendingUpload
            (Object.abs { o1 with CacheType := objectPendingUpload })))
      refine ⟨?_, mid ++ [Event.searchPendingUpload o1.abs, Event.searchPendingUpload o1.abs],
        ?_, by simp [h1], by simp [h2]⟩
      · simp only [play]; rw [hpz]; simp [pause, World.log]
      · simp only [play]; rw [hm]; simp [pause, World.log, Object.abs]

theorem Remove_paused (f : Fs) (o : Object) (w : World) (o1 : Object) (w1 : World)
    (hwb : f.tempWritePath ≠ "") (hr : o.refreshFromSource f false w = ⟨none, o1, w1⟩) :
    (o.Remove f w).world.pauses = w1.pauses ∧
    ∃ mid, (o.Remove f w).world.trace = Event.play :: (mid ++ Event.pause :: w1.trace) ∧
      Event.pause ∉ mid ∧ Event.play ∉ mid := by
  unfold Object.Remove
  rw [hr]
  simp only [ne_eq, hwb, not_false_eq_true, if_true]
  cases hp : (pause w1).pending.lookup o1.abs with
  | none =>
    rw [isTempFile_no_entry _ _ hp]
    simp only [Bool.false_eq_true, if_false, Bool.false_and]
    obtain ⟨hpz, mid, hm, h1, h2⟩ := removeWrite_trace f { o1 with CacheType := objectInCache } 
      ((pause w1).log (Event.searchPendingUpload o1.abs))
    refine ⟨?_, mid ++ [Event.searchPendingUpload o1.abs], ?_, by simp [h1], by simp [h2]⟩
    · simp only [play]; rw [hpz]; simp [pause, World.log]
    · simp only [play]; rw [hm]; simp [pause, World.log]
  | some b =>
    rw [isTempFile_entry _ _ b hp]
    have h2 := tempFileStartedUpload_entry { o1 with CacheType := objectPendingUpload }
      ((pause w1).log (Event.searchPendingUpload o1.abs)) b hp
    simp only [if_true, h2, Bool.true_and]
    cases b with
    | true =>
      simp only [if_true]
      refine ⟨?_, [Event.searchPendingUpload o1.abs, Event.searchPendingUpload o1.abs], ?_,
        by simp, by simp⟩
      · simp [play, pause, World.log]
      · simp [play, pause, World.log, Object.abs]
    | false =>
      simp only [Bool.false_eq_true, if_false]
      obtain ⟨hpz, mid, hm, h1, h2⟩ := removeWrite_trace f { o1 with CacheType := objectPendingUpload } 
        (((pause w1).log (Event.searchPendingUpload o1.abs)).log
          (Event.searchPendingUpload
            (Object.abs { o1 with CacheType := objectPendingUpload })))
      refine ⟨?_, mid ++ [Event.searchPendingUpload o1.abs, Event.searchPendingUpload o1.abs],
        ?_, by simp [h1], by simp [h2]⟩
      · simp only [play]; rw [hpz]; simp [pause, World.log]
      · simp only [play]; rw [hm]; simp [pause, World.log, Object.abs]

theorem Out_eta_none (r : Out (Option Error)) (h : r.val = none) :
    r = ⟨none, r.obj, r.world⟩ := by
  cases r
  simp at h
  subst h
  rfl

/-- C14, as the claim states it, fails: on the example cache (temporary upload
path set) `Update` on the record without a handle first refreshes from the
source.  Read in the order of the calls, the trace starts with the ledger
search, the backend lookup and the store write of that refresh; `pause` comes
only fourth. -/
theorem update_lookup_before_pause_counterexample :
    exampleFs.tempWritePath ≠ "" ∧
    (exampleObject.Update exampleFs exampleSrc (exampleWorld 5)).world.trace.reverse[1]? =
      some (Event.newObject FsRef.wrapped "a/b.txt") ∧
    lookups ((exampleObject.Update exampleFs exampleSrc
      (exampleWorld 5)).world.trace.reverse.take 3) = 1 ∧
    persists ((exampleObject.Update exampleFs exampleSrc
      (exampleWorld 5)).world.trace.reverse.take 3) = 1 ∧
    List.count Event.pause ((exampleObject.Update exampleFs exampleSrc
      (exampleWorld 5)).world.trace.reverse.take 3) = 0 ∧
    (exampleObject.Update exampleFs exampleSrc (exampleWorld 5)).world.trace.reverse[3]? =
      some Event.pause :=
  ⟨by decide, by decide, by decide, by decide, by decide, by decide⟩

/-- C14, amended: with a temporary upload path set, every `Update` and `Remove`
call first runs `refreshFromSource(false)` unpaused (its backend lookup and
store write, when no handle is held, come before any `pause`).  When that
refresh fails the call returns without `pause` or `play`.  When it succeeds,
`pause` is the next call, `play` is the last call, and everything else the call
does (ledger searches, the handle's `Update` or `Remove`, every purge and store
write) lies between them with no other `pause` or `play`: one `play` for the one
`pause` on every later return path.  In all cases the pause count after the
call equals the count before it. -/
theorem update_remove_pause_play_balanced (f : Fs) (o : Object) (src : ObjectInfo)
    (w : World) (hwb : f.tempWritePath ≠ "") :
    (o.Update f src w).world.pauses = w.pauses ∧
    (o.Remove f w).world.pauses = w.pauses ∧
    (∀ e, (o.refreshFromSource f false w).val = some e →
      (o.Update f src w).world.trace = (o.refreshFromSource f false w).world.trace ∧
      (o.Remove f w).world.trace = (o.refreshFromSource f false w).world.trace) ∧
    ((o.refreshFromSource f false w).val = none →
      (∃ mid, (o.Update f src w).world.trace =
          Event.play :: (mid ++ Event.pause :: (o.refreshFromSource f false w).world.trace) ∧
        Event.pause ∉ mid ∧ Event.play ∉ mid) ∧
      (∃ mid, (o.Remove f w).world.trace =
          Event.play :: (mid ++ Event.pause :: (o.refreshFromSource f false w).world.trace) ∧
        Event.pause ∉ mid ∧ Event.play ∉ mid)) ∧
    List.count Event.pause (o.refreshFromSource f false w).world.trace =
      List.count Event.pause w.trace ∧
    List.count Event.play (o.refreshFromSource f false w).world.trace =
      List.count Event.play w.trace ∧
    updates (o.refreshFromSource f false w).world.trace = updates w.trace ∧
    removes (o.refreshFromSource f false w).world.trace = removes w.trace ∧
    purges (o.refreshFromSource f false w).world.trace = purges w.trace := by
  obtain ⟨-, -, fu, fr⟩ := refreshFromSource_frame f o false w
  obtain ⟨-, fpz, frm, -, -, -, cpa, cpl, -⟩ := refreshFromSource_frame_more f o false w
  cases hv : (o.refreshFromSource f false w).val with
  | some e =>
    rw [Update_after_failed_refresh f o src w e hv, Remove_after_failed_refresh f o w e hv]
    exact ⟨fpz, fpz, fun _ _ => ⟨rfl, rfl⟩, fun a => by simp at a, cpa, cpl, fu, frm, fr⟩
  | none =>
    have hr := Out_eta_none _ hv
    obtain ⟨u1, u2⟩ := Update_paused f o src w _ _ hwb hr
    obtain ⟨r1, r2⟩ := Remove_paused f o w _ _ hwb hr
    exact ⟨u1.trans fpz, r1.trans fpz, fun e a => by simp at a, fun _ => ⟨u2, r2⟩,
      cpa, cpl, fu, frm, fr⟩

/-- Witness for the amended C14: the example record holding a handle, updated
and removed while its path is queued. -/
theorem update_remove_pause_play_balanced_witness :
    exampleFs.tempWritePath ≠ "" ∧
    (exampleHeld.Update exampleFs exampleSrc (exampleQueuedCached 5)).world.pauses = 0 ∧
    (exampleHeld.Remove exampleFs (exampleQueuedCached 5)).world.pauses = 0 :=
  ⟨by decide,
    (update_remove_pause_play_balanced exampleFs exampleHeld exampleSrc
      (exampleQueuedCached 5) (by decide)).1,
    (update_remove_pause_play_balanced exampleFs exampleHeld exampleSrc
      (exampleQueuedCached 5) (by decide)).2.1⟩

/-! ## Hash -/

theorem lookup_filter_other (m : List (Nat × String)) (ht k : Nat) (h : k ≠ ht) :
    (m.filter (fun kv => kv.1 != ht)).lookup k = m.lookup k := by
  induction m with
  | nil => rfl
  | cons hd tl ih =>
    cases hd with
    | mk a b =>
      by_cases ha : a = ht
      · have h3 : (k == a) = false := by
          simp only [beq_eq_false_iff_ne, ne_eq]
          rw [ha]; exact h
        simp only [List.filter, ha, bne_self_eq_false, List.lookup]
        rw [← ha, h3]
        rw [ha]; exact ih
      · have h2 : (a != ht) = true := by simp [ha]
        simp only [List.filter, h2, List.lookup]
        rw [ih]

theorem lookup_setHash (m : List (Nat × String)) (ht : Nat) (d : String) :
    (setHash m ht d).lookup ht = some d ∧
    ∀ k, k ≠ ht → (setHash m ht d).lookup k = m.lookup k := by
  constructor
  · simp [setHash, List.lookup]
  · intro k hk
    have h3 : (k == ht) = false := by
      simp only [beq_eq_false_iff_ne, ne_eq]; exact hk
    simp only [setHash, List.lookup, h3]
    exact lookup_filter_other m ht k hk

theorem refreshFromSource_hashes (f : Fs) (o : Object) (force : Bool) (w : World) :
    (o.refreshFromSource f force w).obj.CacheHashes = o.CacheHashes ∨
    (o.refreshFromSource f force w).obj.CacheHashes = some [] := by
  by_cases hg : force = true ∨ o.fsObject = none
  · cases hr : w.resolve
        (if (w.pending.lookup o.abs).isSome then o.ParentFs else FsRef.wrapped)
        (o.Remote f) with
    | error cause =>
      rw [refreshFromSource_error f o force w cause hg hr]
      exact Or.inl rfl
    | ok live =>
      rw [refreshFromSource_ok f o force w live hg hr]
      exact Or.inr rfl
  · have h1 : force = false := by
      cases force
      · rfl
      · exact absurd (Or.inl rfl) hg
    have h2 : o.fsObject.isSome = true := by
      cases hq : o.fsObject
      · exact absurd (Or.inr hq) hg
      · rfl
    rw [h1, refreshFromSource_skip f o w h2]
    exact Or.inl rfl

theorem Hash_hit (f : Fs) (o : Object) (ht : Nat) (w : World) (d : String)
    (h : ((o.refresh f w).obj.CacheHashes.getD []).lookup ht = some d) :
    o.Hash f ht w =
      ⟨(d, none),
        { (o.refresh f w).obj with
          CacheHashes := some ((o.refresh f w).obj.CacheHashes.getD []) },
        (o.refresh f w).world⟩ := by
  unfold Object.Hash
  simp only [h]

theorem Hash_miss (f : Fs) (o : Object) (ht : Nat) (w : World) (r : Out (Option Error))
    (h : ((o.refresh f w).obj.CacheHashes.getD []).lookup ht = none)
    (hr : r = Object.refreshFromSource f
        { (o.refresh f w).obj with
          CacheHashes := some ((o.refresh f w).obj.CacheHashes.getD []) }
        false (o.refresh f w).world) :
    (∀ e, r.val = some e → o.Hash f ht w = ⟨("", some e), r.obj, r.world⟩) ∧
    (∀ live, r.val = none → r.obj.fsObject = some live →
      (∀ e, (live.Hash ht).2 = some e →
        o.Hash f ht w = ⟨("", some e), r.obj, r.world.log (Event.objectHash ht)⟩) ∧
      ((live.Hash ht).2 = none →
        o.Hash f ht w =
          ⟨((live.Hash ht).1, none),
            { r.obj with
              CacheHashes := some (setHash (r.obj.CacheHashes.getD []) ht (live.Hash ht).1) },
            (AddObject (r.world.log (Event.objectHash ht)) r.obj.abs
              { r.obj with
                CacheHashes :=
                  some (setHash (r.obj.CacheHashes.getD []) ht (live.Hash ht).1) }).2⟩)) := by
  subst hr
  refine ⟨?_, ?_⟩
  · intro e he
    unfold Object.Hash
    simp only [h, he]
  · intro live hv hl
    refine ⟨?_, ?_⟩
    · intro e he
      unfold Object.Hash
      simp only [h, hv, hl, he]
    · intro he
      unfold Object.Hash
      simp only [h, hv, hl, he, Object.persist]
      rfl

theorem refresh_hashCalls (f : Fs) (o : Object) (w : World) :
    hashCalls (o.refresh f w).world.trace = hashCalls w.trace := by
  by_cases h : w.now > o.CacheTs + f.fileAge ∨ o.Remote f ∈ w.notified
  · rw [refresh_miss f o w h, (refreshFromSource_frame_more f o true _).2.2.2.2.2.1]
    simp [isNotifiedRemote, hashCalls_cons]
  · rw [refresh_hit f o w (fun a => h (Or.inl a)) (fun a => h (Or.inr a))]
    simp [isNotifiedRemote, hashCalls_cons]

theorem getD_lookup_some (o : Object) (ht : Nat) (d : String)
    (h : (o.CacheHashes.getD []).lookup ht = some d) :
    { o with CacheHashes := some (o.CacheHashes.getD []) } = o := by
  cases o with
  | mk a b c d1 e g i j k hashes =>
    cases hashes with
    | none => simp [List.lookup] at h
    | some m => rfl

/-- C16, as the claim states it, fails: the example record read back from the
store holds no handle and the digest `old` for hash type 2.  `Hash` for type 1,
within the TTL, is a miss; obtaining the handle refreshes the record from the
source, which empties the cached digests: the call returns `def` and stores it,
but the entry for type 2 is gone. -/
theorem hash_miss_other_entries_counterexample :
    (exampleStored.CacheHashes.getD []).lookup 2 = some "old" ∧
    (exampleStored.Hash exampleFs 1 (exampleWorldHashed 5)).val = ("def", none) ∧
    ((exampleStored.Hash exampleFs 1 (exampleWorldHashed 5)).obj.CacheHashes.getD []).lookup 1
      = some "def" ∧
    ((exampleStored.Hash exampleFs 1 (exampleWorldHashed 5)).obj.CacheHashes.getD []).lookup 2
      = none :=
  ⟨by decide, by decide, by decide, by decide⟩

/-- C16, amended: on a miss (no digest for `kind` after the refresh `Hash`
starts with), with `r` the outcome of the `refreshFromSource(false)` that
follows: if `r` is an error, `Hash` returns the empty string and that error and
the record gains no entry for `kind`; if the handle's `Hash` fails, `Hash`
returns the empty string and that error, the record gains no entry and nothing
is persisted; if it returns a digest, `Hash` returns it with nil, the record
maps `kind` to it, the record is persisted, and the entries for other
algorithms are those of the record as `r` left it.  These are the entries held
before the call when no refresh from the source took place during the call
(record within its TTL, path not notified, handle held); a refresh from the
source empties them. -/
theorem hash_miss_fetches_and_stores (f : Fs) (o : Object) (ht : Nat) (w : World)
    (r : Out (Option Error))
    (hmiss : ((o.refresh f w).obj.CacheHashes.getD []).lookup ht = none)
    (hr : r = Object.refreshFromSource f
        { (o.refresh f w).obj with
          CacheHashes := some ((o.refresh f w).obj.CacheHashes.getD []) }
        false (o.refresh f w).world) :
    (∀ e, r.val = some e →
      (o.Hash f ht w).val = ("", some e) ∧
      ((o.Hash f ht w).obj.CacheHashes.getD []).lookup ht = none) ∧
    (∀ live, r.val = none → r.obj.fsObject = some live →
      (∀ e, (live.Hash ht).2 = some e →
        (o.Hash f ht w).val = ("", some e) ∧
        ((o.Hash f ht w).obj.CacheHashes.getD []).lookup ht = none ∧
        persists (o.Hash f ht w).world.trace = persists r.world.trace) ∧
      ((live.Hash ht).2 = none →
        (o.Hash f ht w).val = ((live.Hash ht).1, none) ∧
        ((o.Hash f ht w).obj.CacheHashes.getD []).lookup ht = some (live.Hash ht).1 ∧
        (∀ k, k ≠ ht →
          ((o.Hash f ht w).obj.CacheHashes.getD []).lookup k =
            (r.obj.CacheHashes.getD []).lookup k) ∧
        (o.Hash f ht w).world.trace =
          Event.addObject (o.Hash f ht w).obj :: Event.objectHash ht :: r.world.trace)) ∧
    (r.obj.CacheHashes = some ((o.refresh f w).obj.CacheHashes.getD []) ∨
      r.obj.CacheHashes = some []) ∧
    (¬ (w.now > o.CacheTs + f.fileAge) → o.Remote f ∉ w.notified →
      o.fsObject.isSome = true → r.obj.CacheHashes = some (o.CacheHashes.getD [])) := by
  obtain ⟨m1, m2⟩ := Hash_miss f o ht w r hmiss hr
  have hh := refreshFromSource_hashes f
    { (o.refresh f w).obj with
      CacheHashes := some ((o.refresh f w).obj.CacheHashes.getD []) }
    false (o.refresh f w).world
  rw [← hr] at hh
  have hnone : (r.obj.CacheHashes.getD []).lookup ht = none := by
    rcases hh with hh | hh
    · rw [hh]; exact hmiss
    · rw [hh]; rfl
  refine ⟨?_, ?_, hh, ?_⟩
  · intro e he
    rw [m1 e he]
    exact ⟨rfl, hnone⟩
  · intro live hv hl
    obtain ⟨a1, a2⟩ := m2 live hv hl
    refine ⟨?_, ?_⟩
    · intro e he
      rw [a1 e he]
      exact ⟨rfl, hnone, by simp [World.log, persists_cons]⟩
    · intro he
      rw [a2 he]
      obtain ⟨s1, s2⟩ := lookup_setHash (r.obj.CacheHashes.getD []) ht (live.Hash ht).1
      refine ⟨rfl, s1, s2, ?_⟩
      rw [AddObject_trace]
      rfl
  · intro h1 h2 h3
    have hit := refresh_hit f o w h1 h2
    rw [hit] at hr
    have hs : Object.refreshFromSource f
        { o with CacheHashes := some (o.CacheHashes.getD []) } false
        (isNotifiedRemote f w (o.Remote f)).2 =
        ⟨none, { o with CacheHashes := some (o.CacheHashes.getD []) },
          (isNotifiedRemote f w (o.Remote f)).2⟩ :=
      refreshFromSource_skip f _ _ h3
    rw [hr, hs]

/-- Witness for the amended C16: the example record holding a handle and the
digest `old` for hash type 2, asked for hash type 1 within its TTL; the call
is a miss, the handle answers `def`, and the entry for type 2 is kept. -/
theorem hash_miss_fetches_and_stores_witness :
    (exampleHeldHashed.Hash exampleFs 1 (exampleWorldHashed 5)).val = ("def", none) ∧
    ((exampleHeldHashed.Hash exampleFs 1
      (exampleWorldHashed 5)).obj.CacheHashes.getD []).lookup 1 = some "def" ∧
    ((exampleHeldHashed.Hash exampleFs 1
      (exampleWorldHashed 5)).obj.CacheHashes.getD []).lookup 2 = some "old" :=
  ⟨(((hash_miss_fetches_and_stores exampleFs exampleHeldHashed 1 (exampleWorldHashed 5) _
      (by decide) rfl).2.1 exampleLiveHashed (by decide) (by decide)).2 (by decide)).1.trans
      (by decide),
    ((((hash_miss_fetches_and_stores exampleFs exampleHeldHashed 1 (exampleWorldHashed 5) _
      (by decide) rfl).2.1 exampleLiveHashed (by decide) (by decide)).2 (by decide)).2.1).trans
      (by decide),
    ((((hash_miss_fetches_and_stores exampleFs exampleHeldHashed 1 (exampleWorldHashed 5) _
      (by decide) rfl).2.1 exampleLiveHashed (by decide) (by decide)).2 (by decide)).2.2.1 2
      (by decide)).trans (by decide)⟩

/-! ## Errors of the origin, SetModTime -/

theorem Update_val_not_started (f : Fs) (o : Object) (src : ObjectInfo) (w : World)
    (o1 : Object) (w1 : World) (live : LiveObject)
    (hr : o.refreshFromSource f false w = ⟨none, o1, w1⟩)
    (hl : o1.fsObject = some live)
    (hs : f.tempWritePath = "" ∨ w1.pending.lookup o1.abs ≠ some true) :
    (o.Update f src w).val = live.updateErr := by
  unfold Object.Update
  rw [hr]
  simp only []
  by_cases hwb : f.tempWritePath = ""
  · simp only [ne_eq, hwb, not_true_eq_false, if_false]
    unfold Object.updateWrite
    simp only [hl]
    cases live.updateErr <;> rfl
  · have hs2 : w1.pending.lookup o1.abs ≠ some true := by
      rcases hs with hs | hs
      · exact absurd hs hwb
      · exact hs
    simp only [ne_eq, hwb, not_false_eq_true, if_true]
    cases hp : (pause w1).pending.lookup o1.abs with
    | none =>
      rw [isTempFile_no_entry _ _ hp]
      simp only [Bool.false_eq_true, if_false, Bool.false_and]
      unfold Object.updateWrite
      simp only [hl]
      cases live.updateErr <;> rfl
    | some b =>
      rw [isTempFile_entry _ _ b hp]
      have h2 := tempFileStartedUpload_entry { o1 with CacheType := objectPendingUpload }
        ((pause w1).log (Event.searchPendingUpload o1.abs)) b hp
      simp only [if_true, h2, Bool.true_and]
      cases b with
      | true => exact absurd hp hs2
      | false =>
        simp only [Bool.false_eq_true, if_false]
        unfold Object.updateWrite
        simp only [hl]
        cases live.updateErr <;> rfl

theorem Remove_val_not_started (f : Fs) (o : Object) (w : World)
    (o1 : Object) (w1 : World) (live : LiveObject)
    (hr : o.refreshFromSource f false w = ⟨none, o1, w1⟩)
    (hl : o1.fsObject = some live)
    (hs : f.tempWritePath = "" ∨ w1.pending.lookup o1.abs ≠ some true) :
    (o.Remove f w).val = live.removeErr := by
  unfold Object.Remove
  rw [hr]
  simp only []
  by_cases hwb : f.tempWritePath = ""
  · simp only [ne_eq, hwb, not_true_eq_false, if_false]
    unfold Object.removeWrite
    simp only [hl]
    cases live.removeErr <;> rfl
  · have hs2 : w1.pending.lookup o1.abs ≠ some true := by
      rcases hs with hs | hs
      · exact absurd hs hwb
      · exact hs
    simp only [ne_eq, hwb, not_false_eq_true, if_true]
    cases hp : (pause w1).pending.lookup o1.abs with
    | none =>
      rw [isTempFile_no_entry _ _ hp]
      simp only [Bool.false_eq_true, if_false, Bool.false_and]
      unfold Object.removeWrite
      simp only [hl]
      cases live.removeErr <;> rfl
    | some b =>
      rw [isTempFile_entry _ _ b hp]
      have h2 := tempFileStartedUpload_entry { o1 with CacheType := objectPendingUpload }
        ((pause w1).log (Event.searchPendingUpload o1.abs)) b hp
      simp only [if_true, h2, Bool.true_and]
      cases b with
      | true => exact absurd hp hs2
      | false =>
        simp only [Bool.false_eq_true, if_false]
        unfold Object.removeWrite
        simp only [hl]
        cases live.removeErr <;> rfl

theorem SetModTime_after_refresh (f : Fs) (o : Object) (t : Int) (w : World)
    (o1 : Object) (w1 : World) (live : LiveObject)
    (hr : o.refreshFromSource f false w = ⟨none, o1, w1⟩)
    (hl : o1.fsObject = some live) :
    (∀ e, live.setModTimeErr = some e →
      o.SetModTime f t w = ⟨some e, o1, w1.log (Event.objectSetModTime t)⟩) ∧
    (live.setModTimeErr = none →
      o.SetModTime f t w =
        ⟨none, { o1 with CacheModTime := UnixNano t },
          (AddObject (w1.log (Event.objectSetModTime t)) o1.abs
            { o1 with CacheModTime := UnixNano t }).2⟩) := by
  constructor
  · intro e he
    unfold Object.SetModTime
    rw [hr]
    simp only [hl, he]
  · intro he
    unfold Object.SetModTime
    rw [hr]
    simp only [hl, he, Object.persist]
    rfl

theorem SetModTime_after_failed_refresh (f : Fs) (o : Object) (t : Int) (w : World)
    (e : Error) (h : (o.refreshFromSource f false w).val = some e) :
    o.SetModTime f t w =
      ⟨some e, (o.refreshFromSource f false w).obj, (o.refreshFromSource f false w).world⟩ := by
  unfold Object.SetModTime
  simp only [h]

/-- C17, as the claim states it, fails for the lookup: on the example record
without a handle, with the wrapped remote answering every lookup with error
503, `Update`, `Remove` and `SetModTime` return that error wrapped by
`errors.Wrapf`, not the error itself. -/
theorem origin_lookup_error_counterexample :
    (exampleOffline 5).wrapped "a/b.txt" = Except.error (Error.backend 503) ∧
    (exampleObject.Update exampleFs exampleSrc (exampleOffline 5)).val =
      some (Error.wrapf (Error.backend 503) "in cache fs remote:") ∧
    (exampleObject.Remove exampleFs (exampleOffline 5)).val =
      some (Error.wrapf (Error.backend 503) "in cache fs remote:") ∧
    (exampleObject.SetModTime exampleFs 77 (exampleOffline 5)).val =
      some (Error.wrapf (Error.backend 503) "in cache fs remote:") ∧
    (exampleObject.Update exampleFs exampleSrc (exampleOffline 5)).val ≠
      some (Error.backend 503) :=
  ⟨rfl, by decide, by decide, by decide, by decide⟩

/-- C17, amended: for `Update`, `Remove` and `SetModTime`, an error raised by the
handle's own `Update`, `Remove` or `SetModTime` is returned to the caller
unchanged (the handle's `Update` and `Remove` are reached unless a temporary
upload path is set and the upload of the path has started).  An error of the
lookup made first to obtain a handle is returned wrapped by `errors.Wrapf`,
with the backend named in the message and the lookup error as cause. -/
theorem origin_errors_reach_caller (f : Fs) (o : Object) (src : ObjectInfo) (t : Int)
    (w : World) :
    (∀ cause, o.fsObject = none →
      w.resolve (if (w.pending.lookup o.abs).isSome then o.ParentFs else FsRef.wrapped)
        (o.Remote f) = Except.error cause →
      (o.Update f src w).val =
        some (Error.wrapf cause
          (if (w.pending.lookup o.abs).isSome then "in parent fs " ++ o.ParentFs.name f
           else "in cache fs " ++ f.wrappedName)) ∧
      (o.Remove f w).val =
        some (Error.wrapf cause
          (if (w.pending.lookup o.abs).isSome then "in parent fs " ++ o.ParentFs.name f
           else "in cache fs " ++ f.wrappedName)) ∧
      (o.SetModTime f t w).val =
        some (Error.wrapf cause
          (if (w.pending.lookup o.abs).isSome then "in parent fs " ++ o.ParentFs.name f
           else "in cache fs " ++ f.wrappedName))) ∧
    (∀ live e, (o.refreshFromSource f false w).val = none →
      (o.refreshFromSource f false w).obj.fsObject = some live →
      (live.setModTimeErr = some e → (o.SetModTime f t w).val = some e) ∧
      (f.tempWritePath = "" ∨ w.pending.lookup o.abs ≠ some true →
        (live.updateErr = some e → (o.Update f src w).val = some e) ∧
        (live.removeErr = some e → (o.Remove f w).val = some e))) := by
  constructor
  · intro cause hn hres
    have hv := refreshFromSource_error f o false w cause (Or.inr hn) hres
    have hval : (o.refreshFromSource f false w).val = some (Error.wrapf cause
        (if (w.pending.lookup o.abs).isSome then "in parent fs " ++ o.ParentFs.name f
         else "in cache fs " ++ f.wrappedName)) := by rw [hv]
    rw [Update_after_failed_refresh f o src w _ hval, Remove_after_failed_refresh f o w _ hval,
      SetModTime_after_failed_refresh f o t w _ hval]
    exact ⟨rfl, rfl, rfl⟩
  · intro live e hv hl
    have hr := Out_eta_none _ hv
    obtain ⟨fp, -, -, -⟩ := refreshFromSource_frame f o false w
    obtain ⟨rn, rd, -⟩ := refreshFromSource_remote f o false w
    have habs : (o.refreshFromSource f false w).obj.abs = o.abs := by
      unfold Object.abs
      rw [rn, rd]
    refine ⟨?_, ?_⟩
    · intro he
      rw [((SetModTime_after_refresh f o t w _ _ live hr hl).1 e he)]
    · intro hs
      have hs2 : f.tempWritePath = "" ∨
          (o.refreshFromSource f false w).world.pending.lookup
            (o.refreshFromSource f false w).obj.abs ≠ some true := by
        rw [fp, habs]; exact hs
      refine ⟨?_, ?_⟩
      · intro he
        rw [Update_val_not_started f o src w _ _ live hr hl hs2, he]
      · intro he
        rw [Remove_val_not_started f o w _ _ live hr hl hs2, he]

/-! ## SetModTime -/

/-- C18, as the claim states it, fails when no handle is held, because
`SetModTime` first refreshes from the source.  On the example record (size 3,
timestamp 0, modification time 5) at time 5: with a working remote the call
returns nil and `CacheSize` and `CacheTs` have changed to 10 and 5; with a
remote that refuses to set the time the call returns the error, yet
`CacheModTime` has changed to the fetched 1234 and the record was persisted. -/
theorem setModTime_without_handle_counterexample :
    (exampleObject.SetModTime exampleFs 77 (exampleWorld 5)).val = none ∧
    exampleObject.CacheSize = 3 ∧
    (exampleObject.SetModTime exampleFs 77 (exampleWorld 5)).obj.CacheSize = 10 ∧
    exampleObject.CacheTs = 0 ∧
    (exampleObject.SetModTime exampleFs 77 (exampleWorld 5)).obj.CacheTs = 5 ∧
    (exampleObject.SetModTime exampleFs 77 (exampleWorldReadOnly 5)).val =
      some (Error.backend 403) ∧
    exampleObject.CacheModTime = 5 ∧
    (exampleObject.SetModTime exampleFs 77 (exampleWorldReadOnly 5)).obj.CacheModTime = 1234 ∧
    persists (exampleObject.SetModTime exampleFs 77 (exampleWorldReadOnly 5)).world.trace = 1 :=
  ⟨by decide, by decide, by decide, by decide, by decide, by decide, by decide, by decide,
    by decide⟩

/-- C18, amended: let `r` be the outcome of the `refreshFromSource(false)` that
`SetModTime(t)` starts with, returning nil with handle `live`.  If the handle's
`SetModTime` succeeds, `SetModTime` returns nil, `CacheModTime` is
`t.UnixNano()`, the record is persisted last (and found in the store when that
write succeeds), and `CacheSize`, `CacheStorable`, `CacheHashes`, `CacheTs` and
`CacheType` are those of `r`.  If it fails, the error is returned, the object is
as `r` left it and nothing more is persisted.  When the object already holds a
handle, `r` is the object and state before the call, so the fields named are
unchanged; without a handle the refresh has overwritten them first. -/
theorem setModTime_sets_only_modTime (f : Fs) (o : Object) (t : Int) (w : World)
    (r : Out (Option Error)) (live : LiveObject)
    (hr : r = o.refreshFromSource f false w) (hv : r.val = none)
    (hl : r.obj.fsObject = some live) :
    (live.setModTimeErr = none →
      (o.SetModTime f t w).val = none ∧
      (o.SetModTime f t w).obj.CacheModTime = UnixNano t ∧
      (o.SetModTime f t w).obj.CacheSize = r.obj.CacheSize ∧
      (o.SetModTime f t w).obj.CacheStorable = r.obj.CacheStorable ∧
      (o.SetModTime f t w).obj.CacheHashes = r.obj.CacheHashes ∧
      (o.SetModTime f t w).obj.CacheTs = r.obj.CacheTs ∧
      (o.SetModTime f t w).obj.CacheType = r.obj.CacheType ∧
      (o.SetModTime f t w).world.trace =
        Event.addObject (o.SetModTime f t w).obj :: Event.objectSetModTime t ::
          r.world.trace ∧
      (w.addObjectErr = none →
        (o.SetModTime f t w).world.objects.lookup o.abs = some (o.SetModTime f t w).obj)) ∧
    (∀ e, live.setModTimeErr = some e →
      (o.SetModTime f t w).val = some e ∧
      (o.SetModTime f t w).obj = r.obj ∧
      (o.SetModTime f t w).world.objects = r.world.objects ∧
      persists (o.SetModTime f t w).world.trace = persists r.world.trace) ∧
    (o.fsObject.isSome = true → r = ⟨none, o, w⟩) := by
  subst hr
  have hr := Out_eta_none _ hv
  obtain ⟨s1, s2⟩ := SetModTime_after_refresh f o t w _ _ live hr hl
  obtain ⟨e0, -, -, -, -, -⟩ := refreshFromSource_errs f o false w
  obtain ⟨rn, rd, -⟩ := refreshFromSource_remote f o false w
  have habs : (o.refreshFromSource f false w).obj.abs = o.abs := by
    unfold Object.abs
    rw [rn, rd]
  refine ⟨?_, ?_, ?_⟩
  · intro he
    rw [s2 he]
    refine ⟨rfl, rfl, rfl, rfl, rfl, rfl, rfl, ?_, ?_⟩
    · rw [AddObject_trace]; rfl
    · intro ha
      rw [← habs]
      exact (AddObject_objects _ _ _).1 (by simpa [World.log, e0] using ha)
  · intro e he
    rw [s1 e he]
    exact ⟨rfl, rfl, rfl, by simp [World.log, persists_cons]⟩
  · intro hh
    exact refreshFromSource_skip f o w hh

/-- Witness for the amended C18: the example record holding a handle, its
modification time set to 77 at time 5. -/
theorem setModTime_sets_only_modTime_witness :
    (exampleHeld.SetModTime exampleFs 77 (exampleWorld 5)).val = none ∧
    (exampleHeld.SetModTime exampleFs 77 (exampleWorld 5)).obj.CacheModTime = 77 ∧
    (exampleHeld.SetModTime exampleFs 77 (exampleWorld 5)).obj.CacheSize = 3 :=
  ⟨((setModTime_sets_only_modTime exampleFs exampleHeld 77 (exampleWorld 5) _ exampleLive
      rfl (by decide) (by decide)).1 (by decide)).1,
    ((setModTime_sets_only_modTime exampleFs exampleHeld 77 (exampleWorld 5) _ exampleLive
      rfl (by decide) (by decide)).1 (by decide)).2.1.trans (by decide),
    ((setModTime_sets_only_modTime exampleFs exampleHeld 77 (exampleWorld 5) _ exampleLive
      rfl (by decide) (by decide)).1 (by decide)).2.2.1.trans (by decide)⟩

/-! ## Construction -/

theorem NewObject_classification (f : Fs) (remote : String) (ts : Int) (w : World) :
    ((NewObject f remote ts w).1.CacheType, (NewObject f remote ts w).1.ParentFs) =
      (if f.tempWritePath ≠ "" ∧ (w.pending.lookup (path.Join f.root remote)).isSome = true
       then (objectPendingUpload, FsRef.temp) else (objectInCache, FsRef.wrapped)) := by
  unfold NewObject
  by_cases hwb : f.tempWritePath = ""
  · simp [hwb]
  · simp only [ne_eq, hwb, not_false_eq_true, if_true, true_and]
    unfold SearchPendingUpload
    cases w.pending.lookup (path.Join f.root remote) <;> simp

theorem ObjectFromOriginal_classification (f : Fs) (remote : String) (live : LiveObject)
    (w : World) :
    ((ObjectFromOriginal f remote live w).1.CacheType,
      (ObjectFromOriginal f remote live w).1.ParentFs) =
      (if f.tempWritePath ≠ "" ∧
          (w.pending.lookup (f.cleanPath (path.Join f.root remote))).isSome = true
       then (objectPendingUpload, FsRef.temp) else (objectInCache, FsRef.wrapped)) := by
  unfold ObjectFromOriginal
  by_cases hwb : f.tempWritePath = ""
  · simp [hwb, Object.updateData]
  · simp only [ne_eq, hwb, not_false_eq_true, if_true, true_and]
    unfold SearchPendingUpload
    cases w.pending.lookup (f.cleanPath (path.Join f.root remote)) <;>
      simp [Object.updateData]

/-- C19, as the claim states it, fails in two ways.  Without a temporary upload
path the constructors do not search the ledger: the path `a/b.txt` is queued,
and is the absolute path of the objects built, yet both constructors give the
cache type `Object` with the wrapped remote as parent.  With a temporary upload
path, the path searched is `path.Join(root, remote)` and not `abs()`: for the
remote `/x` the ledger is searched for `/x`, which is queued, and the object is
classified `TempObject`, while its `abs()` is `x`, which has no entry. -/
theorem constructor_classification_counterexample :
    (exampleQueued 0).pending.lookup
      (NewObject exampleFsDirect "a/b.txt" 0 (exampleQueued 0)).1.abs = some false ∧
    (NewObject exampleFsDirect "a/b.txt" 0 (exampleQueued 0)).1.CacheType = "Object" ∧
    (NewObject exampleFsDirect "a/b.txt" 0 (exampleQueued 0)).1.ParentFs = FsRef.wrapped ∧
    (exampleQueued 0).pending.lookup
      (ObjectFromOriginal exampleFsDirect "a/b.txt" exampleStaged (exampleQueued 0)).1.abs =
      some false ∧
    (ObjectFromOriginal exampleFsDirect "a/b.txt" exampleStaged (exampleQueued 0)).1.CacheType =
      "Object" ∧
    (NewObject exampleFs "/x" 0 { exampleWorld 0 with pending := [("/x", false)] }).1.CacheType =
      "TempObject" ∧
    (NewObject exampleFs "/x" 0 { exampleWorld 0 with pending := [("/x", false)] }).1.abs =
      "x" ∧
    ({ exampleWorld 0 with pending := [("/x", false)] } : World).pending.lookup
      (NewObject exampleFs "/x" 0 { exampleWorld 0 with pending := [("/x", false)] }).1.abs =
      none :=
  ⟨by decide, by decide, by decide, by decide, by decide, by decide, by decide, by decide⟩

/-- C19, amended: the object returned by `NewObject` has cache type `TempObject`
if and only if a temporary upload path is set and the ledger has an entry for
the path the constructor searches, `path.Join(root, remote)`; the same holds
for `ObjectFromOriginal` with the searched path passed through `cleanPath`.  In
that case `ParentFs` is the temporary upload area, otherwise the cache type is
`Object` and `ParentFs` the wrapped remote.  With a temporary upload path the
ledger is searched once, for that path; without one it is not searched.  The
object's `abs()` is `path.Join` of the two halves of the searched path, each
passed through `cleanPath`, which need not be the searched path. -/
theorem constructors_classify_from_ledger (f : Fs) (remote : String) (ts : Int)
    (live : LiveObject) (w : World) :
    ((NewObject f remote ts w).1.CacheType = objectPendingUpload ↔
      (f.tempWritePath ≠ "" ∧
        (w.pending.lookup (path.Join f.root remote)).isSome = true)) ∧
    ((NewObject f remote ts w).1.CacheType = objectPendingUpload →
      (NewObject f remote ts w).1.ParentFs = FsRef.temp) ∧
    ((NewObject f remote ts w).1.CacheType ≠ objectPendingUpload →
      (NewObject f remote ts w).1.CacheType = objectInCache ∧
      (NewObject f remote ts w).1.ParentFs = FsRef.wrapped) ∧
    ((ObjectFromOriginal f remote live w).1.CacheType = objectPendingUpload ↔
      (f.tempWritePath ≠ "" ∧
        (w.pending.lookup (f.cleanPath (path.Join f.root remote))).isSome = true)) ∧
    ((ObjectFromOriginal f remote live w).1.CacheType = objectPendingUpload →
      (ObjectFromOriginal f remote live w).1.ParentFs = FsRef.temp) ∧
    ((ObjectFromOriginal f remote live w).1.CacheType ≠ objectPendingUpload →
      (ObjectFromOriginal f remote live w).1.CacheType = objectInCache ∧
      (ObjectFromOriginal f remote live w).1.ParentFs = FsRef.wrapped) ∧
    (f.tempWritePath ≠ "" →
      (NewObject f remote ts w).2.trace =
        Event.searchPendingUpload (path.Join f.root remote) :: w.trace ∧
      (ObjectFromOriginal f remote live w).2.trace =
        Event.searchPendingUpload (f.cleanPath (path.Join f.root remote)) :: w.trace) ∧
    (f.tempWritePath = "" →
      (NewObject f remote ts w).2.trace = w.trace ∧
      (ObjectFromOriginal f remote live w).2.trace = w.trace) ∧
    (NewObject f remote ts w).1.abs =
      path.Join (f.cleanPath (path.Split (path.Join f.root remote)).1)
        (f.cleanPath (path.Split (path.Join f.root remote)).2) ∧
    (ObjectFromOriginal f remote live w).1.abs =
      path.Join (f.cleanPath (path.Split (f.cleanPath (path.Join f.root remote))).1)
        (f.cleanPath (path.Split (f.cleanPath (path.Join f.root remote))).2) := by
  have hne : objectInCache ≠ objectPendingUpload := by decide
  have h1 := NewObject_classification f remote ts w
  have h2 := ObjectFromOriginal_classification f remote live w
  have k1 : (NewObject f remote ts w).1.CacheType = objectPendingUpload ↔
      (f.tempWritePath ≠ "" ∧
        (w.pending.lookup (path.Join f.root remote)).isSome = true) := by
    by_cases hc : f.tempWritePath ≠ "" ∧
        (w.pending.lookup (path.Join f.root remote)).isSome = true
    · rw [if_pos hc] at h1
      exact ⟨fun _ => hc, fun _ => (Prod.mk.inj h1).1⟩
    · rw [if_neg hc] at h1
      exact ⟨fun a => absurd ((Prod.mk.inj h1).1.symm.trans a) hne, fun a => absurd a hc⟩
  have k2 : (ObjectFromOriginal f remote live w).1.CacheType = objectPendingUpload ↔
      (f.tempWritePath ≠ "" ∧
        (w.pending.lookup (f.cleanPath (path.Join f.root remote))).isSome = true) := by
    by_cases hc : f.tempWritePath ≠ "" ∧
        (w.pending.lookup (f.cleanPath (path.Join f.root remote))).isSome = true
    · rw [if_pos hc] at h2
      exact ⟨fun _ => hc, fun _ => (Prod.mk.inj h2).1⟩
    · rw [if_neg hc] at h2
      exact ⟨fun a => absurd ((Prod.mk.inj h2).1.symm.trans a) hne, fun a => absurd a hc⟩
  refine ⟨k1, ?_, ?_, k2, ?_, ?_, ?_, ?_, ?_, ?_⟩
  · intro a
    rw [if_pos (k1.1 a)] at h1
    exact (Prod.mk.inj h1).2
  · intro a
    rw [if_neg (fun c => a (k1.2 c))] at h1
    exact ⟨(Prod.mk.inj h1).1, (Prod.mk.inj h1).2⟩
  · intro a
    rw [if_pos (k2.1 a)] at h2
    exact (Prod.mk.inj h2).2
  · intro a
    rw [if_neg (fun c => a (k2.2 c))] at h2
    exact ⟨(Prod.mk.inj h2).1, (Prod.mk.inj h2).2⟩
  · intro hwb
    constructor
    · unfold NewObject
      simp only [ne_eq, hwb, not_false_eq_true, if_true]
      unfold SearchPendingUpload
      cases w.pending.lookup (path.Join f.root remote) <;> rfl
    · unfold ObjectFromOriginal
      simp only [ne_eq, hwb, not_false_eq_true, if_true]
      unfold SearchPendingUpload
      cases w.pending.lookup (f.cleanPath (path.Join f.root remote)) <;> rfl
  · intro hwb
    constructor
    · unfold NewObject
      simp [hwb]
    · unfold ObjectFromOriginal
      simp [hwb]
  · rfl
  · rfl

/-- Witness for the amended C19 on the example cache: `a/b.txt` is queued and
the object built for it is classified `TempObject`, after one ledger search. -/
theorem constructors_classify_from_ledger_witness :
    (NewObject exampleFs "a/b.txt" 0 (exampleQueued 0)).1.CacheType = "TempObject" ∧
    (NewObject exampleFs "a/b.txt" 0 (exampleQueued 0)).1.ParentFs = FsRef.temp ∧
    (NewObject exampleFs "a/b.txt" 0 (exampleQueued 0)).2.trace =
      [Event.searchPendingUpload "a/b.txt"] :=
  ⟨(constructors_classify_from_ledger exampleFs "a/b.txt" 0 exampleStaged
      (exampleQueued 0)).1.2 ⟨by decide, by decide⟩,
    (constructors_classify_from_ledger exampleFs "a/b.txt" 0 exampleStaged
      (exampleQueued 0)).2.1 (by decide),
    ((constructors_classify_from_ledger exampleFs "a/b.txt" 0 exampleStaged
      (exampleQueued 0)).2.2.2.2.2.2.1 (by decide)).1.trans (by decide)⟩

/-! ## Failing store writes -/

theorem agree_log (a b : World) (e : Event) (h : a.agree b) : (a.log e).agree (b.log e) := by
  obtain ⟨h1, h2, h3, h4, h5, h6, h7, h8, h9, h10, h11, h12⟩ := h
  exact ⟨h1, h2, h3, h4, h5, h6, h7, h8, h9, h10, h11, by simp [World.log, h12]⟩

theorem agree_AddObject (a b : World) (key : String) (o : Object) (h : a.agree b) :
    (AddObject a key o).2.agree (AddObject b key o).2 := by
  obtain ⟨h1, h2, h3, h4, h5, h6, h7, h8, h9, h10, h11, h12⟩ := h
  cases ha : a.addObjectErr <;> cases hb : b.addObjectErr <;>
    simp [AddObject, ha, hb, World.log, World.agree, h1, h2, h3, h4, h5, h6, h7, h8, h9,
      h10, h11, h12]

theorem agree_RemoveObject (a b : World) (key : String) (h : a.agree b) :
    (RemoveObject a key).2.agree (RemoveObject b key).2 := by
  obtain ⟨h1, h2, h3, h4, h5, h6, h7, h8, h9, h10, h11, h12⟩ := h
  cases hb : b.removeObjectErr <;>
    simp [RemoveObject, hb, World.log, World.agree, h1, h2, h3, h4, h5, h6, h7, h8, h9,
      h10, h11, h12]

theorem agree_pause (a b : World) (h : a.agree b) : (pause a).agree (pause b) := by
  obtain ⟨h1, h2, h3, h4, h5, h6, h7, h8, h9, h10, h11, h12⟩ := h
  exact ⟨h1, h2, h3, h4, h5, by simp [pause, h6], h7, h8, h9, h10, h11, by simp [pause, h12]⟩

theorem agree_play (a b : World) (h : a.agree b) : (play a).agree (play b) := by
  obtain ⟨h1, h2, h3, h4, h5, h6, h7, h8, h9, h10, h11, h12⟩ := h
  exact ⟨h1, h2, h3, h4, h5, by simp [play, h6], h7, h8, h9, h10, h11, by simp [play, h12]⟩

theorem agree_isNotifiedRemote (f : Fs) (a b : World) (remote : String) (h : a.agree b) :
    (isNotifiedRemote f a remote).1 = (isNotifiedRemote f b remote).1 ∧
    (isNotifiedRemote f a remote).2.agree (isNotifiedRemote f b remote).2 := by
  obtain ⟨h1, h2, h3, h4, h5, h6, h7, h8, h9, h10, h11, h12⟩ := h
  refine ⟨by simp [isNotifiedRemote, h2], ?_⟩
  exact ⟨h1, by simp [isNotifiedRemote, h2], h3, h4, h5, h6, h7, h8, h9, h10, h11,
    by simp [isNotifiedRemote, h12]⟩

theorem agree_isTempFile (o : Object) (a b : World) (h : a.agree b) :
    (o.isTempFile a).val = (o.isTempFile b).val ∧
    (o.isTempFile a).obj = (o.isTempFile b).obj ∧
    (o.isTempFile a).world.agree (o.isTempFile b).world := by
  have hp : a.pending = b.pending := h.2.2.1
  rw [isTempFile_val, isTempFile_val, isTempFile_obj, isTempFile_obj, isTempFile_world,
    isTempFile_world, hp]
  exact ⟨rfl, rfl, agree_log a b _ h⟩

theorem agree_tempFileStartedUpload (o : Object) (a b : World) (h : a.agree b) :
    (o.tempFileStartedUpload a).val = (o.tempFileStartedUpload b).val ∧
    (o.tempFileStartedUpload a).obj = (o.tempFileStartedUpload b).obj ∧
    (o.tempFileStartedUpload a).world.agree (o.tempFileStartedUpload b).world := by
  have hp : a.pending = b.pending := h.2.2.1
  unfold Object.tempFileStartedUpload SearchPendingUpload
  rw [hp]
  cases b.pending.lookup o.abs <;> exact ⟨rfl, rfl, agree_log a b _ h⟩

theorem agree_resolve (a b : World) (r : FsRef) (remote : String) (h : a.agree b) :
    a.resolve r remote = b.resolve r remote := by
  obtain ⟨-, -, -, -, -, -, h7, h8, -⟩ := h
  cases r <;> simp [World.resolve, h7, h8]

theorem agree_refreshFromSource (f : Fs) (o : Object) (force : Bool) (a b : World)
    (h : a.agree b) :
    (o.refreshFromSource f force a).val = (o.refreshFromSource f force b).val ∧
    (o.refreshFromSource f force a).obj = (o.refreshFromSource f force b).obj ∧
    (o.refreshFromSource f force a).world.agree (o.refreshFromSource f force b).world := by
  have hp : a.pending = b.pending := h.2.2.1
  have hn : a.now = b.now := h.1
  by_cases hg : force = true ∨ o.fsObject = none
  · cases hr : b.resolve
        (if (b.pending.lookup o.abs).isSome then o.ParentFs else FsRef.wrapped)
        (o.Remote f) with
    | error cause =>
      have hra : a.resolve
          (if (a.pending.lookup o.abs).isSome then o.ParentFs else FsRef.wrapped)
          (o.Remote f) = Except.error cause := by
        rw [agree_resolve a b _ _ h, hp]; exact hr
      rw [refreshFromSource_error f o force a cause hg hra,
        refreshFromSource_error f o force b cause hg hr, hp]
      exact ⟨rfl, rfl, agree_log _ _ _ (agree_log _ _ _ h)⟩
    | ok live =>
      have hra : a.resolve
          (if (a.pending.lookup o.abs).isSome then o.ParentFs else FsRef.wrapped)
          (o.Remote f) = Except.ok live := by
        rw [agree_resolve a b _ _ h, hp]; exact hr
      rw [refreshFromSource_ok f o force a live hg hra,
        refreshFromSource_ok f o force b live hg hr, hp, hn]
      exact ⟨rfl, rfl, agree_AddObject _ _ _ _ (agree_log _ _ _ (agree_log _ _ _ h))⟩
  · have h1 : force = false := by
      cases force
      · rfl
      · exact absurd (Or.inl rfl) hg
    have h2 : o.fsObject.isSome = true := by
      cases hq : o.fsObject
      · exact absurd (Or.inr hq) hg
      · rfl
    rw [h1, refreshFromSource_skip f o a h2, refreshFromSource_skip f o b h2]
    exact ⟨rfl, rfl, h⟩

theorem agree_refresh (f : Fs) (o : Object) (a b : World) (h : a.agree b) :
    (o.refresh f a).val = (o.refresh f b).val ∧
    (o.refresh f a).obj = (o.refresh f b).obj ∧
    (o.refresh f a).world.agree (o.refresh f b).world := by
  obtain ⟨n1, n2⟩ := agree_isNotifiedRemote f a b (o.Remote f) h
  have hn : a.now = b.now := h.1
  have hnt : a.notified = b.notified := h.2.1
  by_cases hc : b.now > o.CacheTs + f.fileAge ∨ o.Remote f ∈ b.notified
  · have hca : a.now > o.CacheTs + f.fileAge ∨ o.Remote f ∈ a.notified := by
      rw [hn, hnt]; exact hc
    rw [refresh_miss f o a hca, refresh_miss f o b hc]
    exact agree_refreshFromSource f o true _ _ n2
  · have c1 : ¬ (b.now > o.CacheTs + f.fileAge) := fun x => hc (Or.inl x)
    have c2 : o.Remote f ∉ b.notified := fun x => hc (Or.inr x)
    rw [refresh_hit f o a (by rw [hn]; exact c1) (by rw [hnt]; exact c2),
      refresh_hit f o b c1 c2]
    exact ⟨rfl, rfl, n2⟩

theorem agree_updateWrite (o : Object) (src : ObjectInfo) (a b : World) (h : a.agree b) :
    (o.updateWrite src a).val = (o.updateWrite src b).val ∧
    (o.updateWrite src a).obj = (o.updateWrite src b).obj := by
  have hn : a.now = b.now := h.1
  unfold Object.updateWrite
  cases o.fsObject with
  | none => exact ⟨rfl, rfl⟩
  | some live =>
    cases hr : live.updateErr with
    | some e => simp only [hr]; exact ⟨trivial, trivial⟩
    | none =>
      simp only [hr, Object.persist, (RemoveObject_frame _ _).1, World.log, hn]
      exact ⟨trivial, trivial⟩

theorem agree_SetModTime (f : Fs) (o : Object) (t : Int) (a b : World) (h : a.agree b) :
    (o.SetModTime f t a).val = (o.SetModTime f t b).val ∧
    (o.SetModTime f t a).obj = (o.SetModTime f t b).obj := by
  obtain ⟨hv, ho, -⟩ := agree_refreshFromSource f o false a b h
  unfold Object.SetModTime
  simp only [hv, ho]
  cases (o.refreshFromSource f false b).val with
  | some e => exact ⟨rfl, rfl⟩
  | none =>
    simp only []
    cases (o.refreshFromSource f false b).obj.fsObject with
    | none => exact ⟨rfl, rfl⟩
    | some live =>
      simp only []
      cases live.setModTimeErr with
      | some e => exact ⟨rfl, rfl⟩
      | none => exact ⟨rfl, rfl⟩

theorem agree_Update (f : Fs) (o : Object) (src : ObjectInfo) (a b : World) (h : a.agree b) :
    (o.Update f src a).val = (o.Update f src b).val ∧
    (o.Update f src a).obj = (o.Update f src b).obj := by
  obtain ⟨hv, ho, hw⟩ := agree_refreshFromSource f o false a b h
  unfold Object.Update
  simp only [hv, ho]
  generalize (o.refreshFromSource f false a).world = wa at hw ⊢
  generalize (o.refreshFromSource f false b).world = wb at hw ⊢
  generalize (o.refreshFromSource f false b).obj = o1
  cases (o.refreshFromSource f false b).val with
  | some e => exact ⟨rfl, rfl⟩
  | none =>
    simp only []
    by_cases hwb : f.tempWritePath = ""
    · simp only [ne_eq, hwb, not_true_eq_false, if_false]
      exact agree_updateWrite o1 src wa wb hw
    · simp only [ne_eq, hwb, not_false_eq_true, if_true]
      have hp : (pause wa).pending = (pause wb).pending := (agree_pause wa wb hw).2.2.1
      cases hl : (pause wb).pending.lookup o1.abs with
      | none =>
        rw [isTempFile_no_entry o1 (pause wa) (by rw [hp]; exact hl),
          isTempFile_no_entry o1 (pause wb) hl]
        simp only [Bool.false_eq_true, if_false, Bool.false_and]
        exact agree_updateWrite _ src _ _ (agree_log _ _ _ (agree_pause wa wb hw))
      | some s =>
        rw [isTempFile_entry o1 (pause wa) s (by rw [hp]; exact hl),
          isTempFile_entry o1 (pause wb) s hl]
        simp only [if_true, Bool.true_and]
        have hsa : ((pause wa).log (Event.searchPendingUpload o1.abs)).pending.lookup
            (Object.abs { o1 with CacheType := objectPendingUpload }) = some s := by
          show (pause wa).pending.lookup o1.abs = some s
          rw [hp]; exact hl
        have hsb : ((pause wb).log (Event.searchPendingUpload o1.abs)).pending.lookup
            (Object.abs { o1 with CacheType := objectPendingUpload }) = some s := hl
        rw [tempFileStartedUpload_entry _ _ s hsa, tempFileStartedUpload_entry _ _ s hsb]
        cases s with
        | true => exact ⟨rfl, rfl⟩
        | false =>
          simp only [Bool.false_eq_true, if_false]
          exact agree_updateWrite _ src _ _
            (agree_log _ _ _ (agree_log _ _ _ (agree_pause wa wb hw)))

theorem agree_Hash (f : Fs) (o : Object) (ht : Nat) (a b : World) (h : a.agree b) :
    (o.Hash f ht a).val = (o.Hash f ht b).val ∧
    (o.Hash f ht a).obj = (o.Hash f ht b).obj := by
  obtain ⟨-, ho, hw⟩ := agree_refresh f o a b h
  unfold Object.Hash
  simp only [ho]
  generalize (o.refresh f a).world = wa at hw ⊢
  generalize (o.refresh f b).world = wb at hw ⊢
  generalize (o.refresh f b).obj = o1
  cases (o1.CacheHashes.getD []).lookup ht with
  | some d => exact ⟨rfl, rfl⟩
  | none =>
    simp only []
    obtain ⟨rv, ro, -⟩ := agree_refreshFromSource f
      { o1 with CacheHashes := some (o1.CacheHashes.getD []) } false wa wb hw
    simp only [rv, ro]
    cases (Object.refreshFromSource f
      { o1 with CacheHashes := some (o1.CacheHashes.getD []) } false wb).val with
    | some e => exact ⟨rfl, rfl⟩
    | none =>
      simp only []
      cases (Object.refreshFromSource f
        { o1 with CacheHashes := some (o1.CacheHashes.getD []) } false wb).obj.fsObject with
      | none => exact ⟨rfl, rfl⟩
      | some live =>
        simp only []
        cases (live.Hash ht).2 with
        | some e => exact ⟨rfl, rfl⟩
        | none => exact ⟨rfl, rfl⟩

theorem agree_store (w : World) (x y : Option Error) :
    World.agree { w with addObjectErr := x } { w with addObjectErr := y } :=
  ⟨rfl, rfl, rfl, rfl, rfl, rfl, rfl, rfl, rfl, rfl, rfl, rfl⟩

/-- C20: a failing write to the persistent store is never escalated and never
rolls back the update in memory.  `refreshFromSource`, `SetModTime`, `Update`
and `Hash` return the same value and leave the same object whether `AddObject`
fails with an error or succeeds; in particular a refresh whose lookup succeeds
returns nil and keeps the freshly fetched size and time although the failed
write has stored nothing. -/
theorem persist_failure_is_not_escalated (f : Fs) (o : Object) (force : Bool)
    (src : ObjectInfo) (t : Int) (ht : Nat) (w : World) (e : Error) :
    (o.refreshFromSource f force { w with addObjectErr := some e }).val =
      (o.refreshFromSource f force { w with addObjectErr := none }).val ∧
    (o.refreshFromSource f force { w with addObjectErr := some e }).obj =
      (o.refreshFromSource f force { w with addObjectErr := none }).obj ∧
    (o.SetModTime f t { w with addObjectErr := some e }).val =
      (o.SetModTime f t { w with addObjectErr := none }).val ∧
    (o.SetModTime f t { w with addObjectErr := some e }).obj =
      (o.SetModTime f t { w with addObjectErr := none }).obj ∧
    (o.Update f src { w with addObjectErr := some e }).val =
      (o.Update f src { w with addObjectErr := none }).val ∧
    (o.Update f src { w with addObjectErr := some e }).obj =
      (o.Update f src { w with addObjectErr := none }).obj ∧
    (o.Hash f ht { w with addObjectErr := some e }).val =
      (o.Hash f ht { w with addObjectErr := none }).val ∧
    (o.Hash f ht { w with addObjectErr := some e }).obj =
      (o.Hash f ht { w with addObjectErr := none }).obj ∧
    (∀ live, force = true ∨ o.fsObject = none →
      w.resolve (if (w.pending.lookup o.abs).isSome then o.ParentFs else FsRef.wrapped)
        (o.Remote f) = Except.ok live →
      (o.refreshFromSource f force { w with addObjectErr := some e }).val = none ∧
      (o.refreshFromSource f force { w with addObjectErr := some e }).obj.CacheSize =
        live.size ∧
      (o.refreshFromSource f force { w with addObjectErr := some e }).obj.CacheModTime =
        UnixNano live.modTime ∧
      (o.refreshFromSource f force { w with addObjectErr := some e }).world.objects =
        w.objects) := by
  have h := agree_store w (some e) none
  obtain ⟨a1, a2, -⟩ := agree_refreshFromSource f o force _ _ h
  obtain ⟨b1, b2⟩ := agree_SetModTime f o t _ _ h
  obtain ⟨c1, c2⟩ := agree_Update f o src _ _ h
  obtain ⟨d1, d2⟩ := agree_Hash f o ht _ _ h
  refine ⟨a1, a2, b1, b2, c1, c2, d1, d2, ?_⟩
  intro live hf hres
  have hres2 : World.resolve { w with addObjectErr := some e }
      (if (List.lookup o.abs (World.pending { w with addObjectErr := some e })).isSome
        then o.ParentFs else FsRef.wrapped) (o.Remote f) = Except.ok live := hres
  rw [refreshFromSource_ok f o force _ live hf hres2]
  refine ⟨rfl, rfl, rfl, ?_⟩
  exact (AddObject_objects _ _ _).2 e rfl

/-- Witness for C20: the example record refreshed at time 7 while the store
refuses every write: nil is returned, the fetched size 10 is kept in memory
and the store stays empty. -/
theorem persist_failure_is_not_escalated_witness :
    (exampleObject.refreshFromSource exampleFs true
      { exampleWorld 7 with addObjectErr := some (Error.backend 5) }).val = none ∧
    (exampleObject.refreshFromSource exampleFs true
      { exampleWorld 7 with addObjectErr := some (Error.backend 5) }).obj.CacheSize = 10 ∧
    (exampleObject.refreshFromSource exampleFs true
      { exampleWorld 7 with addObjectErr := some (Error.backend 5) }).world.objects = [] :=
  ⟨((persist_failure_is_not_escalated exampleFs exampleObject true exampleSrc 0 0
      (exampleWorld 7) (Error.backend 5)).2.2.2.2.2.2.2.2 exampleLive (Or.inl rfl) rfl).1,
    ((persist_failure_is_not_escalated exampleFs exampleObject true exampleSrc 0 0
      (exampleWorld 7) (Error.backend 5)).2.2.2.2.2.2.2.2 exampleLive (Or.inl rfl) rfl).2.1,
    ((persist_failure_is_not_escalated exampleFs exampleObject true exampleSrc 0 0
      (exampleWorld 7) (Error.backend 5)).2.2.2.2.2.2.2.2 exampleLive (Or.inl rfl) rfl).2.2.2⟩

/-! ## Open -/

theorem Open_after_refresh (f : Fs) (env : OpenEnv) (o : Object)
    (opts : List OpenOption) (w : World)
    (h : (o.refreshFromSource f true w).val = none) :
    (o.Open f env opts w).world =
      (Object.openLoop f env opts
        { offset := 0, limit := -1, reader := NewObjectHandle,
          obj := (o.refreshFromSource f true w).obj,
          world := (o.refreshFromSource f true w).world }).2.world ∧
    (o.Open f env opts w).obj =
      (Object.openLoop f env opts
        { offset := 0, limit := -1, reader := NewObjectHandle,
          obj := (o.refreshFromSource f true w).obj,
          world := (o.refreshFromSource f true w).world }).2.obj ∧
    (o.Open f env opts w).val =
      (match (Object.openLoop f env opts
        { offset := 0, limit := -1, reader := NewObjectHandle,
          obj := (o.refreshFromSource f true w).obj,
          world := (o.refreshFromSource f true w).world }) with
        | (some err, _) => (none, some err)
        | (none, st) => (some { reader := st.reader, limit := st.limit }, none)) := by
  unfold Object.Open
  simp only [h]
  cases hl : (Object.openLoop f env opts
        { offset := 0, limit := -1, reader := NewObjectHandle,
          obj := (o.refreshFromSource f true w).obj,
          world := (o.refreshFromSource f true w).world }) with
  | mk e st =>
    cases e <;> exact ⟨rfl, rfl, rfl⟩

theorem specOpenStep_eq (f : Fs) (env : OpenEnv) (st : OpenState) (opt : OpenOption) :
    specOpenStep f env st opt = (Object.openOption f env st opt).sought := by
  cases opt <;> rfl

theorem openLoop_all_seeks_ok (f : Fs) (env : OpenEnv) (opts : List OpenOption) :
    ∀ st : OpenState,
      (∀ pre opt post, opts = pre ++ opt :: post →
        env.Seek (specOpenFold f env pre st).reader
          (specOpenStep f env (specOpenFold f env pre st) opt).offset = none) →
      Object.openLoop f env opts st = (none, specOpenFold f env opts st) := by
  induction opts with
  | nil => intro st _; rfl
  | cons opt rest ih =>
    intro st h
    have h0 := h [] opt rest rfl
    have hs : env.Seek (Object.openOption f env st opt).reader
        (Object.openOption f env st opt).offset = none := by
      rw [specOpenStep_eq] at h0
      cases opt <;> exact h0
    unfold Object.openLoop
    simp only [hs]
    rw [ih (Object.openOption f env st opt).sought]
    · simp [specOpenFold, specOpenStep_eq]
    · intro pre o2 post hp
      have := h (opt :: pre) o2 post (by rw [hp]; rfl)
      simpa [specOpenFold, specOpenStep_eq] using this

theorem openLoop_first_failing_seek (f : Fs) (env : OpenEnv) (e : Error)
    (pre : List OpenOption) (opt : OpenOption) (post : List OpenOption) :
    ∀ st : OpenState,
      (∀ p o2 q, pre = p ++ o2 :: q →
        env.Seek (specOpenFold f env p st).reader
          (specOpenStep f env (specOpenFold f env p st) o2).offset = none) →
      env.Seek (specOpenFold f env pre st).reader
        (specOpenStep f env (specOpenFold f env pre st) opt).offset = some e →
      (Object.openLoop f env (pre ++ opt :: post) st).1 = some e := by
  induction pre with
  | nil =>
    intro st _ hf
    have hs : env.Seek (Object.openOption f env st opt).reader
        (Object.openOption f env st opt).offset = some e := by
      rw [specOpenStep_eq] at hf
      cases opt <;> exact hf
    simp only [List.nil_append]
    unfold Object.openLoop
    simp only [hs]
  | cons o1 rest ih =>
    intro st h hf
    have h0 := h [] o1 rest rfl
    have hs : env.Seek (Object.openOption f env st o1).reader
        (Object.openOption f env st o1).offset = none := by
      rw [specOpenStep_eq] at h0
      cases o1 <;> exact h0
    simp only [List.cons_append]
    unfold Object.openLoop
    simp only [hs]
    apply ih (Object.openOption f env st o1).sought
    · intro p o2 q hp
      have := h (o1 :: p) o2 q (by rw [hp]; rfl)
      simpa [specOpenFold, specOpenStep_eq] using this
    · simpa [specOpenFold, specOpenStep_eq] using hf

/-- C27: once the forced refresh has succeeded, `Open` folds its options left to
right from offset 0 and limit -1 on a fresh reader: a seek option sets the
offset, a range option sets offset and limit to its `Decode(Size())`, any other
option changes neither, and after each option the reader is sought to the
current offset.  When all these seeks succeed the reader returned is the one
so sought, wrapped with the final limit; the first seek that fails makes `Open`
return no reader and that error; with no options no seek is made and the
limit is -1. -/
theorem open_folds_options (f : Fs) (env : OpenEnv) (o : Object) (opts : List OpenOption)
    (w : World) (hv : (o.refreshFromSource f true w).val = none) :
    ((∀ pre opt post, opts = pre ++ opt :: post →
        env.Seek
          (specOpenFold f env pre
            { offset := 0, limit := -1, reader := NewObjectHandle,
              obj := (o.refreshFromSource f true w).obj,
              world := (o.refreshFromSource f true w).world }).reader
          (specOpenStep f env
            (specOpenFold f env pre
              { offset := 0, limit := -1, reader := NewObjectHandle,
                obj := (o.refreshFromSource f true w).obj,
                world := (o.refreshFromSource f true w).world }) opt).offset = none) →
      (o.Open f env opts w).val =
        (some
          { reader := (specOpenFold f env opts
              { offset := 0, limit := -1, reader := NewObjectHandle,
                obj := (o.refreshFromSource f true w).obj,
                world := (o.refreshFromSource f true w).world }).reader,
            limit := (specOpenFold f env opts
              { offset := 0, limit := -1, reader := NewObjectHandle,
                obj := (o.refreshFromSource f true w).obj,
                world := (o.refreshFromSource f true w).world }).limit }, none)) ∧
    (∀ e pre opt post, opts = pre ++ opt :: post →
      (∀ p o2 q, pre = p ++ o2 :: q →
        env.Seek
          (specOpenFold f env p
            { offset := 0, limit := -1, reader := NewObjectHandle,
              obj := (o.refreshFromSource f true w).obj,
              world := (o.refreshFromSource f true w).world }).reader
          (specOpenStep f env
            (specOpenFold f env p
              { offset := 0, limit := -1, reader := NewObjectHandle,
                obj := (o.refreshFromSource f true w).obj,
                world := (o.refreshFromSource f true w).world }) o2).offset = none) →
      env.Seek
        (specOpenFold f env pre
          { offset := 0, limit := -1, reader := NewObjectHandle,
            obj := (o.refreshFromSource f true w).obj,
            world := (o.refreshFromSource f true w).world }).reader
        (specOpenStep f env
          (specOpenFold f env pre
            { offset := 0, limit := -1, reader := NewObjectHandle,
              obj := (o.refreshFromSource f true w).obj,
              world := (o.refreshFromSource f true w).world }) opt).offset = some e →
      (o.Open f env opts w).val = (none, some e)) ∧
    (opts = [] →
      (o.Open f env opts w).val = (some { reader := { seeks := [] }, limit := -1 }, none)) := by
  obtain ⟨-, -, hval⟩ := Open_after_refresh f env o opts w hv
  refine ⟨?_, ?_, ?_⟩
  · intro hok
    rw [hval, openLoop_all_seeks_ok f env opts _ hok]
  · intro e pre opt post hsplit hpre hfail
    have h1 := openLoop_first_failing_seek f env e pre opt post _ hpre hfail
    rw [hval, hsplit]
    cases hl : Object.openLoop f env (pre ++ opt :: post)
        { offset := 0, limit := -1, reader := NewObjectHandle,
          obj := (o.refreshFromSource f true w).obj,
          world := (o.refreshFromSource f true w).world } with
    | mk a st =>
      rw [hl] at h1
      simp only at h1
      subst h1
      rfl
  · intro hnil
    rw [hval, hnil]
    rfl

/-- Witness for C27: the example record opened with a seek option to 10, the
range 20 to 29 and an option of another type: the reader is sought to 10, 20
and 20 again and limited to 10 bytes.  On a reader that cannot be sought past
100, seek options to 10, 200 and 5 give no reader and the error of the second
seek. -/
theorem open_folds_options_witness :
    (exampleHeld.Open exampleFs exampleOpenEnv
      [OpenOption.seek 10, OpenOption.range { Start := 20, End := 29 }, OpenOption.other]
      (exampleWorld 5)).val =
      (some { reader := { seeks := [10, 20, 20] }, limit := 10 }, none) ∧
    (exampleHeld.Open exampleFs exampleShortEnv
      [OpenOption.seek 10, OpenOption.seek 200, OpenOption.seek 5] (exampleWorld 5)).val =
      (none, some (Error.backend 29)) :=
  ⟨((open_folds_options exampleFs exampleOpenEnv exampleHeld
      [OpenOption.seek 10, OpenOption.range { Start := 20, End := 29 }, OpenOption.other]
      (exampleWorld 5) (by decide)).1 (by intro pre opt post _; rfl)).trans (by decide),
    by decide⟩

/-! ## String, the ledger checks, modification times -/

/-- C22: `String` on a nil receiver returns `<nil>` without touching a field, and
on every other object returns exactly `Remote()`, the cache root cleaned off
`path.Join(Dir, Name)`. -/
theorem string_nil_or_remote (f : Fs) (o : Object) :
    Object.String f none = "<nil>" ∧
    Object.String f (some o) = o.Remote f ∧
    o.Remote f = f.cleanRootFromPath (path.Join o.Dir o.Name) :=
  ⟨rfl, rfl, rfl⟩

/-- C25: every call of `isTempFile` sets the cache type from the ledger, whatever
it was: with an entry for the absolute path the result is true and the type
`TempObject`, without one the result is false and the type `Object`, and no
other field changes.  `tempFileStartedUpload` returns the started flag of the
entry, false without an entry, and leaves the object as it was.  Each of them
searches the ledger once and changes nothing else in the state. -/
theorem isTempFile_rederives_cache_type (o : Object) (w : World) :
    (∀ b, (SearchPendingUpload w o.abs).1 = Except.ok b →
      (o.isTempFile w).val = true ∧
      (o.isTempFile w).obj.CacheType = objectPendingUpload ∧
      (o.tempFileStartedUpload w).val = b) ∧
    (∀ e, (SearchPendingUpload w o.abs).1 = Except.error e →
      (o.isTempFile w).val = false ∧
      (o.isTempFile w).obj.CacheType = objectInCache ∧
      (o.tempFileStartedUpload w).val = false) ∧
    (o.isTempFile w).obj = { o with CacheType := (o.isTempFile w).obj.CacheType } ∧
    (o.tempFileStartedUpload w).obj = o ∧
    (o.isTempFile w).world = w.log (Event.searchPendingUpload o.abs) ∧
    (o.tempFileStartedUpload w).world = w.log (Event.searchPendingUpload o.abs) := by
  cases hp : w.pending.lookup o.abs with
  | none =>
    rw [isTempFile_no_entry o w hp]
    refine ⟨?_, ?_, rfl, ?_, rfl, ?_⟩
    · intro b hb
      simp [SearchPendingUpload, hp] at hb
    · intro e _
      refine ⟨rfl, rfl, ?_⟩
      simp [Object.tempFileStartedUpload, SearchPendingUpload, hp]
    · simp [Object.tempFileStartedUpload, SearchPendingUpload, hp]
    · simp [Object.tempFileStartedUpload, SearchPendingUpload, hp]
  | some s =>
    rw [isTempFile_entry o w s hp, tempFileStartedUpload_entry o w s hp]
    refine ⟨?_, ?_, rfl, rfl, rfl, rfl⟩
    · intro b hb
      simp [SearchPendingUpload, hp] at hb
      exact ⟨rfl, rfl, hb⟩
    · intro e he
      simp [SearchPendingUpload, hp] at he

theorem wrap64_in_range (x : Int) (h1 : -2 ^ 63 ≤ x) (h2 : x < 2 ^ 63) : wrap64 x = x := by
  unfold wrap64
  omega

theorem wrap64_out_of_range (x : Int) (h : x < -2 ^ 63 ∨ 2 ^ 63 ≤ x) :
    wrap64 x ≠ x ∧ (wrap64 x - x) % 2 ^ 64 = 0 ∧ -2 ^ 63 ≤ wrap64 x ∧ wrap64 x < 2 ^ 63 := by
  unfold wrap64
  omega

theorem SetModTime_nil (f : Fs) (o : Object) (t : Int) (w : World)
    (h : (o.SetModTime f t w).val = none) :
    (o.SetModTime f t w).obj.CacheModTime = UnixNano t ∧
    (o.SetModTime f t w).obj.Name = o.Name ∧
    (o.SetModTime f t w).obj.Dir = o.Dir := by
  obtain ⟨rn, rd, -⟩ := refreshFromSource_remote f o false w
  cases hv : (o.refreshFromSource f false w).val with
  | some e =>
    rw [SetModTime_after_failed_refresh f o t w e hv] at h
    simp at h
  | none =>
    have hr := Out_eta_none _ hv
    cases hl : (o.refreshFromSource f false w).obj.fsObject with
    | none =>
      unfold Object.SetModTime at h
      simp [hv, hl] at h
    | some live =>
      obtain ⟨s1, s2⟩ := SetModTime_after_refresh f o t w _ _ live hr hl
      cases he : live.setModTimeErr with
      | some e =>
        rw [s1 e he] at h
        simp at h
      | none =>
        rw [s2 he]
        exact ⟨rfl, rn, rd⟩

/-- C28: modification times pass through the `int64` nanosecond field.  After
`updateData` from a source, or after a successful `SetModTime(t)`, `ModTime`
answered from the cache (TTL not expired, path not notified) returns the
instant whose Unix nanoseconds are the stored `UnixNano()`.  That is the
original instant when its nanoseconds fit in `int64`; for any other instant the
stored value is the nanoseconds modulo 2^64 and the instant returned differs,
as for the zero `time.Time`. -/
theorem modTime_round_trip (f : Fs) (o : Object) (live : LiveObject) (t : Int)
    (w w2 : World) :
    (¬ (w2.now > w.now + f.fileAge) → o.Remote f ∉ w2.notified →
      ((o.updateData live w).ModTime f w2).val = UnixNano live.modTime) ∧
    ((o.SetModTime f t w).val = none →
      ¬ (w2.now > (o.SetModTime f t w).obj.CacheTs + f.fileAge) →
      o.Remote f ∉ w2.notified →
      ((o.SetModTime f t w).obj.ModTime f w2).val = UnixNano t) ∧
    (∀ x : Int, -2 ^ 63 ≤ x → x < 2 ^ 63 → UnixNano x = x) ∧
    (∀ x : Int, x < -2 ^ 63 ∨ 2 ^ 63 ≤ x →
      UnixNano x ≠ x ∧ (UnixNano x - x) % 2 ^ 64 = 0 ∧
      -2 ^ 63 ≤ UnixNano x ∧ UnixNano x < 2 ^ 63) ∧
    UnixNano zeroTime = -6795364578871345152 ∧
    Unix 0 (UnixNano zeroTime) ≠ zeroTime := by
  refine ⟨?_, ?_, fun x => wrap64_in_range x, fun x => wrap64_out_of_range x,
    by decide, by decide⟩
  · intro h1 h2
    have hit := refresh_hit f (o.updateData live w) w2 h1 h2
    unfold Object.ModTime
    rw [hit]
    simp [Object.updateData, Unix]
  · intro hv h1 h2
    obtain ⟨k1, k2, k3⟩ := SetModTime_nil f o t w hv
    have hrem : (o.SetModTime f t w).obj.Remote f = o.Remote f := Remote_congr f _ o k2 k3
    have hit := refresh_hit f (o.SetModTime f t w).obj w2 h1 (by rw [hrem]; exact h2)
    unfold Object.ModTime
    rw [hit]
    simp [k1, Unix]

/-! ## Failing writes -/

theorem updateWrite_error (o : Object) (src : ObjectInfo) (w : World) (e : Error)
    (h : (o.updateWrite src w).val = some e) :
    (o.updateWrite src w).obj = o ∧
    ((o.updateWrite src w).world = w ∨
      (o.updateWrite src w).world = w.log (Event.objectUpdate src)) := by
  unfold Object.updateWrite at h ⊢
  cases ho : o.fsObject with
  | none => simp only [ho]; exact ⟨trivial, Or.inl trivial⟩
  | some live =>
    simp only [ho] at h ⊢
    cases hr : live.updateErr with
    | some e2 => simp only [hr]; exact ⟨trivial, Or.inr trivial⟩
    | none => simp [hr] at h

theorem removeWrite_error (f : Fs) (o : Object) (w : World) (e : Error)
    (h : (o.removeWrite f w).val = some e) :
    (o.removeWrite f w).obj = o ∧
    ((o.removeWrite f w).world = w ∨
      (o.removeWrite f w).world = w.log Event.objectRemove) := by
  unfold Object.removeWrite at h ⊢
  cases ho : o.fsObject with
  | none => simp only [ho]; exact ⟨trivial, Or.inl trivial⟩
  | some live =>
    simp only [ho] at h ⊢
    cases hr : live.removeErr with
    | some e2 => simp only [hr]; exact ⟨trivial, Or.inr trivial⟩
    | none => simp [hr] at h

theorem Update_error_after_refresh (f : Fs) (o : Object) (src : ObjectInfo) (w : World) (o1 : Object)
    (w1 : World) (e : Error) (hr : o.refreshFromSource f false w = ⟨none, o1, w1⟩)
    (h : (o.Update f src w).val = some e) :
    (o.Update f src w).obj = { o1 with CacheType := (o.Update f src w).obj.CacheType } ∧
    (o.Update f src w).world.chunks = w1.chunks ∧
    (o.Update f src w).world.pending = w1.pending ∧
    (o.Update f src w).world.expiredDirs = w1.expiredDirs ∧
    (o.Update f src w).world.objects = w1.objects ∧
    purges (o.Update f src w).world.trace = purges w1.trace ∧
    unqueues (o.Update f src w).world.trace = unqueues w1.trace ∧
    expires (o.Update f src w).world.trace = expires w1.trace ∧
    notifies (o.Update f src w).world.trace = notifies w1.trace ∧
    persists (o.Update f src w).world.trace = persists w1.trace := by
  unfold Object.Update at h ⊢
  rw [hr] at h ⊢
  simp only [] at h ⊢
  by_cases hwb : f.tempWritePath = ""
  · simp only [ne_eq, hwb, not_true_eq_false, if_false] at h ⊢
    obtain ⟨k1, k2⟩ := updateWrite_error o1 src w1 e h
    rw [k1]
    rcases k2 with k2 | k2 <;> rw [k2] <;>
      simp [World.log, purges_cons, unqueues_cons, expires_cons, notifies_cons, persists_cons]
  · simp only [ne_eq, hwb, not_false_eq_true, if_true] at h ⊢
    cases hp : (pause w1).pending.lookup o1.abs with
    | none =>
      rw [isTempFile_no_entry _ _ hp] at h ⊢
      simp only [Bool.false_eq_true, if_false, Bool.false_and] at h ⊢
      obtain ⟨k1, k2⟩ := updateWrite_error { o1 with CacheType := objectInCache } src 
        ((pause w1).log (Event.searchPendingUpload o1.abs)) e h
      rw [k1]
      rcases k2 with k2 | k2 <;> rw [k2] <;>
        simp [play, pause, World.log, purges_cons, unqueues_cons, expires_cons,
          notifies_cons, persists_cons]
    | some b =>
      rw [isTempFile_entry _ _ b hp] at h ⊢
      have h2 := tempFileStartedUpload_entry { o1 with CacheType := objectPendingUpload }
        ((pause w1).log (Event.searchPendingUpload o1.abs)) b hp
      simp only [if_true, h2, Bool.true_and] at h ⊢
      cases b with
      | true =>
        simp [play, pause, World.log, purges_cons, unqueues_cons, expires_cons,
          notifies_cons, persists_cons]
      | false =>
        simp only [Bool.false_eq_true, if_false] at h ⊢
        obtain ⟨k1, k2⟩ := updateWrite_error { o1 with CacheType := objectPendingUpload } src 
          (((pause w1).log (Event.searchPendingUpload o1.abs)).log
            (Event.searchPendingUpload
              (Object.abs { o1 with CacheType := objectPendingUpload }))) e h
        rw [k1]
        rcases k2 with k2 | k2 <;> rw [k2] <;>
          simp [play, pause, World.log, purges_cons, unqueues_cons, expires_cons,
            notifies_cons, persists_cons]

theorem Remove_error_after_refresh (f : Fs) (o : Object) (w : World) (o1 : Object)
    (w1 : World) (e : Error) (hr : o.refreshFromSource f false w = ⟨none, o1, w1⟩)
    (h : (o.Remove f w).val = some e) :
    (o.Remove f w).obj = { o1 with CacheType := (o.Remove f w).obj.CacheType } ∧
    (o.Remove f w).world.chunks = w1.chunks ∧
    (o.Remove f w).world.pending = w1.pending ∧
    (o.Remove f w).world.expiredDirs = w1.expiredDirs ∧
    (o.Remove f w).world.objects = w1.objects ∧
    purges (o.Remove f w).world.trace = purges w1.trace ∧
    unqueues (o.Remove f w).world.trace = unqueues w1.trace ∧
    expires (o.Remove f w).world.trace = expires w1.trace ∧
    notifies (o.Remove f w).world.trace = notifies w1.trace ∧
    persists (o.Remove f w).world.trace = persists w1.trace := by
  unfold Object.Remove at h ⊢
  rw [hr] at h ⊢
  simp only [] at h ⊢
  by_cases hwb : f.tempWritePath = ""
  · simp only [ne_eq, hwb, not_true_eq_false, if_false] at h ⊢
    obtain ⟨k1, k2⟩ := removeWrite_error f o1 w1 e h
    rw [k1]
    rcases k2 with k2 | k2 <;> rw [k2] <;>
      simp [World.log, purges_cons, unqueues_cons, expires_cons, notifies_cons, persists_cons]
  · simp only [ne_eq, hwb, not_false_eq_true, if_true] at h ⊢
    cases hp : (pause w1).pending.lookup o1.abs with
    | none =>
      rw [isTempFile_no_entry _ _ hp] at h ⊢
      simp only [Bool.false_eq_true, if_false, Bool.false_and] at h ⊢
      obtain ⟨k1, k2⟩ := removeWrite_error f { o1 with CacheType := objectInCache } 
        ((pause w1).log (Event.searchPendingUpload o1.abs)) e h
      rw [k1]
      rcases k2 with k2 | k2 <;> rw [k2] <;>
        simp [play, pause, World.log, purges_cons, unqueues_cons, expires_cons,
          notifies_cons, persists_cons]
    | some b =>
      rw [isTempFile_entry _ _ b hp] at h ⊢
      have h2 := tempFileStartedUpload_entry { o1 with CacheType := objectPendingUpload }
        ((pause w1).log (Event.searchPendingUpload o1.abs)) b hp
      simp only [if_true, h2, Bool.true_and] at h ⊢
      cases b with
      | true =>
        simp [play, pause, World.log, purges_cons, unqueues_cons, expires_cons,
          notifies_cons, persists_cons]
      | false =>
        simp only [Bool.false_eq_true, if_false] at h ⊢
        obtain ⟨k1, k2⟩ := removeWrite_error f { o1 with CacheType := objectPendingUpload } 
          (((pause w1).log (Event.searchPendingUpload o1.abs)).log
            (Event.searchPendingUpload
              (Object.abs { o1 with CacheType := objectPendingUpload }))) e h
        rw [k1]
        rcases k2 with k2 | k2 <;> rw [k2] <;>
          simp [play, pause, World.log, purges_cons, unqueues_cons, expires_cons,
            notifies_cons, persists_cons]

/-- C23: after `Remove` returns nil, exactly one
upstream change notification has been raised, for the parent directory of the
object, `cleanPath(path.Dir(Remote()))`, with entry kind Directory, right after
`ExpireDir` was called for that same directory (which is then marked expired
when that call succeeds); when `Remove` returns an error no notification is
raised. -/
theorem remove_notifies_parent_directory (f : Fs) (o : Object) (w : World) :
    ((o.Remove f w).val = none →
      notifies (o.Remove f w).world.trace = notifies w.trace + 1 ∧
      (∃ pre post, (o.Remove f w).world.trace =
          pre ++ Event.notifyChangeUpstreamIfNeeded (f.cleanPath (path.Dir (o.Remote f)))
            EntryType.directory ::
            Event.expireDir (f.cleanPath (path.Dir (o.Remote f))) :: post ∧
        notifies pre = 0 ∧ notifies post = notifies w.trace) ∧
      (w.expireDirErr = none →
        f.cleanPath (path.Dir (o.Remote f)) ∈ (o.Remove f w).world.expiredDirs)) ∧
    (∀ e, (o.Remove f w).val = some e →
      notifies (o.Remove f w).world.trace = notifies w.trace ∧
      expires (o.Remove f w).world.trace = expires w.trace ∧
      (o.Remove f w).world.expiredDirs = w.expiredDirs) := by
  constructor
  · intro h
    obtain ⟨o0, w0, hn, hd, hnil, hw, -, -, -, e3, -, -, -, c4, -⟩ :=
      Remove_nil_shape f o w h
    have hrem : o0.Remote f = o.Remote f := Remote_congr f o0 o hn hd
    obtain ⟨-, ht, -, -, k3⟩ := removeWrite_nil f o0 w0 hnil
    simp only [hrem] at ht k3
    rw [e3] at k3
    rcases hw with hw | hw
    · rw [hw]
      refine ⟨?_, ⟨[], _, by rw [ht]; rfl, rfl, ?_⟩, k3⟩
      · simp [ht, notifies_cons, c4]
      · simp [notifies_cons, c4]
    · rw [hw]
      refine ⟨?_, ⟨[Event.play], _, by simp only [play, ht]; rfl, rfl, ?_⟩, ?_⟩
      · simp [play, ht, notifies_cons, c4]
      · simp [notifies_cons, c4]
      · intro a; simpa [play] using k3 a
  · intro e h
    obtain ⟨fe, -, -, fex, fno, -, -, -, -⟩ := refreshFromSource_frame_more f o false w
    cases hv : (o.refreshFromSource f false w).val with
    | some e2 =>
      rw [Remove_after_failed_refresh f o w e2 hv]
      exact ⟨fno, fex, fe⟩
    | none =>
      have hr := Out_eta_none _ hv
      obtain ⟨-, -, -, k3, -, -, -, k7, k8, -⟩ :=
        Remove_error_after_refresh f o w _ _ e hr h
      exact ⟨k8.trans fno, k7.trans fex, k3.trans fe⟩

/-- Witness for C23: the example record holding a handle, removed while its path
is queued (upload not started): one notification, for directory `a`. -/
theorem remove_notifies_parent_directory_witness :
    notifies (exampleHeld.Remove exampleFs (exampleQueuedCached 5)).world.trace = 0 + 1 ∧
    Event.notifyChangeUpstreamIfNeeded "a" EntryType.directory ∈
      (exampleHeld.Remove exampleFs (exampleQueuedCached 5)).world.trace ∧
    "a" ∈ (exampleHeld.Remove exampleFs (exampleQueuedCached 5)).world.expiredDirs :=
  ⟨((remove_notifies_parent_directory exampleFs exampleHeld (exampleQueuedCached 5)).1
      (by decide)).1,
    by decide,
    ((remove_notifies_parent_directory exampleFs exampleHeld (exampleQueuedCached 5)).1
      (by decide)).2.2 rfl⟩

/-- C26, as the claim states it, fails when no handle is held, because `Update`
and `Remove` first refresh from the source.  On the example record (modification
time 5, size 3, timestamp 0) at time 5, with a remote that answers the lookup
but refuses the write: both calls return the remote's error 500, yet
`CacheModTime`, `CacheSize` and `CacheTs` have changed to the fetched 1234, 10
and 5. -/
theorem failed_write_without_handle_counterexample :
    (exampleObject.Update exampleFs exampleSrc (exampleWorldFailing 5)).val =
      some (Error.backend 500) ∧
    (exampleObject.Remove exampleFs (exampleWorldFailing 5)).val = some (Error.backend 500) ∧
    exampleObject.CacheModTime = 5 ∧ exampleObject.CacheSize = 3 ∧ exampleObject.CacheTs = 0 ∧
    (exampleObject.Update exampleFs exampleSrc (exampleWorldFailing 5)).obj.CacheModTime
      = 1234 ∧
    (exampleObject.Update exampleFs exampleSrc (exampleWorldFailing 5)).obj.CacheSize = 10 ∧
    (exampleObject.Update exampleFs exampleSrc (exampleWorldFailing 5)).obj.CacheTs = 5 ∧
    (exampleObject.Remove exampleFs (exampleWorldFailing 5)).obj.CacheSize = 10 :=
  ⟨by decide, by decide, by decide, by decide, by decide, by decide, by decide, by decide,
    by decide⟩

/-- C26, amended: let `r` be the outcome of the preliminary
`refreshFromSource(false)`, returning nil with handle `live`, the call not being
rejected for a started upload.  If the handle's `Update` (resp. `Remove`)
returns an error, `Object.Update` (resp. `Object.Remove`) returns that error and
changes nothing after `r`: no chunk or record is purged, no ledger entry
removed, the parent directory not expired, no notification raised, nothing
persisted, and `CacheModTime`, `CacheSize`, `CacheHashes` and `CacheTs` are
those of `r`.  When the object already holds a handle, `r` is the object and
state before the call, so the cache is left as it was; without a handle the
refresh has overwritten and persisted the record first. -/
theorem failed_write_leaves_cache (f : Fs) (o : Object) (src : ObjectInfo) (w : World)
    (r : Out (Option Error)) (live : LiveObject) (e : Error)
    (hr : r = o.refreshFromSource f false w) (hv : r.val = none)
    (hl : r.obj.fsObject = some live)
    (hs : f.tempWritePath = "" ∨ w.pending.lookup o.abs ≠ some true) :
    (live.updateErr = some e →
      (o.Update f src w).val = some e ∧
      purges (o.Update f src w).world.trace = purges w.trace ∧
      (o.Update f src w).world.chunks = w.chunks ∧
      (o.Update f src w).world.pending = w.pending ∧
      (o.Update f src w).world.expiredDirs = w.expiredDirs ∧
      (o.Update f src w).world.objects = r.world.objects ∧
      persists (o.Update f src w).world.trace = persists r.world.trace ∧
      (o.Update f src w).obj.CacheModTime = r.obj.CacheModTime ∧
      (o.Update f src w).obj.CacheSize = r.obj.CacheSize ∧
      (o.Update f src w).obj.CacheHashes = r.obj.CacheHashes ∧
      (o.Update f src w).obj.CacheTs = r.obj.CacheTs) ∧
    (live.removeErr = some e →
      (o.Remove f w).val = some e ∧
      purges (o.Remove f w).world.trace = purges w.trace ∧
      unqueues (o.Remove f w).world.trace = unqueues w.trace ∧
      expires (o.Remove f w).world.trace = expires w.trace ∧
      notifies (o.Remove f w).world.trace = notifies w.trace ∧
      (o.Remove f w).world.chunks = w.chunks ∧
      (o.Remove f w).world.pending = w.pending ∧
      (o.Remove f w).world.expiredDirs = w.expiredDirs ∧
      (o.Remove f w).world.objects = r.world.objects ∧
      persists (o.Remove f w).world.trace = persists r.world.trace ∧
      (o.Remove f w).obj.CacheModTime = r.obj.CacheModTime ∧
      (o.Remove f w).obj.CacheSize = r.obj.CacheSize ∧
      (o.Remove f w).obj.CacheHashes = r.obj.CacheHashes ∧
      (o.Remove f w).obj.CacheTs = r.obj.CacheTs) ∧
    (o.fsObject.isSome = true → r = ⟨none, o, w⟩) := by
  subst hr
  have hr := Out_eta_none _ hv
  obtain ⟨fp, fc, -, fr⟩ := refreshFromSource_frame f o false w
  obtain ⟨fe, -, -, fex, fno, -, -, -, -⟩ := refreshFromSource_frame_more f o false w
  obtain ⟨-, -, -, -, -, fu⟩ := refreshFromSource_errs f o false w
  obtain ⟨rn, rd, -⟩ := refreshFromSource_remote f o false w
  have habs : (o.refreshFromSource f false w).obj.abs = o.abs := by
    unfold Object.abs
    rw [rn, rd]
  have hs2 : f.tempWritePath = "" ∨
      (o.refreshFromSource f false w).world.pending.lookup
        (o.refreshFromSource f false w).obj.abs ≠ some true := by
    rw [fp, habs]; exact hs
  refine ⟨?_, ?_, fun hh => refreshFromSource_skip f o w hh⟩
  · intro he
    have hval : (o.Update f src w).val = some e := by
      rw [Update_val_not_started f o src w _ _ live hr hl hs2, he]
    obtain ⟨k0, k1, k2, k3, k4, k5, -, -, -, k9⟩ :=
      Update_error_after_refresh f o src w _ _ e hr hval
    refine ⟨hval, k5.trans fr, k1.trans fc, k2.trans fp, k3.trans fe, k4, k9, ?_, ?_, ?_, ?_⟩
    · rw [k0]
    · rw [k0]
    · rw [k0]
    · rw [k0]
  · intro he
    have hval : (o.Remove f w).val = some e := by
      rw [Remove_val_not_started f o w _ _ live hr hl hs2, he]
    obtain ⟨k0, k1, k2, k3, k4, k5, k6, k7, k8, k9⟩ :=
      Remove_error_after_refresh f o w _ _ e hr hval
    refine ⟨hval, k5.trans fr, k6.trans fu, k7.trans fex, k8.trans fno, k1.trans fc,
      k2.trans fp, k3.trans fe, k4, k9, ?_, ?_, ?_, ?_⟩
    · rw [k0]
    · rw [k0]
    · rw [k0]
    · rw [k0]

/-- Witness for the amended C26: the example record holding a handle that
refuses writes, updated and removed at time 5: the error comes back and the
cached chunk, record and size are untouched. -/
theorem failed_write_leaves_cache_witness :
    (exampleHeldFailing.Update exampleFs exampleSrc (exampleWorldFailing 5)).val =
      some (Error.backend 500) ∧
    (exampleHeldFailing.Update exampleFs exampleSrc (exampleWorldFailing 5)).world.chunks =
      [("a/b.txt", 0)] ∧
    (exampleHeldFailing.Update exampleFs exampleSrc (exampleWorldFailing 5)).obj.CacheSize
      = 3 ∧
    (exampleHeldFailing.Remove exampleFs (exampleWorldFailing 5)).val =
      some (Error.backend 500) :=
  ⟨((failed_write_leaves_cache exampleFs exampleHeldFailing exampleSrc
      (exampleWorldFailing 5) _ exampleLiveFailing (Error.backend 500) rfl (by decide)
      (by decide) (Or.inr (by decide))).1 (by decide)).1,
    ((failed_write_leaves_cache exampleFs exampleHeldFailing exampleSrc
      (exampleWorldFailing 5) _ exampleLiveFailing (Error.backend 500) rfl (by decide)
      (by decide) (Or.inr (by decide))).1 (by decide)).2.2.1,
    ((failed_write_leaves_cache exampleFs exampleHeldFailing exampleSrc
      (exampleWorldFailing 5) _ exampleLiveFailing (Error.backend 500) rfl (by decide)
      (by decide) (Or.inr (by decide))).1 (by decide)).2.2.2.2.2.2.2.2.1.trans (by decide),
    ((failed_write_leaves_cache exampleFs exampleHeldFailing exampleSrc
      (exampleWorldFailing 5) _ exampleLiveFailing (Error.backend 500) rfl (by decide)
      (by decide) (Or.inr (by decide))).2.1 (by decide)).1⟩

/-! ## Calls made while an upload has started -/

theorem Update_direct (f : Fs) (o : Object) (src : ObjectInfo) (w : World)
    (hwb : f.tempWritePath = "") (h : (o.refreshFromSource f false w).val = none) :
    o.Update f src w =
      (o.refreshFromSource f false w).obj.updateWrite src
        (o.refreshFromSource f false w).world := by
  unfold Object.Update
  simp only [h, ne_eq, hwb, not_true_eq_false, if_false]

theorem Remove_direct (f : Fs) (o : Object) (w : World)
    (hwb : f.tempWritePath = "") (h : (o.refreshFromSource f false w).val = none) :
    o.Remove f w =
      (o.refreshFromSource f false w).obj.removeWrite f
        (o.refreshFromSource f false w).world := by
  unfold Object.Remove
  simp only [h, ne_eq, hwb, not_true_eq_false, if_false]

theorem updateWrite_counts (o : Object) (src : ObjectInfo) (w : World) (live : LiveObject)
    (ho : o.fsObject = some live) :
    (o.updateWrite src w).val = live.updateErr ∧
    updates (o.updateWrite src w).world.trace = updates w.trace + 1 ∧
    searches (o.updateWrite src w).world.trace = searches w.trace ∧
    lookups (o.updateWrite src w).world.trace = lookups w.trace := by
  unfold Object.updateWrite
  simp only [ho]
  cases hr : live.updateErr with
  | some e => simp [World.log, updates_cons, searches_cons, lookups_cons]
  | none =>
    simp only [Object.persist]
    obtain ⟨-, -, r3, -, -⟩ := RemoveObject_frame (w.log (Event.objectUpdate src)) o.abs
    simp only [AddObject_trace, r3, updates_cons, searches_cons, lookups_cons]
    simp [World.log, updates_cons, searches_cons, lookups_cons]

theorem removeWrite_counts (f : Fs) (o : Object) (w : World) (live : LiveObject)
    (ho : o.fsObject = some live) :
    (o.removeWrite f w).val = live.removeErr ∧
    removes (o.removeWrite f w).world.trace = removes w.trace + 1 ∧
    searches (o.removeWrite f w).world.trace = searches w.trace ∧
    lookups (o.removeWrite f w).world.trace = lookups w.trace := by
  unfold Object.removeWrite
  simp only [ho]
  cases hr : live.removeErr with
  | some e => simp [World.log, removes_cons, searches_cons, lookups_cons]
  | none =>
    cases h1 : w.removeObjectErr <;> cases h2 : w.removePendingUploadErr <;>
      cases h3 : w.expireDirErr <;>
      simp [notifyChangeUpstreamIfNeeded, ExpireDir, removePendingUpload, RemoveObject,
        World.log, NewDirectory, Directory.Remote, h1, h2, h3, removes_cons, searches_cons,
        lookups_cons]

/-- C10, amended: the ledger entry of the object's path is started.  With a
temporary upload path set, `Update` fails, the handle's `Update` is never
invoked and neither chunks nor records are purged.  The error is that of the
preliminary `refreshFromSource(false)` when it fails, and the busy error
otherwise, `CacheModTime`, `CacheSize`, `CacheHashes` and `CacheTs` being then
as that refresh left them: unchanged, with nothing written, when the object
already holds a handle; the values just fetched from the object's parent
backend, after one lookup, when it holds none.  Without a temporary upload
path the check for started uploads is not made: after the preliminary refresh
`Update` goes on to the handle's `Update`, whose result it returns, and with a
handle held the ledger is not searched at all. -/
theorem update_rejected_while_upload_started (f : Fs) (o : Object) (src : ObjectInfo)
    (w : World) (hs : w.pending.lookup o.abs = some true) :
    (f.tempWritePath ≠ "" →
      (o.Update f src w).val ≠ none ∧
      updates (o.Update f src w).world.trace = updates w.trace ∧
      purges (o.Update f src w).world.trace = purges w.trace ∧
      (o.Update f src w).world.chunks = w.chunks ∧
      (∀ e, (o.refreshFromSource f false w).val = some e →
        (o.Update f src w).val = some e) ∧
      ((o.refreshFromSource f false w).val = none →
        (o.Update f src w).val =
          some (Error.errorf (o.Remote f ++ " is currently uploading, can\x27t update")) ∧
        (o.Update f src w).obj.CacheModTime =
          (o.refreshFromSource f false w).obj.CacheModTime ∧
        (o.Update f src w).obj.CacheSize = (o.refreshFromSource f false w).obj.CacheSize ∧
        (o.Update f src w).obj.CacheHashes =
          (o.refreshFromSource f false w).obj.CacheHashes ∧
        (o.Update f src w).obj.CacheTs = (o.refreshFromSource f false w).obj.CacheTs) ∧
      (o.fsObject.isSome = true →
        (o.Update f src w).val =
          some (Error.errorf (o.Remote f ++ " is currently uploading, can\x27t update")) ∧
        (o.Update f src w).obj.CacheModTime = o.CacheModTime ∧
        (o.Update f src w).obj.CacheSize = o.CacheSize ∧
        (o.Update f src w).obj.CacheHashes = o.CacheHashes ∧
        (o.Update f src w).obj.CacheTs = o.CacheTs ∧
        (o.Update f src w).world.objects = w.objects ∧
        persists (o.Update f src w).world.trace = persists w.trace ∧
        lookups (o.Update f src w).world.trace = lookups w.trace) ∧
      (∀ live, o.fsObject = none →
        w.resolve o.ParentFs (o.Remote f) = Except.ok live →
        (o.Update f src w).val =
          some (Error.errorf (o.Remote f ++ " is currently uploading, can\x27t update")) ∧
        (o.Update f src w).obj.CacheModTime = UnixNano live.modTime ∧
        (o.Update f src w).obj.CacheSize = live.size ∧
        (o.Update f src w).obj.CacheHashes = some [] ∧
        (o.Update f src w).obj.CacheTs = w.now ∧
        lookups (o.Update f src w).world.trace = lookups w.trace + 1) ∧
      (∀ e, o.fsObject = none →
        w.resolve o.ParentFs (o.Remote f) = Except.error e →
        (o.Update f src w).val =
          some (Error.wrapf e ("in parent fs " ++ o.ParentFs.name f)) ∧
        (o.Update f src w).obj.CacheModTime = o.CacheModTime ∧
        (o.Update f src w).obj.CacheSize = o.CacheSize ∧
        (o.Update f src w).obj.CacheHashes = o.CacheHashes ∧
        (o.Update f src w).obj.CacheTs = o.CacheTs)) ∧
    (f.tempWritePath = "" →
      (∀ e, (o.refreshFromSource f false w).val = some e →
        (o.Update f src w).val = some e) ∧
      ((o.refreshFromSource f false w).val = none →
        o.Update f src w =
          (o.refreshFromSource f false w).obj.updateWrite src
            (o.refreshFromSource f false w).world) ∧
      (∀ live, o.fsObject = some live →
        (o.Update f src w).val = live.updateErr ∧
        updates (o.Update f src w).world.trace = updates w.trace + 1 ∧
        searches (o.Update f src w).world.trace = searches w.trace)) := by
  obtain ⟨fp, fc, fu, fr⟩ := refreshFromSource_frame f o false w
  obtain ⟨rn, rd, -⟩ := refreshFromSource_remote f o false w
  have habs : (o.refreshFromSource f false w).obj.abs = o.abs := by
    unfold Object.abs
    rw [rn, rd]
  have hrem : (o.refreshFromSource f false w).obj.Remote f = o.Remote f :=
    Remote_congr f _ o rn rd
  have hsome : (w.pending.lookup o.abs).isSome = true := by rw [hs]; rfl
  constructor
  · intro hwb
    have hbusy : (o.refreshFromSource f false w).val = none →
        o.Update f src w =
          ⟨some (Error.errorf (o.Remote f ++ " is currently uploading, can\x27t update")),
            { (o.refreshFromSource f false w).obj with CacheType := objectPendingUpload },
            play (((pause (o.refreshFromSource f false w).world).log
              (Event.searchPendingUpload (o.refreshFromSource f false w).obj.abs)).log
              (Event.searchPendingUpload (o.refreshFromSource f false w).obj.abs))⟩ := by
      intro hv
      have hs2 : (o.refreshFromSource f false w).world.pending.lookup
          (o.refreshFromSource f false w).obj.abs = some true := by
        rw [fp, habs]; exact hs
      rw [Update_started_upload f o src w hwb hv hs2, hrem]
    have hlook : (o.refreshFromSource f false w).val = none →
        lookups (o.Update f src w).world.trace =
          lookups (o.refreshFromSource f false w).world.trace := by
      intro hv
      rw [hbusy hv]
      simp [play, pause, World.log, lookups_cons]
    refine ⟨?_, ?_, ?_, ?_, ?_, ?_, ?_, ?_, ?_⟩
    · cases hv : (o.refreshFromSource f false w).val with
      | some e => rw [Update_after_failed_refresh f o src w e hv]; simp
      | none => rw [hbusy hv]; simp
    · cases hv : (o.refreshFromSource f false w).val with
      | some e => rw [Update_after_failed_refresh f o src w e hv]; exact fu
      | none => rw [hbusy hv]; simp [play, pause, World.log, updates_cons, fu]
    · cases hv : (o.refreshFromSource f false w).val with
      | some e => rw [Update_after_failed_refresh f o src w e hv]; exact fr
      | none => rw [hbusy hv]; simp [play, pause, World.log, purges_cons, fr]
    · cases hv : (o.refreshFromSource f false w).val with
      | some e => rw [Update_after_failed_refresh f o src w e hv]; exact fc
      | none => rw [hbusy hv]; simp [play, pause, World.log, fc]
    · intro e hv
      rw [Update_after_failed_refresh f o src w e hv]
    · intro hv
      rw [hbusy hv]
      exact ⟨rfl, rfl, rfl, rfl, rfl⟩
    · intro hh
      have hsk := refreshFromSource_skip f o w hh
      have hv : (o.refreshFromSource f false w).val = none := by rw [hsk]
      rw [hbusy hv, hsk]
      refine ⟨rfl, rfl, rfl, rfl, rfl, ?_, ?_, ?_⟩
      · simp [play, pause, World.log]
      · simp [play, pause, World.log, persists_cons]
      · simp [play, pause, World.log, lookups_cons]
    · intro live ho hsrc
      have hsrc2 : w.resolve
          (if (w.pending.lookup o.abs).isSome then o.ParentFs else FsRef.wrapped)
          (o.Remote f) = Except.ok live := by
        rw [hsome]; exact hsrc
      have hok := refreshFromSource_ok f o false w live (Or.inr ho) hsrc2
      have hv : (o.refreshFromSource f false w).val = none := by rw [hok]
      have hl := hlook hv
      rw [refreshFromSource_lookups f o false w (Or.inr ho)] at hl
      refine ⟨?_, ?_, ?_, ?_, ?_, hl⟩
      · rw [hbusy hv]
      · rw [hbusy hv, hok]
      · rw [hbusy hv, hok]
      · rw [hbusy hv, hok]
      · rw [hbusy hv, hok]
    · intro e ho hsrc
      have hsrc2 : w.resolve
          (if (w.pending.lookup o.abs).isSome then o.ParentFs else FsRef.wrapped)
          (o.Remote f) = Except.error e := by
        rw [hsome]; exact hsrc
      have herr := refreshFromSource_error f o false w e (Or.inr ho) hsrc2
      have hv : (o.refreshFromSource f false w).val =
          some (Error.wrapf e ("in parent fs " ++ o.ParentFs.name f)) := by
        rw [herr, hsome]; rfl
      rw [Update_after_failed_refresh f o src w _ hv, herr]
      exact ⟨rfl, rfl, rfl, rfl, rfl⟩
  · intro hwb
    refine ⟨?_, ?_, ?_⟩
    · intro e hv
      rw [Update_after_failed_refresh f o src w e hv]
    · intro hv
      exact Update_direct f o src w hwb hv
    · intro live ho
      have hh : o.fsObject.isSome = true := by rw [ho]; rfl
      have hsk := refreshFromSource_skip f o w hh
      have hv : (o.refreshFromSource f false w).val = none := by rw [hsk]
      rw [Update_direct f o src w hwb hv, hsk]
      obtain ⟨c1, c2, c3, -⟩ := updateWrite_counts o src w live ho
      exact ⟨c1, c2, c3⟩

/-- Witness for the amended C10: the example record holding a handle, updated
while the upload of its path has started. -/
theorem update_rejected_while_upload_started_witness :
    exampleFs.tempWritePath ≠ "" ∧
    (exampleUploading 5).pending.lookup exampleHeld.abs = some true ∧
    (exampleHeld.Update exampleFs exampleSrc (exampleUploading 5)).val =
      some (Error.errorf "a/b.txt is currently uploading, can\x27t update") ∧
    (exampleHeld.Update exampleFs exampleSrc (exampleUploading 5)).obj.CacheSize = 3 :=
  ⟨by decide, by decide,
    (((update_rejected_while_upload_started exampleFs exampleHeld exampleSrc
      (exampleUploading 5) (by decide)).1 (by decide)).2.2.2.2.2.2.1 rfl).1.trans (by decide),
    (((update_rejected_while_upload_started exampleFs exampleHeld exampleSrc
      (exampleUploading 5) (by decide)).1 (by decide)).2.2.2.2.2.2.1 rfl).2.2.1.trans
      (by decide)⟩

/-- C11, amended: the ledger entry of the object's path is started.  With a
temporary upload path set, `Remove` fails: the handle's `Remove` is never
invoked, no record or chunk is purged, a record present before is present
afterwards, the ledger is unchanged, the parent directory is not expired and no
upstream notification is raised.  The error is that of the preliminary
`refreshFromSource(false)` when it fails, and the busy error otherwise, in
particular when a handle is already held; without a handle the refresh looks
the object up on its parent backend first, and a failing lookup is what
`Remove` returns.  Without a temporary upload path the check for started
uploads is not made: after the preliminary refresh `Remove` goes on to the
handle's `Remove`, whose result it returns, and with a handle held the ledger
is not searched at all. -/
theorem remove_rejected_while_upload_started (f : Fs) (o : Object) (w : World)
    (hs : w.pending.lookup o.abs = some true) :
    (f.tempWritePath ≠ "" →
      (o.Remove f w).val ≠ none ∧
      removes (o.Remove f w).world.trace = removes w.trace ∧
      purges (o.Remove f w).world.trace = purges w.trace ∧
      (o.Remove f w).world.chunks = w.chunks ∧
      (o.Remove f w).world.pending = w.pending ∧
      ((w.objects.lookup o.abs).isSome = true →
        ((o.Remove f w).world.objects.lookup o.abs).isSome = true) ∧
      (o.Remove f w).world.expiredDirs = w.expiredDirs ∧
      expires (o.Remove f w).world.trace = expires w.trace ∧
      notifies (o.Remove f w).world.trace = notifies w.trace ∧
      (∀ e, (o.refreshFromSource f false w).val = some e →
        (o.Remove f w).val = some e) ∧
      ((o.refreshFromSource f false w).val = none →
        (o.Remove f w).val =
          some (Error.errorf (o.Remote f ++ " is currently uploading, can\x27t delete"))) ∧
      (o.fsObject.isSome = true →
        (o.Remove f w).val =
          some (Error.errorf (o.Remote f ++ " is currently uploading, can\x27t delete")) ∧
        (o.Remove f w).world.objects = w.objects ∧
        lookups (o.Remove f w).world.trace = lookups w.trace) ∧
      (∀ live, o.fsObject = none →
        w.resolve o.ParentFs (o.Remote f) = Except.ok live →
        (o.Remove f w).val =
          some (Error.errorf (o.Remote f ++ " is currently uploading, can\x27t delete")) ∧
        lookups (o.Remove f w).world.trace = lookups w.trace + 1) ∧
      (∀ e, o.fsObject = none →
        w.resolve o.ParentFs (o.Remote f) = Except.error e →
        (o.Remove f w).val =
          some (Error.wrapf e ("in parent fs " ++ o.ParentFs.name f)))) ∧
    (f.tempWritePath = "" →
      (∀ e, (o.refreshFromSource f false w).val = some e →
        (o.Remove f w).val = some e) ∧
      ((o.refreshFromSource f false w).val = none →
        o.Remove f w =
          (o.refreshFromSource f false w).obj.removeWrite f
            (o.refreshFromSource f false w).world) ∧
      (∀ live, o.fsObject = some live →
        (o.Remove f w).val = live.removeErr ∧
        removes (o.Remove f w).world.trace = removes w.trace + 1 ∧
        searches (o.Remove f w).world.trace = searches w.trace)) := by
  obtain ⟨fp, fc, -, fr⟩ := refreshFromSource_frame f o false w
  obtain ⟨fe, -, frm, fex, fno, -, -, -, fob⟩ := refreshFromSource_frame_more f o false w
  obtain ⟨rn, rd, -⟩ := refreshFromSource_remote f o false w
  have habs : (o.refreshFromSource f false w).obj.abs = o.abs := by
    unfold Object.abs
    rw [rn, rd]
  have hrem : (o.refreshFromSource f false w).obj.Remote f = o.Remote f :=
    Remote_congr f _ o rn rd
  have hsome : (w.pending.lookup o.abs).isSome = true := by rw [hs]; rfl
  constructor
  · intro hwb
    have hbusy : (o.refreshFromSource f false w).val = none →
        o.Remove f w =
          ⟨some (Error.errorf (o.Remote f ++ " is currently uploading, can\x27t delete")),
            { (o.refreshFromSource f false w).obj with CacheType := objectPendingUpload },
            play (((pause (o.refreshFromSource f false w).world).log
              (Event.searchPendingUpload (o.refreshFromSource f false w).obj.abs)).log
              (Event.searchPendingUpload (o.refreshFromSource f false w).obj.abs))⟩ := by
      intro hv
      have hs2 : (o.refreshFromSource f false w).world.pending.lookup
          (o.refreshFromSource f false w).obj.abs = some true := by
        rw [fp, habs]; exact hs
      rw [Remove_started_upload f o w hwb hv hs2, hrem]
    have hlook : (o.refreshFromSource f false w).val = none →
        lookups (o.Remove f w).world.trace =
          lookups (o.refreshFromSource f false w).world.trace := by
      intro hv
      rw [hbusy hv]
      simp [play, pause, World.log, lookups_cons]
    have hfirst : (o.Remove f w).val ≠ none ∧
        removes (o.Remove f w).world.trace = removes w.trace ∧
        purges (o.Remove f w).world.trace = purges w.trace ∧
        (o.Remove f w).world.chunks = w.chunks ∧
        (o.Remove f w).world.pending = w.pending ∧
        ((w.objects.lookup o.abs).isSome = true →
          ((o.Remove f w).world.objects.lookup o.abs).isSome = true) ∧
        (o.Remove f w).world.expiredDirs = w.expiredDirs ∧
        expires (o.Remove f w).world.trace = expires w.trace ∧
        notifies (o.Remove f w).world.trace = notifies w.trace := by
      cases hv : (o.refreshFromSource f false w).val with
      | some e =>
        rw [Remove_after_failed_refresh f o w e hv]
        exact ⟨by simp, frm, fr, fc, fp, fob, fe, fex, fno⟩
      | none =>
        rw [hbusy hv]
        refine ⟨by simp, ?_, ?_, ?_, ?_, ?_, ?_, ?_, ?_⟩
        · simp [play, pause, World.log, removes_cons, frm]
        · simp [play, pause, World.log, purges_cons, fr]
        · simp [play, pause, World.log, fc]
        · simp [play, pause, World.log, fp]
        · intro hx
          simpa [play, pause, World.log] using fob hx
        · simp [play, pause, World.log, fe]
        · simp [play, pause, World.log, expires_cons, fex]
        · simp [play, pause, World.log, notifies_cons, fno]
    obtain ⟨a1, a2, a3, a4, a5, a6, a7, a8, a9⟩ := hfirst
    refine ⟨a1, a2, a3, a4, a5, a6, a7, a8, a9, ?_, ?_, ?_, ?_, ?_⟩
    · intro e hv
      rw [Remove_after_failed_refresh f o w e hv]
    · intro hv
      rw [hbusy hv]
    · intro hh
      have hsk := refreshFromSource_skip f o w hh
      have hv : (o.refreshFromSource f false w).val = none := by rw [hsk]
      rw [hbusy hv, hsk]
      refine ⟨rfl, ?_, ?_⟩
      · simp [play, pause, World.log]
      · simp [play, pause, World.log, lookups_cons]
    · intro live ho hsrc
      have hsrc2 : w.resolve
          (if (w.pending.lookup o.abs).isSome then o.ParentFs else FsRef.wrapped)
          (o.Remote f) = Except.ok live := by
        rw [hsome]; exact hsrc
      have hok := refreshFromSource_ok f o false w live (Or.inr ho) hsrc2
      have hv : (o.refreshFromSource f false w).val = none := by rw [hok]
      have hl := hlook hv
      rw [refreshFromSource_lookups f o false w (Or.inr ho)] at hl
      refine ⟨?_, hl⟩
      rw [hbusy hv]
    · intro e ho hsrc
      have hsrc2 : w.resolve
          (if (w.pending.lookup o.abs).isSome then o.ParentFs else FsRef.wrapped)
          (o.Remote f) = Except.error e := by
        rw [hsome]; exact hsrc
      have herr := refreshFromSource_error f o false w e (Or.inr ho) hsrc2
      have hv : (o.refreshFromSource f false w).val =
          some (Error.wrapf e ("in parent fs " ++ o.ParentFs.name f)) := by
        rw [herr, hsome]; rfl
      rw [Remove_after_failed_refresh f o w _ hv]
  · intro hwb
    refine ⟨?_, ?_, ?_⟩
    · intro e hv
      rw [Remove_after_failed_refresh f o w e hv]
    · intro hv
      exact Remove_direct f o w hwb hv
    · intro live ho
      have hh : o.fsObject.isSome = true := by rw [ho]; rfl
      have hsk := refreshFromSource_skip f o w hh
      have hv : (o.refreshFromSource f false w).val = none := by rw [hsk]
      rw [Remove_direct f o w hwb hv, hsk]
      obtain ⟨c1, c2, c3, -⟩ := removeWrite_counts f o w live ho
      exact ⟨c1, c2, c3⟩

/-- Witness for the amended C11: the example record holding a handle, removed
while the upload of its path has started. -/
theorem remove_rejected_while_upload_started_witness :
    exampleFs.tempWritePath ≠ "" ∧
    (exampleUploadingCached 5).pending.lookup exampleHeld.abs = some true ∧
    (exampleHeld.Remove exampleFs (exampleUploadingCached 5)).val =
      some (Error.errorf "a/b.txt is currently uploading, can\x27t delete") ∧
    (exampleHeld.Remove exampleFs (exampleUploadingCached 5)).world.chunks =
      [("a/b.txt", 0), ("a/b.txt", 1)] :=
  ⟨by decide, by decide,
    (((remove_rejected_while_upload_started exampleFs exampleHeld
      (exampleUploadingCached 5) (by decide)).1 (by decide)).2.2.2.2.2.2.2.2.2.2.2.1
        rfl).1.trans (by decide),
    ((remove_rejected_while_upload_started exampleFs exampleHeld
      (exampleUploadingCached 5) (by decide)).1 (by decide)).2.2.2.1⟩

/-! ## Successful writes and the outcome of the store calls -/

theorem refreshFromSource_nil_handle (f : Fs) (o : Object) (force : Bool) (w : World)
    (h : (o.refreshFromSource f force w).val = none) :
    ∃ live, (o.refreshFromSource f force w).obj.fsObject = some live := by
  by_cases hg : force = true ∨ o.fsObject = none
  · cases hr : w.resolve
        (if (w.pending.lookup o.abs).isSome then o.ParentFs else FsRef.wrapped)
        (o.Remote f) with
    | error cause =>
      rw [refreshFromSource_error f o force w cause hg hr] at h
      simp at h
    | ok live =>
      rw [refreshFromSource_ok f o force w live hg hr]
      exact ⟨live, rfl⟩
  · have h1 : force = false := by
      cases force
      · rfl
      · exact absurd (Or.inl rfl) hg
    cases hq : o.fsObject with
    | none => exact absurd (Or.inr hq) hg
    | some live =>
      have h2 : o.fsObject.isSome = true := by rw [hq]; rfl
      rw [h1, refreshFromSource_skip f o w h2]
      exact ⟨live, hq⟩

/-- The value and the object left by `refreshFromSource`, and the ledger, are
the same whatever the outcome of the four store calls. -/
theorem refreshFromSource_store_indep (f : Fs) (o : Object) (force : Bool) (w : World)
    (a x y z : Option Error) :
    (o.refreshFromSource f force
      { w with addObjectErr := a, removeObjectErr := x, removePendingUploadErr := y,
               expireDirErr := z }).val = (o.refreshFromSource f force w).val ∧
    (o.refreshFromSource f force
      { w with addObjectErr := a, removeObjectErr := x, removePendingUploadErr := y,
               expireDirErr := z }).obj = (o.refreshFromSource f force w).obj ∧
    (o.refreshFromSource f force
      { w with addObjectErr := a, removeObjectErr := x, removePendingUploadErr := y,
               expireDirErr := z }).world.pending =
      (o.refreshFromSource f force w).world.pending := by
  refine ⟨?_, ?_, ?_⟩
  · by_cases hg : force = true ∨ o.fsObject = none
    · cases hr : w.resolve
          (if (w.pending.lookup o.abs).isSome then o.ParentFs else FsRef.wrapped)
          (o.Remote f) with
      | error cause =>
        rw [refreshFromSource_error f o force w cause hg hr,
          refreshFromSource_error f o force _ cause hg
            (by simpa [World.resolve] using hr)]
      | ok live =>
        rw [refreshFromSource_ok f o force w live hg hr,
          refreshFromSource_ok f o force _ live hg (by simpa [World.resolve] using hr)]
    · have h1 : force = false := by
        cases force
        · rfl
        · exact absurd (Or.inl rfl) hg
      have h2 : o.fsObject.isSome = true := by
        cases hq : o.fsObject
        · exact absurd (Or.inr hq) hg
        · rfl
      rw [h1, refreshFromSource_skip f o w h2, refreshFromSource_skip f o _ h2]
  · by_cases hg : force = true ∨ o.fsObject = none
    · cases hr : w.resolve
          (if (w.pending.lookup o.abs).isSome then o.ParentFs else FsRef.wrapped)
          (o.Remote f) with
      | error cause =>
        rw [refreshFromSource_error f o force w cause hg hr,
          refreshFromSource_error f o force _ cause hg
            (by simpa [World.resolve] using hr)]
      | ok live =>
        rw [refreshFromSource_ok f o force w live hg hr,
          refreshFromSource_ok f o force _ live hg (by simpa [World.resolve] using hr)]
    · have h1 : force = false := by
        cases force
        · rfl
        · exact absurd (Or.inl rfl) hg
      have h2 : o.fsObject.isSome = true := by
        cases hq : o.fsObject
        · exact absurd (Or.inr hq) hg
        · rfl
      rw [h1, refreshFromSource_skip f o w h2, refreshFromSource_skip f o _ h2]
  · rw [(refreshFromSource_frame f o force _).1, (refreshFromSource_frame f o force w).1]

/-- The value returned by `Remove` is the same whatever the outcome of the four
store calls. -/
theorem Remove_val_store_indep (f : Fs) (o : Object) (w : World) (a x y z : Option Error) :
    (o.Remove f
      { w with addObjectErr := a, removeObjectErr := x, removePendingUploadErr := y,
               expireDirErr := z }).val = (o.Remove f w).val := by
  obtain ⟨hv, hob, hp⟩ := refreshFromSource_store_indep f o false w a x y z
  cases hval : (o.refreshFromSource f false w).val with
  | some e =>
    rw [Remove_after_failed_refresh f o w e hval,
      Remove_after_failed_refresh f o _ e (hv.trans hval)]
  | none =>
    obtain ⟨live, hl⟩ := refreshFromSource_nil_handle f o false w hval
    have hr := Out_eta_none _ hval
    have hr2 := Out_eta_none _ (hv.trans hval)
    by_cases hb : f.tempWritePath ≠ "" ∧
        (o.refreshFromSource f false w).world.pending.lookup
          (o.refreshFromSource f false w).obj.abs = some true
    · rw [Remove_started_upload f o w hb.1 hval hb.2,
        Remove_started_upload f o _ hb.1 (hv.trans hval) (by rw [hp, hob]; exact hb.2), hob]
    · have hs : f.tempWritePath = "" ∨
          (o.refreshFromSource f false w).world.pending.lookup
            (o.refreshFromSource f false w).obj.abs ≠ some true := by
        by_cases h1 : f.tempWritePath = ""
        · exact Or.inl h1
        · exact Or.inr (fun h2 => hb ⟨h1, h2⟩)
      rw [Remove_val_not_started f o w _ _ live hr hl hs,
        Remove_val_not_started f o _ _ _ live hr2 (by rw [hob]; exact hl)
          (by rw [hp, hob]; exact hs)]

/-- The value returned by `Update` is the same whatever the outcome of the four
store calls. -/
theorem Update_val_store_indep (f : Fs) (o : Object) (src : ObjectInfo) (w : World)
    (a x y z : Option Error) :
    (o.Update f src
      { w with addObjectErr := a, removeObjectErr := x, removePendingUploadErr := y,
               expireDirErr := z }).val = (o.Update f src w).val := by
  obtain ⟨hv, hob, hp⟩ := refreshFromSource_store_indep f o false w a x y z
  cases hval : (o.refreshFromSource f false w).val with
  | some e =>
    rw [Update_after_failed_refresh f o src w e hval,
      Update_after_failed_refresh f o src _ e (hv.trans hval)]
  | none =>
    obtain ⟨live, hl⟩ := refreshFromSource_nil_handle f o false w hval
    have hr := Out_eta_none _ hval
    have hr2 := Out_eta_none _ (hv.trans hval)
    by_cases hb : f.tempWritePath ≠ "" ∧
        (o.refreshFromSource f false w).world.pending.lookup
          (o.refreshFromSource f false w).obj.abs = some true
    · rw [Update_started_upload f o src w hb.1 hval hb.2,
        Update_started_upload f o src _ hb.1 (hv.trans hval) (by rw [hp, hob]; exact hb.2),
        hob]
    · have hs : f.tempWritePath = "" ∨
          (o.refreshFromSource f false w).world.pending.lookup
            (o.refreshFromSource f false w).obj.abs ≠ some true := by
        by_cases h1 : f.tempWritePath = ""
        · exact Or.inl h1
        · exact Or.inr (fun h2 => hb ⟨h1, h2⟩)
      rw [Update_val_not_started f o src w _ _ live hr hl hs,
        Update_val_not_started f o src _ _ _ live hr2 (by rw [hob]; exact hl)
          (by rw [hp, hob]; exact hs)]

/-- C12, amended: after `Remove` returns nil, the handle's `Remove`, the store's
`RemoveObject` and `removePendingUpload` on the absolute path and `ExpireDir` on
the parent directory have each been called exactly once, in this order, and
each store call that succeeded has taken effect: with a successful
`RemoveObject` the record and all chunks of the path are absent, with a
successful `removePendingUpload` the path has no ledger entry, with a
successful `ExpireDir` the parent directory is marked expired.  The errors of
the store calls are discarded: a failing one leaves its part as it was, and
`Remove` returns nil all the same, whatever the outcome of each store call. -/
theorem remove_success_clears_cache (f : Fs) (o : Object) (w : World)
    (h : (o.Remove f w).val = none) :
    removes (o.Remove f w).world.trace = removes w.trace + 1 ∧
    purges (o.Remove f w).world.trace = purges w.trace + 1 ∧
    unqueues (o.Remove f w).world.trace = unqueues w.trace + 1 ∧
    expires (o.Remove f w).world.trace = expires w.trace + 1 ∧
    (w.removeObjectErr = none →
      (o.Remove f w).world.objects.lookup o.abs = none ∧
      ∀ i, (o.abs, i) ∉ (o.Remove f w).world.chunks) ∧
    (w.removePendingUploadErr = none →
      (o.Remove f w).world.pending.lookup o.abs = none) ∧
    (w.expireDirErr = none →
      f.cleanPath (path.Dir (o.Remote f)) ∈ (o.Remove f w).world.expiredDirs) ∧
    (∃ pre post, (o.Remove f w).world.trace =
      pre ++ Event.notifyChangeUpstreamIfNeeded (f.cleanPath (path.Dir (o.Remote f)))
          EntryType.directory ::
        Event.expireDir (f.cleanPath (path.Dir (o.Remote f))) ::
        Event.removePendingUpload o.abs :: Event.removeObject o.abs ::
        Event.objectRemove :: post) ∧
    (∀ a x y z : Option Error,
      (o.Remove f
        { w with addObjectErr := a, removeObjectErr := x, removePendingUploadErr := y,
                 expireDirErr := z }).val = none) := by
  obtain ⟨o0, w0, hn, hd, hnil, hw, -, e1, e2, e3, c1, c2, c3, -, c5⟩ :=
    Remove_nil_shape f o w h
  have habs : o0.abs = o.abs := by unfold Object.abs; rw [hn, hd]
  have hrem : o0.Remote f = o.Remote f := Remote_congr f o0 o hn hd
  obtain ⟨-, ht, k1, k2, k3⟩ := removeWrite_nil f o0 w0 hnil
  simp only [habs, hrem] at ht k1 k2 k3
  rw [e1] at k1
  rw [e2] at k2
  rw [e3] at k3
  have hind : ∀ a x y z : Option Error,
      (o.Remove f
        { w with addObjectErr := a, removeObjectErr := x, removePendingUploadErr := y,
                 expireDirErr := z }).val = none := by
    intro a x y z
    rw [Remove_val_store_indep f o w a x y z]
    exact h
  rcases hw with hw | hw
  · rw [hw]
    refine ⟨?_, ?_, ?_, ?_, k1, k2, k3, ⟨[], w0.trace, by simpa using ht⟩, hind⟩
    · simp [ht, removes_cons, c5]
    · simp [ht, purges_cons, c1]
    · simp [ht, unqueues_cons, c2]
    · simp [ht, expires_cons, c3]
  · rw [hw]
    refine ⟨?_, ?_, ?_, ?_, ?_, ?_, ?_, ⟨[Event.play], w0.trace, by simp [play, ht]⟩, hind⟩
    · simp [play, ht, removes_cons, c5]
    · simp [play, ht, purges_cons, c1]
    · simp [play, ht, unqueues_cons, c2]
    · simp [play, ht, expires_cons, c3]
    · intro a; simpa [play] using k1 a
    · intro a; simpa [play] using k2 a
    · intro a; simpa [play] using k3 a

/-- Witness for the amended C12: the example record holding a handle, removed
while its path is queued (upload not started) and the store works; with a
store whose removals all fail the call returns nil as well. -/
theorem remove_success_clears_cache_witness :
    (exampleHeld.Remove exampleFs (exampleQueuedCached 5)).val = none ∧
    (exampleHeld.Remove exampleFs (exampleQueuedCached 5)).world.objects.lookup
      exampleHeld.abs = none ∧
    (exampleHeld.Remove exampleFs (exampleQueuedCached 5)).world.pending.lookup
      exampleHeld.abs = none ∧
    "a" ∈ (exampleHeld.Remove exampleFs (exampleQueuedCached 5)).world.expiredDirs ∧
    (exampleHeld.Remove exampleFs
      { exampleQueuedCached 5 with
        addObjectErr := none, removeObjectErr := some (Error.backend 5),
        removePendingUploadErr := some (Error.backend 5),
        expireDirErr := some (Error.backend 5) }).val = none :=
  ⟨by decide,
    ((remove_success_clears_cache exampleFs exampleHeld (exampleQueuedCached 5)
      (by decide)).2.2.2.2.1 rfl).1,
    (remove_success_clears_cache exampleFs exampleHeld (exampleQueuedCached 5)
      (by decide)).2.2.2.2.2.1 rfl,
    (remove_success_clears_cache exampleFs exampleHeld (exampleQueuedCached 5)
      (by decide)).2.2.2.2.2.2.1 rfl,
    (remove_success_clears_cache exampleFs exampleHeld (exampleQueuedCached 5)
      (by decide)).2.2.2.2.2.2.2.2 none (some (Error.backend 5)) (some (Error.backend 5))
      (some (Error.backend 5))⟩

/-- C13, amended: after `Update` returns nil, `CacheSize` is `src.Size()`,
`CacheModTime` is `src.ModTime()` in Unix nanoseconds, `CacheHashes` is empty and
`CacheTs` is the current time; the handle's `Update` and the store's
`RemoveObject` on the absolute path were each called once and `AddObject` was
called with the new record right after the purge.  When `RemoveObject` succeeds
all chunks of the path are gone, and when `AddObject` succeeds the store holds
the new record; the errors of both calls are discarded: a failing one leaves
its part of the cache as it was, and `Update` returns nil all the same,
whatever the outcome of each store call. -/
theorem update_success_replaces_record (f : Fs) (o : Object) (src : ObjectInfo) (w : World)
    (h : (o.Update f src w).val = none) :
    (o.Update f src w).obj.CacheSize = src.size ∧
    (o.Update f src w).obj.CacheModTime = UnixNano src.modTime ∧
    (o.Update f src w).obj.CacheHashes = some [] ∧
    (o.Update f src w).obj.CacheTs = w.now ∧
    updates (o.Update f src w).world.trace = updates w.trace + 1 ∧
    purges (o.Update f src w).world.trace = purges w.trace + 1 ∧
    (∃ pre post, (o.Update f src w).world.trace =
      pre ++ Event.addObject (o.Update f src w).obj :: Event.removeObject o.abs ::
        Event.objectUpdate src :: post) ∧
    (w.removeObjectErr = none → ∀ i, (o.abs, i) ∉ (o.Update f src w).world.chunks) ∧
    (w.addObjectErr = none →
      (o.Update f src w).world.objects.lookup o.abs = some (o.Update f src w).obj) ∧
    (∀ a x y z : Option Error,
      (o.Update f src
        { w with addObjectErr := a, removeObjectErr := x, removePendingUploadErr := y,
                 expireDirErr := z }).val = none ∧
      (o.Update f src
        { w with addObjectErr := a, removeObjectErr := x, removePendingUploadErr := y,
                 expireDirErr := z }).obj.CacheSize = src.size ∧
      (o.Update f src
        { w with addObjectErr := a, removeObjectErr := x, removePendingUploadErr := y,
                 expireDirErr := z }).obj.CacheModTime = UnixNano src.modTime ∧
      (o.Update f src
        { w with addObjectErr := a, removeObjectErr := x, removePendingUploadErr := y,
                 expireDirErr := z }).obj.CacheHashes = some [] ∧
      (o.Update f src
        { w with addObjectErr := a, removeObjectErr := x, removePendingUploadErr := y,
                 expireDirErr := z }).obj.CacheTs = w.now) := by
  have hind : ∀ a x y z : Option Error,
      (o.Update f src
        { w with addObjectErr := a, removeObjectErr := x, removePendingUploadErr := y,
                 expireDirErr := z }).val = none := by
    intro a x y z
    rw [Update_val_store_indep f o src w a x y z]
    exact h
  have hsize : ∀ (w2 : World), (o.Update f src w2).val = none →
      (o.Update f src w2).obj.CacheSize = src.size ∧
      (o.Update f src w2).obj.CacheModTime = UnixNano src.modTime ∧
      (o.Update f src w2).obj.CacheHashes = some [] ∧
      (o.Update f src w2).obj.CacheTs = w2.now := by
    intro w2 h2
    obtain ⟨o0, w0, -, -, hnil, -, ho, -, -, en2, -⟩ := Update_nil_shape f o src w2 h2
    rw [ho, (updateWrite_nil o0 src w0 hnil).1]
    exact ⟨rfl, rfl, rfl, en2⟩
  obtain ⟨o0, w0, hn, hd, hnil, hw, ho, e1, e0, en, c1, c2⟩ := Update_nil_shape f o src w h
  have habs : o0.abs = o.abs := by unfold Object.abs; rw [hn, hd]
  obtain ⟨k0, ht, k1, k2⟩ := updateWrite_nil o0 src w0 hnil
  simp only [habs] at ht k1 k2
  rw [e1] at k1
  rw [e0] at k2
  rw [ho]
  have hf : (o0.updateWrite src w0).obj.CacheSize = src.size ∧
      (o0.updateWrite src w0).obj.CacheModTime = UnixNano src.modTime ∧
      (o0.updateWrite src w0).obj.CacheHashes = some [] ∧
      (o0.updateWrite src w0).obj.CacheTs = w.now := by
    rw [k0]; exact ⟨rfl, rfl, rfl, en⟩
  have hlast : ∀ a x y z : Option Error,
      (o.Update f src
        { w with addObjectErr := a, removeObjectErr := x, removePendingUploadErr := y,
                 expireDirErr := z }).val = none ∧
      (o.Update f src
        { w with addObjectErr := a, removeObjectErr := x, removePendingUploadErr := y,
                 expireDirErr := z }).obj.CacheSize = src.size ∧
      (o.Update f src
        { w with addObjectErr := a, removeObjectErr := x, removePendingUploadErr := y,
                 expireDirErr := z }).obj.CacheModTime = UnixNano src.modTime ∧
      (o.Update f src
        { w with addObjectErr := a, removeObjectErr := x, removePendingUploadErr := y,
                 expireDirErr := z }).obj.CacheHashes = some [] ∧
      (o.Update f src
        { w with addObjectErr := a, removeObjectErr := x, removePendingUploadErr := y,
                 expireDirErr := z }).obj.CacheTs = w.now :=
    fun a x y z => ⟨hind a x y z, hsize _ (hind a x y z)⟩
  refine ⟨hf.1, hf.2.1, hf.2.2.1, hf.2.2.2, ?_⟩
  rcases hw with hw | hw
  · rw [hw]
    refine ⟨?_, ?_, ⟨[], w0.trace, by simpa using ht⟩, k1, k2, hlast⟩
    · simp [ht, updates_cons, c2]
    · simp [ht, purges_cons, c1]
  · rw [hw]
    refine ⟨?_, ?_, ⟨[Event.play], w0.trace, by simp [play, ht]⟩, ?_, ?_, hlast⟩
    · simp [play, ht, updates_cons, c2]
    · simp [play, ht, purges_cons, c1]
    · intro a; simpa [play] using k1 a
    · intro a; simpa [play] using k2 a

/-- Witness for the amended C13: the example record holding a handle, updated
while its path is queued (upload not started) and the store works; with a
store whose writes and removals all fail the call returns nil as well. -/
theorem update_success_replaces_record_witness :
    (exampleHeld.Update exampleFs exampleSrc (exampleQueuedCached 5)).val = none ∧
    (exampleHeld.Update exampleFs exampleSrc (exampleQueuedCached 5)).obj.CacheSize = 42 ∧
    (∀ i, (exampleHeld.abs, i) ∉
      (exampleHeld.Update exampleFs exampleSrc (exampleQueuedCached 5)).world.chunks) ∧
    (exampleHeld.Update exampleFs exampleSrc (exampleQueuedCached 5)).world.objects.lookup
      exampleHeld.abs =
      some (exampleHeld.Update exampleFs exampleSrc (exampleQueuedCached 5)).obj ∧
    (exampleHeld.Update exampleFs exampleSrc
      { exampleQueuedCached 5 with
        addObjectErr := some (Error.backend 5), removeObjectErr := some (Error.backend 5),
        removePendingUploadErr := none, expireDirErr := none }).val = none :=
  ⟨by decide,
    (update_success_replaces_record exampleFs exampleHeld exampleSrc (exampleQueuedCached 5)
      (by decide)).1,
    (update_success_replaces_record exampleFs exampleHeld exampleSrc (exampleQueuedCached 5)
      (by decide)).2.2.2.2.2.2.2.1 rfl,
    (update_success_replaces_record exampleFs exampleHeld exampleSrc (exampleQueuedCached 5)
      (by decide)).2.2.2.2.2.2.2.2.1 rfl,
    ((update_success_replaces_record exampleFs exampleHeld exampleSrc (exampleQueuedCached 5)
      (by decide)).2.2.2.2.2.2.2.2.2 (some (Error.backend 5)) (some (Error.backend 5))
      none none).1⟩

/-! ## Cached digests -/

theorem LiveObject_Hash_pair (live : LiveObject) (ht : Nat) :
    (∀ e, (live.Hash ht).2 = some e → live.Hash ht = ("", some e)) ∧
    ((live.Hash ht).2 = none → live.Hash ht = ((live.Hash ht).1, none)) := by
  unfold LiveObject.Hash
  cases live.hashErr <;> simp

/-- `Hash` on a record that the refresh it starts with has just fetched anew:
the digests are empty, the handle is held, and the handle is asked. -/
theorem Hash_after_fresh_fetch (f : Fs) (o : Object) (ht : Nat) (w : World)
    (live : LiveObject)
    (h : w.now > o.CacheTs + f.fileAge ∨ o.Remote f ∈ w.notified)
    (hsrc : w.resolve (if (w.pending.lookup o.abs).isSome then o.ParentFs else FsRef.wrapped)
        (o.Remote f) = Except.ok live) :
    (∀ e, (live.Hash ht).2 = some e →
      o.Hash f ht w =
        ⟨("", some e), (o.refresh f w).obj,
          (o.refresh f w).world.log (Event.objectHash ht)⟩) ∧
    ((live.Hash ht).2 = none →
      o.Hash f ht w =
        ⟨((live.Hash ht).1, none),
          { (o.refresh f w).obj with CacheHashes := some [(ht, (live.Hash ht).1)] },
          (AddObject ((o.refresh f w).world.log (Event.objectHash ht)) o.abs
            { (o.refresh f w).obj with CacheHashes := some [(ht, (live.Hash ht).1)] }).2⟩) := by
  obtain ⟨-, k2, -⟩ := refresh_miss_ok f o w live h hsrc
  have hh : (o.refresh f w).obj.CacheHashes = some [] := by rw [k2]
  have hl : (o.refresh f w).obj.fsObject = some live := by rw [k2]
  have hab : (o.refresh f w).obj.abs = o.abs := by rw [k2]; rfl
  have hmiss : ((o.refresh f w).obj.CacheHashes.getD []).lookup ht = none := by
    rw [hh]; rfl
  have hsame : ({ (o.refresh f w).obj with
      CacheHashes := some ((o.refresh f w).obj.CacheHashes.getD []) } : Object) =
      (o.refresh f w).obj := by
    cases hx : (o.refresh f w).obj with
    | mk a b c d1 e g i j k hashes =>
      rw [hx] at hh
      simp only at hh
      subst hh
      rfl
  have hskip : Object.refreshFromSource f
      { (o.refresh f w).obj with
        CacheHashes := some ((o.refresh f w).obj.CacheHashes.getD []) }
      false (o.refresh f w).world = ⟨none, (o.refresh f w).obj, (o.refresh f w).world⟩ := by
    rw [hsame]
    exact refreshFromSource_skip f _ _ (by rw [hl]; rfl)
  obtain ⟨-, m2⟩ := Hash_miss f o ht w _ hmiss hskip.symm
  obtain ⟨a1, a2⟩ := m2 live rfl hl
  refine ⟨a1, ?_⟩
  intro he
  rw [a2 he]
  simp only [hh, hab, Option.getD_some, setHash, List.filter_nil]

/-- C15, as the claim states it, fails: the example record holds a handle and
the digest `abc` for hash type 1, and its TTL has expired at 61 s.  `Hash`
refreshes from the source first, which empties the cached digests; it then
asks the handle and returns the origin digest `def`, after one backend lookup
and one origin `Hash` call. -/
theorem hash_cached_expired_counterexample :
    (exampleHashed.CacheHashes.getD []).lookup 1 = some "abc" ∧
    (exampleHashed.Hash exampleFs 1 (exampleWorldHashed 61000000000)).val = ("def", none) ∧
    lookups (exampleHashed.Hash exampleFs 1 (exampleWorldHashed 61000000000)).world.trace = 1 ∧
    hashCalls (exampleHashed.Hash exampleFs 1 (exampleWorldHashed 61000000000)).world.trace
      = 1 :=
  ⟨by decide, by decide, by decide, by decide⟩

/-- C15, amended: `Hash(kind)` on an object whose record holds a digest for
`kind` returns that digest with a nil error, without a backend lookup or an
origin `Hash` call and leaving the object as it was, when the record is within
its TTL and the path is not notified.  When the TTL has expired or the path is
notified, `Hash` refreshes from the source first.  If that refresh fails, the
cached digest is still returned and no origin `Hash` call is made.  If its
lookup succeeds, the cached digests are emptied and the call goes on as a miss:
after this one lookup the handle just fetched is asked, once, and what it
answers is returned, the digest being stored as the only entry of the record
when the handle gives one. -/
theorem hash_cached_digest_is_served (f : Fs) (o : Object) (ht : Nat) (w : World)
    (d : String) (hc : (o.CacheHashes.getD []).lookup ht = some d) :
    (¬ (w.now > o.CacheTs + f.fileAge) → o.Remote f ∉ w.notified →
      (o.Hash f ht w).val = (d, none) ∧
      (o.Hash f ht w).obj = o ∧
      lookups (o.Hash f ht w).world.trace = lookups w.trace ∧
      hashCalls (o.Hash f ht w).world.trace = hashCalls w.trace) ∧
    (∀ e, (o.refresh f w).val = some e →
      (o.Hash f ht w).val = (d, none) ∧
      hashCalls (o.Hash f ht w).world.trace = hashCalls w.trace) ∧
    (∀ live, (w.now > o.CacheTs + f.fileAge ∨ o.Remote f ∈ w.notified) →
      w.resolve (if (w.pending.lookup o.abs).isSome then o.ParentFs else FsRef.wrapped)
        (o.Remote f) = Except.ok live →
      (o.Hash f ht w).val = live.Hash ht ∧
      lookups (o.Hash f ht w).world.trace = lookups w.trace + 1 ∧
      hashCalls (o.Hash f ht w).world.trace = hashCalls w.trace + 1 ∧
      ((live.Hash ht).2 = none →
        (o.Hash f ht w).obj.CacheHashes = some [(ht, (live.Hash ht).1)]) ∧
      (∀ e, (live.Hash ht).2 = some e → (o.Hash f ht w).obj.CacheHashes = some [])) := by
  refine ⟨?_, ?_, ?_⟩
  · intro h1 h2
    have hit := refresh_hit f o w h1 h2
    have hh : ((o.refresh f w).obj.CacheHashes.getD []).lookup ht = some d := by
      rw [hit]; exact hc
    rw [Hash_hit f o ht w d hh, hit]
    refine ⟨rfl, getD_lookup_some o ht d hc, ?_, ?_⟩
    · simp [isNotifiedRemote, lookups_cons]
    · simp [isNotifiedRemote, hashCalls_cons]
  · intro e he
    have hobj := refresh_failed f o w e he
    have hh : ((o.refresh f w).obj.CacheHashes.getD []).lookup ht = some d := by
      rw [hobj]; exact hc
    rw [Hash_hit f o ht w d hh]
    exact ⟨rfl, refresh_hashCalls f o w⟩
  · intro live h hsrc
    obtain ⟨-, k2, k3⟩ := refresh_miss_ok f o w live h hsrc
    have hh : (o.refresh f w).obj.CacheHashes = some [] := by rw [k2]
    obtain ⟨a1, a2⟩ := Hash_after_fresh_fetch f o ht w live h hsrc
    obtain ⟨p1, p2⟩ := LiveObject_Hash_pair live ht
    have hcalls := refresh_hashCalls f o w
    cases he : (live.Hash ht).2 with
    | some e =>
      rw [a1 e he]
      refine ⟨(p1 e he).symm, ?_, ?_, fun hx => by simp at hx, fun _ _ => hh⟩
      · simp only [World.log, lookups_cons]
        exact k3
      · simp only [World.log, hashCalls_cons]
        rw [hcalls]
    | none =>
      rw [a2 he]
      refine ⟨(p2 he).symm, ?_, ?_, fun _ => rfl, fun e hx => by simp at hx⟩
      · simp only [AddObject_trace, World.log, lookups_cons]
        exact k3
      · simp only [AddObject_trace, World.log, hashCalls_cons]
        rw [hcalls]

/-- Witness for the amended C15: the example record with the digest `abc`, read
at 30 s, within its TTL. -/
theorem hash_cached_digest_is_served_witness :
    (exampleHashed.CacheHashes.getD []).lookup 1 = some "abc" ∧
    (exampleHashed.Hash exampleFs 1 (exampleWorldHashed 30000000000)).val = ("abc", none) ∧
    lookups (exampleHashed.Hash exampleFs 1 (exampleWorldHashed 30000000000)).world.trace = 0 :=
  ⟨by decide,
    ((hash_cached_digest_is_served exampleFs exampleHashed 1 (exampleWorldHashed 30000000000)
      "abc" (by decide)).1 (by decide) (by decide)).1,
    ((hash_cached_digest_is_served exampleFs exampleHashed 1 (exampleWorldHashed 30000000000)
      "abc" (by decide)).1 (by decide) (by decide)).2.2.1⟩

/-! ## Refreshes that overlap -/

end cache

namespace mount

/-! ## Directory listing and attributes -/

theorem readDirLoop_eq_map (items : List Node) :
    ∀ acc : List Dirent,
      readDirLoop items acc =
        acc ++ items.map (fun n =>
          ({ Inode := 0,
             Typ := if n.IsDir then DirentType.DT_Dir else DirentType.DT_File,
             Name := n.Name } : Dirent)) := by
  induction items with
  | nil => intro acc; simp [readDirLoop]
  | cons n rest ih =>
    intro acc
    unfold readDirLoop
    rw [ih]
    cases h : n.IsDir <;> simp [h]

/-- C29: `ReadDirAll` maps the listing one to one: when the underlying listing
succeeds with `k` items the result has exactly `k` dirents in the same order,
dirent `i` carrying the name of item `i` and the type `DT_Dir` when the item is
a directory, `DT_File` otherwise, with a nil error; when the underlying listing
fails the result is no dirents and the translated error. -/
theorem readDirAll_maps_listing (d : Dir) (translateError : Option Error → Option Error) :
    (∀ items : List Node, d.listing = Except.ok items →
      (d.ReadDirAll translateError).2 = none ∧
      (d.ReadDirAll translateError).1.length = items.length ∧
      (d.ReadDirAll translateError).1.map (fun e => e.Name) = items.map (fun n => n.Name) ∧
      (∀ i : Nat, (d.ReadDirAll translateError).1[i]? =
        (items[i]?).map (fun (n : Node) =>
          ({ Inode := 0,
             Typ := if n.IsDir then DirentType.DT_Dir else DirentType.DT_File,
             Name := n.Name } : Dirent)))) ∧
    (∀ err, d.listing = Except.error err →
      d.ReadDirAll translateError = ([], translateError (some err))) := by
  constructor
  · intro items h
    unfold Dir.ReadDirAll
    simp only [h, readDirLoop_eq_map, List.nil_append]
    refine ⟨trivial, by simp, by simp, ?_⟩
    intro i
    simp [List.getElem?_map]
  · intro err h
    unfold Dir.ReadDirAll
    simp only [h]

/-- Witness for C29: the example directory lists a file and a subdirectory. -/
theorem readDirAll_maps_listing_witness :
    exampleDir.ReadDirAll exampleTranslate =
      ([{ Inode := 0, Typ := DirentType.DT_File, Name := "b.txt" },
        { Inode := 0, Typ := DirentType.DT_Dir, Name := "sub" }], none) ∧
    (exampleDir.ReadDirAll exampleTranslate).1.length = 2 :=
  ⟨by decide,
    ((readDirAll_maps_listing exampleDir exampleTranslate).1 _ rfl).2.1⟩

/-- C30: `Setattr` changes the modification time only.  With the `NoModTime`
option it returns nil without calling `SetModTime`.  Otherwise it calls
`SetModTime` at most once: with the current time when the request asks for
`MtimeNow`, whatever `Mtime` it carries, else with `req.Mtime` when the `Mtime`
flag is set, else not at all; it returns the translation of that call's error,
or of nil when no call was made. -/
theorem setattr_sets_modTime_only (d : Dir) (translateError : Option Error → Option Error)
    (now : Int) (req : SetattrRequest) :
    (d.NoModTime = true → d.Setattr translateError now req = (none, [])) ∧
    (d.NoModTime = false →
      (d.Setattr translateError now req).2.length ≤ 1 ∧
      (req.ValidMtimeNow = true →
        d.Setattr translateError now req = (translateError (d.SetModTime now), [now])) ∧
      (req.ValidMtimeNow = false → req.ValidMtime = true →
        d.Setattr translateError now req =
          (translateError (d.SetModTime req.Mtime), [req.Mtime])) ∧
      (req.ValidMtimeNow = false → req.ValidMtime = false →
        d.Setattr translateError now req = (translateError none, []))) := by
  constructor
  · intro h
    simp [Dir.Setattr, h]
  · intro h
    refine ⟨?_, ?_, ?_, ?_⟩
    · unfold Dir.Setattr
      cases req.ValidMtimeNow <;> cases req.ValidMtime <;> simp [h]
    · intro h1
      simp [Dir.Setattr, h, h1]
    · intro h1 h2
      simp [Dir.Setattr, h, h1, h2]
    · intro h1 h2
      simp [Dir.Setattr, h, h1, h2]

/-- Witness for C30: on the example directory a request with both `MtimeNow` and
an explicit `Mtime` sets the current time 7, once, and the error of that call
comes back translated. -/
theorem setattr_sets_modTime_only_witness :
    exampleDir.Setattr exampleTranslate 7
      { ValidMtimeNow := true, ValidMtime := true, Mtime := 3 } =
      (some (Error.code 1001), [7]) :=
  (((setattr_sets_modTime_only exampleDir exampleTranslate 7
      { ValidMtimeNow := true, ValidMtime := true, Mtime := 3 }).2 rfl).2.1 rfl).trans
    (by decide)

end mount
